import Mathlib

/-!
# RobRehabSystem-Lite: the control core of `system.c`

A shallow embedding of `src/src/system.c` (and of the parts of `src/src/data_io.c` it calls)
together with theorems about the event, axes and joints services and about the session refresh.

Conventions of the embedding.

* The global variables of `system.c` and the function-local `static` buffers are the fields of
  `System`; every operation is a state transformer.
* A static message buffer is a window `[0, IPC_MAX_MESSAGE_LENGTH)` of a flat byte memory
  `Mem`; a C pointer into the buffer is its offset. Accesses at an offset at or beyond the
  maximum message length fall outside the array; they are kept visible instead of hidden.
* Integer to `Byte` conversions are written with an explicit `% 256`.
* A `float` is its four bytes of object representation (`F32`); the type of the fields of
  `RobotVariables` is a parameter `Val`, with the two conversions as parameters.
* The robot controller, the IPC layer and the JSON library are collaborators whose code is not
  in `src/`; the robot controller is a record of functions over an abstract world `W`, and
  every call is recorded, in order, in `System.log`.
* What a slot of a handle array holds between `realloc` and its first assignment is
  indeterminate; it is a parameter of the environment.
* `Reachable` is the set of the states that the program can be in; the DOF count is 0 in all
  of them, and the claims about the running program are stated over them.
-/

namespace RobRehab

/-! ## Handles, bytes and memory -/

/-- Opaque handle of a robot controller (`Robot` in `robots.h`). -/
abbrev Robot := Nat

/-- Opaque handle of an axis (`Axis` in `robots.h`). -/
abbrev Axis := Nat

/-- Opaque handle of a joint (`Joint` in `robots.h`). -/
abbrev Joint := Nat

/-- Opaque handle of an open connection (`IPCConnection` in `ipc/ipc.h`). -/
abbrev IPCConnection := Nat

/-- Flat byte memory addressed by the offset from the start of a static buffer. -/
abbrev Mem := Nat → Nat

/-- The C call `memset( m + start, value, len )`. -/
def memset (m : Mem) (start value len : Nat) : Mem :=
  fun i => if start ≤ i ∧ i < start + len then value else m i

/-- Store of one byte: `m[ off ] = v`. -/
def storeByte (m : Mem) (off v : Nat) : Mem :=
  fun i => if i = off then v else m i

/-- Copy of the bytes `bytes` to `m + off` (what `strncpy`, a message reception or a `float`
store do to the destination). -/
def storeBytes (m : Mem) (off : Nat) (bytes : List Nat) : Mem :=
  fun i => if off ≤ i ∧ i < off + bytes.length then bytes.getD (i - off) 0 else m i

/-- The `len` bytes found at `m + off`. -/
def loadBytes (m : Mem) (off len : Nat) : List Nat :=
  (List.range len).map (fun i => m (off + i))

/-- Object representation of a C `float`: four bytes. -/
structure F32 where
  b0 : Nat
  b1 : Nat
  b2 : Nat
  b3 : Nat
deriving DecidableEq, Repr

/-- The four bytes of a `float`, in memory order. -/
def F32.bytes (f : F32) : List Nat := [f.b0, f.b1, f.b2, f.b3]

/-- The `float` whose four bytes are zero (what `memset( .., 0, .. )` leaves). -/
def F32.zero : F32 := ⟨0, 0, 0, 0⟩

/-- Read of `((float*) (m + off))[ 0 ]`. -/
def loadF32 (m : Mem) (off : Nat) : F32 :=
  ⟨m off, m (off + 1), m (off + 2), m (off + 3)⟩

/-- Write of `((float*) (m + off))[ 0 ] = f`. -/
def storeF32 (m : Mem) (off : Nat) (f : F32) : Mem :=
  storeBytes m off f.bytes

/-- Modelled from the spec: the enumeration of `shared_dof_variables.h` (not in `src/`): a DOF
record carries seven floats in the order position, velocity, acceleration, force, inertia,
stiffness, damping. -/
def DOF_POSITION : Nat := 0

/-- Modelled from the spec: see `DOF_POSITION`. -/
def DOF_VELOCITY : Nat := 1

/-- Modelled from the spec: see `DOF_POSITION`. -/
def DOF_ACCELERATION : Nat := 2

/-- Modelled from the spec: see `DOF_POSITION`. -/
def DOF_FORCE : Nat := 3

/-- Modelled from the spec: see `DOF_POSITION`. -/
def DOF_INERTIA : Nat := 4

/-- Modelled from the spec: see `DOF_POSITION`. -/
def DOF_STIFFNESS : Nat := 5

/-- Modelled from the spec: see `DOF_POSITION`. -/
def DOF_DAMPING : Nat := 6

/-- Modelled from the spec: see `DOF_POSITION`; the number of floats of a DOF record. -/
def DOF_FLOATS_NUMBER : Nat := 7

/-- Modelled from the spec: the macro of `shared_dof_variables.h`, after the pattern of
`JOINT_DATA_BLOCK_SIZE` in `shared_joint_data.h`: `DOF_FLOATS_NUMBER * sizeof(float)`. -/
def DOF_DATA_BLOCK_SIZE : Nat := DOF_FLOATS_NUMBER * 4

/-- The C loop `for( size_t i = start; i < start + count; i++ ) s = body( i, s )`. -/
def forLoop {σ : Type} (body : Nat → σ → σ) : Nat → Nat → σ → σ
  | 0, _, s => s
  | count + 1, start, s => forLoop body count (start + 1) (body start s)

/-! ## The robot controller collaborator -/

/-- Modelled from the spec: the control phases passed to `Robot_SetControlState`
(`ROBOT_OFFSET`, `ROBOT_CALIBRATION`, `ROBOT_PREPROCESSING`, `ROBOT_OPERATION` of `robots.h`,
not in `src/`). -/
inductive RobotState
  | ROBOT_OFFSET
  | ROBOT_CALIBRATION
  | ROBOT_PREPROCESSING
  | ROBOT_OPERATION
deriving DecidableEq, Repr

/-- The structure `RobotVariables` of `robots.h`: the seven variables of a DOF. -/
structure RobotVariables (Val : Type) where
  position : Val
  velocity : Val
  acceleration : Val
  force : Val
  inertia : Val
  stiffness : Val
  damping : Val
deriving DecidableEq, Repr

/-- Everything `system.c` does that the collaborators can observe, in the order it happens:
the messages received and sent, the calls of the robot controller capabilities with their
results, and the reads of the two handle arrays. -/
inductive Event (Val : Type)
  | IPC_ReadMessage (connection : Option IPCConnection) (message : List Nat)
  | IPC_WriteMessage (connection : Option IPCConnection) (message : List Nat)
  | Robot_Init (name : String) (result : Option Robot)
  | Robot_End (robot : Option Robot)
  | Robot_Enable (robot : Option Robot) (result : Bool)
  | Robot_Disable (robot : Option Robot) (result : Bool)
  | Robot_SetControlState (robot : Option Robot) (state : RobotState) (result : Bool)
  | Robot_GetAxesNumber (robot : Option Robot) (result : Nat)
  | Robot_GetAxisName (robot : Option Robot) (index : Nat) (result : Option String)
  | Robot_GetAxis (robot : Option Robot) (index : Nat) (result : Option Axis)
  | Robot_GetJointsNumber (robot : Option Robot) (result : Nat)
  | Robot_GetJointName (robot : Option Robot) (index : Nat) (result : Option String)
  | Robot_GetJoint (robot : Option Robot) (index : Nat) (result : Option Joint)
  | Robot_GetAxisMeasures (axis : Option Axis) (result : Option (RobotVariables Val))
  | Robot_SetAxisSetpoints (axis : Option Axis) (setpoints : RobotVariables Val)
  | Robot_GetJointMeasures (joint : Option Joint) (result : Option (RobotVariables Val))
  | axesListRead (index : Nat)
  | jointsListRead (index : Nat)
deriving DecidableEq, Repr

/-- Whether an event is a call of a robot controller capability. -/
def Event.isRobotCall {Val : Type} : Event Val → Bool
  | .IPC_ReadMessage _ _ => false
  | .IPC_WriteMessage _ _ => false
  | .axesListRead _ => false
  | .jointsListRead _ => false
  | _ => true

/-- Whether an event is a message received from or sent to a channel. -/
def Event.isMessage {Val : Type} : Event Val → Bool
  | .IPC_ReadMessage _ _ => true
  | .IPC_WriteMessage _ _ => true
  | _ => false

/-! ## The document store (`data_io.c` over the JSON library) -/

/-- Modelled from the spec: the node kinds of the JSON library (`json/json.h`, not in `src/`)
that `data_io.c` tests and creates. -/
inductive JSONNodeType
  | JSON_TYPE_BRACE
  | JSON_TYPE_BRACKET
  | JSON_TYPE_STRING
  | JSON_TYPE_NUMBER
  | JSON_TYPE_BOOLEAN
deriving DecidableEq, Repr

/-- Modelled from the spec: a node of the JSON-like tree: its kind, the key under which it hangs
in an object, its text value, and its children in order. -/
structure JSONNodeData where
  type : JSONNodeType
  key : Option String
  value : Option String
  children : List Nat
deriving DecidableEq, Repr

/-- Modelled from the spec: the heap of JSON nodes; a `JSONNode` or `DataHandle` pointer is the
position of the node in the heap, and `none` is `NULL`. -/
abbrev JSONStore := List JSONNodeData

/-- Modelled from the spec: `JSON_GetType` of the JSON library. -/
def JSON_GetType (s : JSONStore) (node : Nat) : Option JSONNodeType :=
  (s[node]?).map (fun n => n.type)

/-- Modelled from the spec: `JSON_Parse( "{}" )`: a new empty object. -/
def JSON_ParseEmpty (s : JSONStore) : JSONStore × Option Nat :=
  (s ++ [⟨JSONNodeType.JSON_TYPE_BRACE, none, none, []⟩], some s.length)

/-- Modelled from the spec: `JSON_AddKey( parent, type, key )`: a new node of the given kind is
appended, under `key`, to the members of the object `parent`. -/
def JSON_AddKey (s : JSONStore) (parent : Nat) (type : JSONNodeType) (key : Option String) :
    JSONStore × Option Nat :=
  ((s.modify (fun p => { p with children := p.children ++ [s.length] }) parent)
      ++ [⟨type, key, none, []⟩], some s.length)

/-- Modelled from the spec: `JSON_AddIndex( parent, type )`: a new node of the given kind is
appended to the items of the array `parent`. -/
def JSON_AddIndex (s : JSONStore) (parent : Nat) (type : JSONNodeType) :
    JSONStore × Option Nat :=
  ((s.modify (fun p => { p with children := p.children ++ [s.length] }) parent)
      ++ [⟨type, none, none, []⟩], some s.length)

/-- Modelled from the spec: `JSON_Set( node, value )`: the text value of a node. -/
def JSON_Set (s : JSONStore) (node : Nat) (value : String) : JSONStore :=
  s.modify (fun p => { p with value := some value }) node

/-- The function `ParseStringData( NULL )` of `data_io.c`: the empty document. -/
def DataIO_CreateEmptyData (s : JSONStore) : JSONStore × Option Nat :=
  JSON_ParseEmpty s

/-- The static function `AddNode` of `data_io.c`. -/
def AddNode (s : JSONStore) (parentNode : Option Nat) (key : Option String)
    (type : JSONNodeType) : JSONStore × Option Nat :=
  match parentNode with
  | none => (s, none)
  | some parent =>
    if JSON_GetType s parent = some JSONNodeType.JSON_TYPE_BRACE then
      JSON_AddKey s parent type key
    else if JSON_GetType s parent = some JSONNodeType.JSON_TYPE_BRACKET then
      JSON_AddIndex s parent type
    else (s, none)

/-- The function `DataIO_SetStringValue` of `data_io.c`. -/
def DataIO_SetStringValue (s : JSONStore) (data : Option Nat) (key : Option String)
    (value : String) : JSONStore × Bool :=
  match AddNode s data key JSONNodeType.JSON_TYPE_STRING with
  | (s1, none) => (s1, false)
  | (s1, some valueNode) => (JSON_Set s1 valueNode value, true)

/-- The function `DataIO_AddList` of `data_io.c`. -/
def DataIO_AddList (s : JSONStore) (data : Option Nat) (key : Option String) :
    JSONStore × Option Nat :=
  AddNode s data key JSONNodeType.JSON_TYPE_BRACKET

/-- The children of the first member of the object `data` that hangs under `key` and is an
array, each with its text value: the reading of an ordered list of strings of the document. -/
def DataIO_GetStringList (s : JSONStore) (data : Option Nat) (key : String) :
    Option (List (Option String)) :=
  match data with
  | none => none
  | some root =>
    match s[root]? with
    | none => none
    | some rootNode =>
      match rootNode.children.find? (fun c => (s[c]?).any (fun n => n.key = some key)) with
      | none => none
      | some listNode =>
        (s[listNode]?).map (fun n => n.children.map (fun c => (s[c]?).bind (fun m => m.value)))

/-- The text value of the first member of the object `data` that hangs under `key`. -/
def DataIO_GetMemberValue (s : JSONStore) (data : Option Nat) (key : String) : Option String :=
  match data with
  | none => none
  | some root =>
    match s[root]? with
    | none => none
    | some rootNode =>
      match rootNode.children.find? (fun c => (s[c]?).any (fun n => n.key = some key)) with
      | none => none
      | some member => (s[member]?).bind (fun n => n.value)

/-! ## The environment: constants and collaborators missing from `src/` -/

/-- The constants of the missing headers and the capabilities of the collaborators.
`W` is the state of the robot controller collaborator, `Val` the type of the fields of
`RobotVariables`. -/
structure Env (W Val : Type) where
  /-- The constant of `ipc/ipc.h`: the size of every message buffer. -/
  IPC_MAX_MESSAGE_LENGTH : Nat
  ROBOT_CMD_DISABLE : Nat
  ROBOT_CMD_ENABLE : Nat
  ROBOT_CMD_OFFSET : Nat
  ROBOT_CMD_CALIBRATE : Nat
  ROBOT_CMD_PREPROCESS : Nat
  ROBOT_CMD_OPERATE : Nat
  ROBOT_CMD_SET_USER : Nat
  ROBOT_ST_DISABLED : Nat
  ROBOT_ST_ENABLED : Nat
  ROBOT_ST_OFFSETTING : Nat
  ROBOT_ST_CALIBRATING : Nat
  ROBOT_ST_PREPROCESSING : Nat
  ROBOT_ST_OPERATING : Nat
  Robot_Init : String → W → Option Robot × W
  Robot_End : Option Robot → W → W
  Robot_Enable : Option Robot → W → Bool × W
  Robot_Disable : Option Robot → W → Bool × W
  Robot_SetControlState : Option Robot → RobotState → W → Bool × W
  Robot_GetAxesNumber : Option Robot → W → Nat
  Robot_GetAxisName : Option Robot → Nat → W → Option String
  Robot_GetAxis : Option Robot → Nat → W → Option Axis
  Robot_GetJointsNumber : Option Robot → W → Nat
  Robot_GetJointName : Option Robot → Nat → W → Option String
  Robot_GetJoint : Option Robot → Nat → W → Option Joint
  Robot_GetAxisMeasures : Option Axis → W → Option (RobotVariables Val) × W
  Robot_SetAxisSetpoints : Option Axis → RobotVariables Val → W → W
  Robot_GetJointMeasures : Option Joint → W → Option (RobotVariables Val) × W
  /-- The call `JSON_GetString( node, JSON_FORMAT_SERIAL )`: the characters of the text. -/
  JSON_GetString : JSONStore → Nat → List Nat
  /-- The indeterminate content of the slot at a position of a handle array that `realloc`
  has just added. -/
  indeterminate : Nat → Option Nat
  /-- The implicit conversion of a `float` read from a message to a field of
  `RobotVariables`. -/
  floatToVal : F32 → Val
  /-- The cast `(float)` of a field of `RobotVariables`. -/
  valToFloat : Val → F32

/-- The function `DataIO_GetDataString` of `data_io.c`: `NULL` for a `NULL` handle. -/
def DataIO_GetDataString {W Val : Type} (env : Env W Val) (s : JSONStore) (data : Option Nat) :
    Option (List Nat) :=
  match data with
  | none => none
  | some node => some (env.JSON_GetString s node)

/-! ## The state of `system.c` -/

/-- The global variables of `system.c`, the static buffers of its three services, and the
state of the collaborators. A handle array holds one slot per position; a slot that holds no
handle (`NULL`) is `none`. -/
structure System (W Val : Type) where
  robotController : Option Robot
  robotInfo : Option Nat
  robotEventsConnection : Option IPCConnection
  robotAxesConnection : Option IPCConnection
  robotJointsConnection : Option IPCConnection
  axesList : List (Option Axis)
  jointsList : List (Option Joint)
  dofsNumber : Nat
  /-- The static `messageBuffer` of `UpdateEvents`. -/
  messageBuffer : Mem
  /-- The static `message` of `UpdateAxes`. -/
  message : Mem
  /-- The static `messageOut` of `UpdateJoints`. -/
  messageOut : Mem
  /-- The heap of the JSON library. -/
  json : JSONStore
  /-- The state of the robot controller collaborator. -/
  world : W
  /-- The requests pending on the events channel, oldest first. -/
  eventsQueue : List (List Nat)
  /-- The messages pending on the axes channel, oldest first. -/
  axesQueue : List (List Nat)
  /-- Everything done so far, oldest first. -/
  log : List (Event Val)

/-- Append of one event to the log. -/
def System.emit {W Val : Type} (st : System W Val) (e : Event Val) : System W Val :=
  { st with log := st.log ++ [e] }

/-- The C call `realloc( list, n * sizeof(handle) )` on a handle array: the first slots keep
their content, and the content of a new slot is indeterminate: it is what `fresh` gives for
its position. -/
def reallocList (list : List (Option Nat)) (n : Nat) (fresh : Nat → Option Nat) :
    List (Option Nat) :=
  list.take n ++ (List.range' list.length (n - list.length)).map fresh

/-! ## `RefreshRobotsInfo` -/

/-- The body of the first loop of `RefreshRobotsInfo`: the name of the axis at `axisIndex` is
asked; when there is one, it is appended to the list `sharedAxesList` of the descriptor and the
handle of the axis is stored at position `axisIndex` of `axesList`. -/
def refreshAxis {W Val : Type} (env : Env W Val) (sharedAxesList : Option Nat) (axisIndex : Nat)
    (st : System W Val) : System W Val :=
  let axisName := env.Robot_GetAxisName st.robotController axisIndex st.world
  let st := st.emit (Event.Robot_GetAxisName st.robotController axisIndex axisName)
  match axisName with
  | none => st
  | some name =>
    let json := (DataIO_SetStringValue st.json sharedAxesList none name).1
    let axis := env.Robot_GetAxis st.robotController axisIndex st.world
    { st with
      json := json
      axesList := st.axesList.set axisIndex axis
      log := st.log ++ [Event.Robot_GetAxis st.robotController axisIndex axis] }

/-- The body of the second loop of `RefreshRobotsInfo`: as `refreshAxis`, for a joint. -/
def refreshJoint {W Val : Type} (env : Env W Val) (sharedJointsList : Option Nat)
    (jointIndex : Nat) (st : System W Val) : System W Val :=
  let jointName := env.Robot_GetJointName st.robotController jointIndex st.world
  let st := st.emit (Event.Robot_GetJointName st.robotController jointIndex jointName)
  match jointName with
  | none => st
  | some name =>
    let json := (DataIO_SetStringValue st.json sharedJointsList none name).1
    let joint := env.Robot_GetJoint st.robotController jointIndex st.world
    { st with
      json := json
      jointsList := st.jointsList.set jointIndex joint
      log := st.log ++ [Event.Robot_GetJoint st.robotController jointIndex joint] }

/-- The branch `robotController != NULL` of `RefreshRobotsInfo`: the descriptor receives the
name and the two lists, and the two handle arrays are resized and filled. -/
def refreshLists {W Val : Type} (env : Env W Val) (robotName : String) (st : System W Val) :
    System W Val :=
  let json := (DataIO_SetStringValue st.json st.robotInfo (some "id") robotName).1
  let (json, sharedJointsList) := DataIO_AddList json st.robotInfo (some "joints")
  let (json, sharedAxesList) := DataIO_AddList json st.robotInfo (some "axes")
  let st := { st with json := json }
  let axesNumber := env.Robot_GetAxesNumber st.robotController st.world
  let st := st.emit (Event.Robot_GetAxesNumber st.robotController axesNumber)
  let st := { st with axesList := reallocList st.axesList axesNumber env.indeterminate }
  let st := forLoop (refreshAxis env sharedAxesList) axesNumber 0 st
  let jointsNumber := env.Robot_GetJointsNumber st.robotController st.world
  let st := st.emit (Event.Robot_GetJointsNumber st.robotController jointsNumber)
  let st := { st with jointsList := reallocList st.jointsList jointsNumber env.indeterminate }
  forLoop (refreshJoint env sharedJointsList) jointsNumber 0 st

/-- The branch `robotName != NULL` of `RefreshRobotsInfo`: the current controller, if any, is
ended, a controller is constructed by name, and on success the lists are rebuilt. -/
def refreshController {W Val : Type} (env : Env W Val) (robotName : String)
    (st : System W Val) : System W Val :=
  let st :=
    if st.robotController ≠ none then
      { st with
        world := env.Robot_End st.robotController st.world
        log := st.log ++ [Event.Robot_End st.robotController] }
    else st
  let r := env.Robot_Init robotName st.world
  let st :=
    { st with
      robotController := r.1
      world := r.2
      log := st.log ++ [Event.Robot_Init robotName r.1] }
  if st.robotController ≠ none then refreshLists env robotName st else st

/-- The function `RefreshRobotsInfo( robotName, sharedControlsString )`. The second argument is
`NULL` or a pointer into the static buffer of `UpdateEvents`, given by its offset. The result
is `none` when the descriptor has no text (`DataIO_GetDataString` returns `NULL`, which
`strlen` dereferences). -/
def RefreshRobotsInfo {W Val : Type} (env : Env W Val) (robotName : Option String)
    (sharedControlsString : Option Nat) (st : System W Val) : Option (System W Val) :=
  let st :=
    match robotName with
    | none => st
    | some name => refreshController env name st
  match sharedControlsString with
  | none => some st
  | some destination =>
    match DataIO_GetDataString env st.json st.robotInfo with
    | none => none
    | some robotControlsString =>
      -- strncpy( sharedControlsString, robotControlsString, strlen( robotControlsString ) )
      some { st with
        messageBuffer := storeBytes st.messageBuffer destination robotControlsString }

/-! ## `UpdateEvents` -/

/-- The chain of `if` / `else if` of `UpdateEvents` on the command byte; the reply is being
built at offset 0 of the (zeroed) static buffer. -/
def dispatchCommand {W Val : Type} (env : Env W Val) (robotCommand : Nat) (st : System W Val) :
    Option (System W Val) :=
  if robotCommand = 0x00 then RefreshRobotsInfo env none (some 1) st
  else if robotCommand = env.ROBOT_CMD_DISABLE then
    let r := env.Robot_Disable st.robotController st.world
    some { st with
      world := r.2
      log := st.log ++ [Event.Robot_Disable st.robotController r.1]
      messageBuffer :=
        storeByte st.messageBuffer 0 ((if r.1 then env.ROBOT_ST_DISABLED else 0x00) % 256) }
  else if robotCommand = env.ROBOT_CMD_ENABLE then
    let r := env.Robot_Enable st.robotController st.world
    some { st with
      world := r.2
      log := st.log ++ [Event.Robot_Enable st.robotController r.1]
      messageBuffer :=
        storeByte st.messageBuffer 0 ((if r.1 then env.ROBOT_ST_ENABLED else 0x00) % 256) }
  else if robotCommand = env.ROBOT_CMD_OFFSET then
    let r := env.Robot_SetControlState st.robotController RobotState.ROBOT_OFFSET st.world
    some { st with
      world := r.2
      log := st.log ++
        [Event.Robot_SetControlState st.robotController RobotState.ROBOT_OFFSET r.1]
      messageBuffer :=
        storeByte st.messageBuffer 0 ((if r.1 then env.ROBOT_ST_OFFSETTING else 0x00) % 256) }
  else if robotCommand = env.ROBOT_CMD_CALIBRATE then
    let r := env.Robot_SetControlState st.robotController RobotState.ROBOT_CALIBRATION st.world
    some { st with
      world := r.2
      log := st.log ++
        [Event.Robot_SetControlState st.robotController RobotState.ROBOT_CALIBRATION r.1]
      messageBuffer :=
        storeByte st.messageBuffer 0 ((if r.1 then env.ROBOT_ST_CALIBRATING else 0x00) % 256) }
  else if robotCommand = env.ROBOT_CMD_PREPROCESS then
    let r := env.Robot_SetControlState st.robotController RobotState.ROBOT_PREPROCESSING st.world
    some { st with
      world := r.2
      log := st.log ++
        [Event.Robot_SetControlState st.robotController RobotState.ROBOT_PREPROCESSING r.1]
      messageBuffer :=
        storeByte st.messageBuffer 0 ((if r.1 then env.ROBOT_ST_PREPROCESSING else 0x00) % 256) }
  else if robotCommand = env.ROBOT_CMD_OPERATE then
    let r := env.Robot_SetControlState st.robotController RobotState.ROBOT_OPERATION st.world
    some { st with
      world := r.2
      log := st.log ++
        [Event.Robot_SetControlState st.robotController RobotState.ROBOT_OPERATION r.1]
      messageBuffer :=
        storeByte st.messageBuffer 0 ((if r.1 then env.ROBOT_ST_OPERATING else 0x00) % 256) }
  else if robotCommand = env.ROBOT_CMD_SET_USER then
    -- char* userName = (char*) messageIn; the uses of the name are commented out
    some st
  else some st

/-- One turn of the `while` loop of `UpdateEvents`, for a request `request` that
`IPC_ReadMessage` has just stored at `messageIn`: the command byte is read and `messageIn`
advanced, the buffer is zeroed, the command is served, and the whole buffer is sent. The
pointer `messageIn` is declared before the loop, so its value passes to the next turn. -/
def eventsTurn {W Val : Type} (env : Env W Val) (request : List Nat)
    (p : System W Val × Nat) : Option (System W Val × Nat) :=
  let st := p.1
  let messageIn := p.2
  let st :=
    { st with
      messageBuffer := storeBytes st.messageBuffer messageIn request
      log := st.log ++ [Event.IPC_ReadMessage st.robotEventsConnection request] }
  let robotCommand := st.messageBuffer messageIn
  let messageIn := messageIn + 1
  let st := { st with messageBuffer := memset st.messageBuffer 0 0 env.IPC_MAX_MESSAGE_LENGTH }
  match dispatchCommand env robotCommand st with
  | none => none
  | some st =>
    some
      ({ st with
          log := st.log ++ [Event.IPC_WriteMessage st.robotEventsConnection
            (loadBytes st.messageBuffer 0 env.IPC_MAX_MESSAGE_LENGTH)] },
        messageIn)

/-- The `while` loop of `UpdateEvents`: `IPC_ReadMessage` yields the pending requests one by
one, oldest first, and returns false when none is left. -/
def eventsLoop {W Val : Type} (env : Env W Val) :
    List (List Nat) → System W Val × Nat → Option (System W Val × Nat)
  | [], p => some p
  | request :: rest, p =>
    match eventsTurn env request ({ p.1 with eventsQueue := rest }, p.2) with
    | none => none
    | some q => eventsLoop env rest q

/-- The function `UpdateEvents`. -/
def UpdateEvents {W Val : Type} (env : Env W Val) (st : System W Val) :
    Option (System W Val) :=
  (eventsLoop env st.eventsQueue (st, 0)).map Prod.fst

/-! ## `UpdateAxes` and `UpdateJoints` -/

/-- The seven floats found at `m + off`, each converted to a field of `RobotVariables`: the
initialiser of `axisSetpoints` in `UpdateAxes`. -/
def loadVariables {W Val : Type} (env : Env W Val) (m : Mem) (off : Nat) : RobotVariables Val :=
  { position := env.floatToVal (loadF32 m (off + 4 * DOF_POSITION))
    velocity := env.floatToVal (loadF32 m (off + 4 * DOF_VELOCITY))
    acceleration := env.floatToVal (loadF32 m (off + 4 * DOF_ACCELERATION))
    force := env.floatToVal (loadF32 m (off + 4 * DOF_FORCE))
    inertia := env.floatToVal (loadF32 m (off + 4 * DOF_INERTIA))
    stiffness := env.floatToVal (loadF32 m (off + 4 * DOF_STIFFNESS))
    damping := env.floatToVal (loadF32 m (off + 4 * DOF_DAMPING)) }

/-- The seven stores of the outbound loops: each field of the measures, cast to `float`, at its
place in the block that starts at `m + off`. -/
def storeVariables {W Val : Type} (env : Env W Val) (m : Mem) (off : Nat)
    (v : RobotVariables Val) : Mem :=
  let m := storeF32 m (off + 4 * DOF_POSITION) (env.valToFloat v.position)
  let m := storeF32 m (off + 4 * DOF_VELOCITY) (env.valToFloat v.velocity)
  let m := storeF32 m (off + 4 * DOF_ACCELERATION) (env.valToFloat v.acceleration)
  let m := storeF32 m (off + 4 * DOF_FORCE) (env.valToFloat v.force)
  let m := storeF32 m (off + 4 * DOF_INERTIA) (env.valToFloat v.inertia)
  let m := storeF32 m (off + 4 * DOF_STIFFNESS) (env.valToFloat v.stiffness)
  storeF32 m (off + 4 * DOF_DAMPING) (env.valToFloat v.damping)

/-- The body of the inner `for` loop of the inbound part of `UpdateAxes`, on the pair of the
state and the pointer `messageIn`: the index byte is read and `messageIn` advanced, the handle
is read from `axesList`, and then either the index is not below `dofsNumber` and the loop
continues with `messageIn` where it is, or the seven floats at `messageIn` are passed to
`Robot_SetAxisSetpoints` and `messageIn` advances by a block. -/
def setpointBlock {W Val : Type} (env : Env W Val) (_setpointBlockIndex : Nat)
    (p : System W Val × Nat) : System W Val × Nat :=
  let st := p.1
  let messageIn := p.2
  let axisIndex := st.message messageIn
  let messageIn := messageIn + 1
  let axis := (st.axesList[axisIndex]?).join
  let st := st.emit (Event.axesListRead axisIndex)
  if axisIndex ≥ st.dofsNumber then (st, messageIn)
  else
    let axisSetpoints := loadVariables env st.message messageIn
    let st :=
      { st with
        world := env.Robot_SetAxisSetpoints axis axisSetpoints st.world
        log := st.log ++ [Event.Robot_SetAxisSetpoints axis axisSetpoints] }
    (st, messageIn + DOF_DATA_BLOCK_SIZE)

/-- One turn of the `while` loop of `UpdateAxes`, for a message `received` that
`IPC_ReadMessage` has just stored at `messageIn`: the count byte is read, and as many blocks
are served. As in `UpdateEvents`, `messageIn` passes to the next turn. -/
def axesTurn {W Val : Type} (env : Env W Val) (received : List Nat)
    (p : System W Val × Nat) : System W Val × Nat :=
  let st := p.1
  let messageIn := p.2
  let st :=
    { st with
      message := storeBytes st.message messageIn received
      log := st.log ++ [Event.IPC_ReadMessage st.robotAxesConnection received] }
  let setpointBlocksNumber := st.message messageIn
  let messageIn := messageIn + 1
  forLoop (setpointBlock env) setpointBlocksNumber 0 (st, messageIn)

/-- The `while` loop of `UpdateAxes`. -/
def axesLoop {W Val : Type} (env : Env W Val) :
    List (List Nat) → System W Val × Nat → System W Val × Nat
  | [], p => p
  | received :: rest, p =>
    axesLoop env rest (axesTurn env received ({ p.1 with axesQueue := rest }, p.2))

/-- The stores of one turn of the outbound loops of `UpdateAxes` and `UpdateJoints` into the
message `m`, for the position `index`, the offset `offset` of its block and the result of the
measure read: `m[ 0 ]++`, `m[ offset ] = (Byte) index`, and, when the read succeeded, the
seven floats of the measures from `offset + 1` on. -/
def storeMeasuresBlock {W Val : Type} (env : Env W Val) (m : Mem) (offset index : Nat)
    (result : Option (RobotVariables Val)) : Mem :=
  let m := storeByte m 0 ((m 0 + 1) % 256)
  let m := storeByte m offset (index % 256)
  match result with
  | some measures => storeVariables env m (offset + 1) measures
  | none => m

/-- The body of the outbound `for` loop of `UpdateAxes`, on the pair of the state and
`axisdataOffset`: the count byte is incremented, the index is stored as a byte, the handle is
read, the measures are asked and, when the read succeeds, stored; the offset advances past the
index byte and by a block in either case. -/
def axisMeasuresBlock {W Val : Type} (env : Env W Val) (axisIndex : Nat)
    (p : System W Val × Nat) : System W Val × Nat :=
  let st := p.1
  let axisdataOffset := p.2
  let axis := (st.axesList[axisIndex]?).join
  let r := env.Robot_GetAxisMeasures axis st.world
  ({ st with
      message := storeMeasuresBlock env st.message axisdataOffset axisIndex r.1
      world := r.2
      log := st.log ++ [Event.axesListRead axisIndex, Event.Robot_GetAxisMeasures axis r.1] },
    axisdataOffset + 1 + DOF_DATA_BLOCK_SIZE)

/-- The outbound part of `UpdateAxes`: the buffer is zeroed, one block is laid out per position
below `dofsNumber`, and the buffer is sent when its count byte is not zero. -/
def axesOutbound {W Val : Type} (env : Env W Val) (st : System W Val) : System W Val :=
  let st := { st with message := memset st.message 0 0 env.IPC_MAX_MESSAGE_LENGTH }
  let st := (forLoop (axisMeasuresBlock env) st.dofsNumber 0 (st, 1)).1
  if st.message 0 > 0 then
    st.emit (Event.IPC_WriteMessage st.robotAxesConnection
      (loadBytes st.message 0 env.IPC_MAX_MESSAGE_LENGTH))
  else st

/-- The function `UpdateAxes`. -/
def UpdateAxes {W Val : Type} (env : Env W Val) (st : System W Val) : System W Val :=
  axesOutbound env (axesLoop env st.axesQueue (st, 0)).1

/-- The body of the `for` loop of `UpdateJoints`: as `axisMeasuresBlock`, on `messageOut`,
`jointsList` and `Robot_GetJointMeasures`. -/
def jointMeasuresBlock {W Val : Type} (env : Env W Val) (jointIndex : Nat)
    (p : System W Val × Nat) : System W Val × Nat :=
  let st := p.1
  let jointDataOffset := p.2
  let joint := (st.jointsList[jointIndex]?).join
  let r := env.Robot_GetJointMeasures joint st.world
  ({ st with
      messageOut := storeMeasuresBlock env st.messageOut jointDataOffset jointIndex r.1
      world := r.2
      log := st.log ++
        [Event.jointsListRead jointIndex, Event.Robot_GetJointMeasures joint r.1] },
    jointDataOffset + 1 + DOF_DATA_BLOCK_SIZE)

/-- The function `UpdateJoints`. -/
def UpdateJoints {W Val : Type} (env : Env W Val) (st : System W Val) : System W Val :=
  let st := { st with messageOut := memset st.messageOut 0 0 env.IPC_MAX_MESSAGE_LENGTH }
  let st := (forLoop (jointMeasuresBlock env) st.dofsNumber 0 (st, 1)).1
  if st.messageOut 0 > 0 then
    st.emit (Event.IPC_WriteMessage st.robotJointsConnection
      (loadBytes st.messageOut 0 env.IPC_MAX_MESSAGE_LENGTH))
  else st

/-- The function `System_Update`: the three services, in this order. -/
def System_Update {W Val : Type} (env : Env W Val) (st : System W Val) :
    Option (System W Val) :=
  (UpdateEvents env st).map (fun st => UpdateJoints env (UpdateAxes env st))

/-! ## Claims stated on the embedding, and sample inputs -/

/-- The claimed service of a control request by one turn of `UpdateEvents`: the turn ends with
`messageIn` advanced by one, it records, after the reception, exactly one capability call
`call` with the result `result.1` and then the reply, the world is the one the call left, and
the reply holds the byte of `code` when the call returned true, `0x00` when it returned false,
followed by zeros up to the maximum message length. -/
def ServesControl {W Val : Type} (env : Env W Val) (st : System W Val) (messageIn : Nat)
    (request : List Nat) (call : Bool → Event Val) (result : Bool × W) (code : Nat) : Prop :=
  ∃ st' : System W Val,
    eventsTurn env request (st, messageIn) = some (st', messageIn + 1) ∧
    st'.world = result.2 ∧
    st'.log = st.log ++
      [Event.IPC_ReadMessage st.robotEventsConnection request,
       call result.1,
       Event.IPC_WriteMessage st.robotEventsConnection
        (((if result.1 then code else 0x00) % 256)
          :: List.replicate (env.IPC_MAX_MESSAGE_LENGTH - 1) 0)]

/-- The measures that the sample controller reports for a DOF: the float bytes count up from
the handle. -/
def sampleMeasures (handle : Nat) : RobotVariables F32 :=
  { position := ⟨handle, 1, 0, 0⟩
    velocity := ⟨handle, 2, 0, 0⟩
    acceleration := ⟨handle, 3, 0, 0⟩
    force := ⟨handle, 4, 0, 0⟩
    inertia := ⟨handle, 5, 0, 0⟩
    stiffness := ⟨handle, 6, 0, 0⟩
    damping := ⟨handle, 7, 0, 0⟩ }

/-- A sample environment. Messages have 64 bytes, the opcodes are 1 to 7 and the state codes
1 to 6. Two robots can be constructed: `arm1`, with the axes `shoulder` and `elbow` and the
joints `j0` and `j1`, and `arm2`, the same robot except that the name of its axis 0 cannot be
resolved. Transitions succeed when there is a controller. The handle of axis `i` is `10 + i`,
of joint `i` is `20 + i`; a measure read succeeds on every handle but that of axis 1. The
descriptor text is an opening brace, one star per member of the document, and a closing
brace. A slot that `realloc` has added holds 900 plus its position until it is assigned. -/
def sampleEnv : Env Unit F32 where
  IPC_MAX_MESSAGE_LENGTH := 64
  ROBOT_CMD_DISABLE := 1
  ROBOT_CMD_ENABLE := 2
  ROBOT_CMD_OFFSET := 3
  ROBOT_CMD_CALIBRATE := 4
  ROBOT_CMD_PREPROCESS := 5
  ROBOT_CMD_OPERATE := 6
  ROBOT_CMD_SET_USER := 7
  ROBOT_ST_DISABLED := 1
  ROBOT_ST_ENABLED := 2
  ROBOT_ST_OFFSETTING := 3
  ROBOT_ST_CALIBRATING := 4
  ROBOT_ST_PREPROCESSING := 5
  ROBOT_ST_OPERATING := 6
  Robot_Init := fun name w =>
    (if name = "arm1" then some 1 else if name = "arm2" then some 2 else none, w)
  Robot_End := fun _ w => w
  Robot_Enable := fun robot w => (robot.isSome, w)
  Robot_Disable := fun robot w => (robot.isSome, w)
  Robot_SetControlState := fun robot _ w => (robot.isSome, w)
  Robot_GetAxesNumber := fun _ _ => 2
  Robot_GetAxisName := fun robot index _ =>
    if robot = some 2 ∧ index = 0 then none else ["shoulder", "elbow"][index]?
  Robot_GetAxis := fun _ index _ => some (10 + index)
  Robot_GetJointsNumber := fun _ _ => 2
  Robot_GetJointName := fun _ index _ => ["j0", "j1"][index]?
  Robot_GetJoint := fun _ index _ => some (20 + index)
  Robot_GetAxisMeasures := fun axis w =>
    (if axis = some 11 then none else axis.map sampleMeasures, w)
  Robot_SetAxisSetpoints := fun _ _ w => w
  Robot_GetJointMeasures := fun joint w => (joint.map sampleMeasures, w)
  JSON_GetString := fun s node =>
    [123] ++ List.replicate ((s[node]?).elim 0 (fun n => n.children.length)) 42 ++ [125]
  indeterminate := fun position => some (900 + position)
  floatToVal := fun f => f
  valToFloat := fun f => f

/-- The state that `System_Init` builds before it refreshes: no controller, the empty
descriptor, empty handle arrays, `dofsNumber` 0, nothing pending and nothing done. -/
def sampleStart : System Unit F32 where
  robotController := none
  robotInfo := some 0
  robotEventsConnection := some 1
  robotAxesConnection := some 2
  robotJointsConnection := some 3
  axesList := []
  jointsList := []
  dofsNumber := 0
  messageBuffer := fun _ => 0
  message := fun _ => 0
  messageOut := fun _ => 0
  json := (DataIO_CreateEmptyData []).1
  world := ()
  eventsQueue := []
  axesQueue := []
  log := []

/-- The seven floats that the outbound loops lay out for the result of a measure read: the
fields cast to `float`, in the order position, velocity, acceleration, force, inertia,
stiffness, damping; the zero floats of the cleared buffer when the read failed. -/
def blockFloats {W Val : Type} (env : Env W Val) (result : Option (RobotVariables Val)) :
    List F32 :=
  match result with
  | some v =>
    [env.valToFloat v.position, env.valToFloat v.velocity, env.valToFloat v.acceleration,
     env.valToFloat v.force, env.valToFloat v.inertia, env.valToFloat v.stiffness,
     env.valToFloat v.damping]
  | none => List.replicate DOF_FLOATS_NUMBER F32.zero

/-- The wire format of the spec for DOF records numbered from `start`: per record one index
byte and then the bytes of its seven floats. -/
def recordsBytes (start : Nat) : List (List F32) → List Nat
  | [] => []
  | floats :: rest =>
    ((start % 256) :: floats.flatMap F32.bytes) ++ recordsBytes (start + 1) rest

/-- The wire format of the spec for a DOF batch in a buffer of `maxLength` bytes: the count
byte, the records, and zeros up to the end of the buffer. -/
def batchMessage (maxLength : Nat) (records : List (List F32)) : List Nat :=
  ((records.length % 256) :: recordsBytes 0 records)
    ++ List.replicate (maxLength - (1 + records.length * (1 + DOF_DATA_BLOCK_SIZE))) 0

/-- The setpoints that the inbound loop of `UpdateAxes` builds from seven floats. -/
def floatsSetpoints {W Val : Type} (env : Env W Val) (floats : List F32) : RobotVariables Val :=
  { position := env.floatToVal (floats.getD DOF_POSITION F32.zero)
    velocity := env.floatToVal (floats.getD DOF_VELOCITY F32.zero)
    acceleration := env.floatToVal (floats.getD DOF_ACCELERATION F32.zero)
    force := env.floatToVal (floats.getD DOF_FORCE F32.zero)
    inertia := env.floatToVal (floats.getD DOF_INERTIA F32.zero)
    stiffness := env.floatToVal (floats.getD DOF_STIFFNESS F32.zero)
    damping := env.floatToVal (floats.getD DOF_DAMPING F32.zero) }

/-- A session of two DOFs on the sample environment: the robot `arm1` is active, its two axes
and two joints are in the handle arrays, and the DOF count is 2. -/
def sampleSession : System Unit F32 :=
  { sampleStart with
    robotController := some 1
    axesList := [some 10, some 11]
    jointsList := [some 20, some 21]
    dofsNumber := 2 }

/-- A float of the sample messages: the byte `b` and three zero bytes. -/
def sampleFloat (b : Nat) : F32 := ⟨b, 0, 0, 0⟩

/-- The memory `m` holds the bytes `bytes` from the offset `offset` on. -/
def memHolds (m : Mem) (offset : Nat) : List Nat → Prop
  | [] => True
  | b :: rest => m offset = b ∧ memHolds m (offset + 1) rest

/-- The message after the outbound loop has laid out, block after block from `offset`, the
results `results` of the measure reads of the positions from `start` on. -/
def storeMeasuresBlocks {W Val : Type} (env : Env W Val) :
    List (Option (RobotVariables Val)) → Mem → Nat → Nat → Mem
  | [], m, _, _ => m
  | result :: rest, m, offset, start =>
    storeMeasuresBlocks env rest (storeMeasuresBlock env m offset start result)
      (offset + 1 + DOF_DATA_BLOCK_SIZE) (start + 1)

/-- The document after `DataIO_SetStringValue( list, NULL, name )` has been called, in order,
for every name of `names` that is not `NULL`. -/
def appendStrings (s : JSONStore) (list : Option Nat) : List (Option String) → JSONStore
  | [] => s
  | none :: rest => appendStrings s list rest
  | some name :: rest => appendStrings (DataIO_SetStringValue s list none name).1 list rest

/-- The handle array after `handles[ index ] = handle` has been executed, for the positions
from `start` on, at every position whose name is not `NULL`. -/
def storeHandles (handles : List (Option Nat)) (start : Nat) :
    List (Option String × Option Nat) → List (Option Nat)
  | [] => handles
  | (none, _) :: rest => storeHandles handles (start + 1) rest
  | (some _, handle) :: rest => storeHandles (handles.set start handle) (start + 1) rest

/-- The session of the sample environment after `RefreshRobotsInfo( "arm1", NULL )` at
start-up. -/
def sampleRefreshed : System Unit F32 :=
  (RefreshRobotsInfo sampleEnv (some "arm1") none sampleStart).getD sampleStart

/-! ## `System_Init`, `System_End` and `main` -/

/-- Modelled from the spec: the transports of `ipc/ipc.h` (not in `src/`): `IPC_TCP`, the
reliable stream, and `IPC_UDP`, the unreliable datagram. All three calls of `System_Init` add
the role `IPC_SERVER`. -/
inductive IPCTransport
  | IPC_TCP
  | IPC_UDP
deriving DecidableEq, Repr

/-- Modelled from the spec: the IPC layer at start-up (`ipc/ipc.h`, not in `src/`):
`IPC_OpenConnection( transport | IPC_SERVER, address, port )` returns a connection, or `NULL`
when the channel cannot be opened. -/
structure IPCLayer where
  IPC_OpenConnection : IPCTransport → Option String → Nat → Option IPCConnection

/-- The three local variables that the parsing phase of `System_Init` computes. -/
structure Arguments where
  configDirectory : String
  connectionAddress : Option String
  robotConfigName : String
deriving DecidableEq, Repr

/-- The four ways in which the parsing phase of `System_Init` returns false, after the message
that each one logs. -/
inductive InitError
  | wrongUsage
  | usage
  | missingValue (option : String)
  | unknownOption (option : String)
deriving DecidableEq, Repr

/-- The `for` loop of `System_Init` from `optionIndex` on, with `fuel` turns at most: `none`
when the fuel runs out, otherwise the rejection or the arguments with which the loop ends. -/
def parseOptions (argv : List String) : Nat → Nat → Arguments → Option (Except InitError Arguments)
  | 0, _, _ => none
  | fuel + 1, optionIndex, args =>
    if optionIndex < argv.length - 1 then
      if optionIndex + 1 ≥ argv.length - 1 then
        some (Except.error (InitError.missingValue (argv.getD optionIndex "")))
      else if argv[optionIndex]? = some "--config" then
        parseOptions argv fuel (optionIndex + 2)
          { args with configDirectory := argv.getD (optionIndex + 1) "" }
      else if argv[optionIndex]? = some "--addr" then
        parseOptions argv fuel (optionIndex + 2)
          { args with connectionAddress := argv[optionIndex + 1]? }
      else some (Except.error (InitError.unknownOption (argv.getD optionIndex "")))
    else some (Except.ok args)

/-- The parsing phase of `System_Init` (its lines up to the first call of
`IPC_OpenConnection`), for the argument vector `argv`, whose length is `argc`. -/
def parseArguments (argv : List String) : Option (Except InitError Arguments) :=
  if argv.length < 2 then some (Except.error InitError.wrongUsage)
  else if argv[1]? = some "--help" then some (Except.error InitError.usage)
  else
    parseOptions argv argv.length 1
      { configDirectory := "./config/"
        connectionAddress := none
        robotConfigName := argv.getD (argv.length - 1) "" }

/-- What a call of `System_Init` leaves: the value returned, the globals, the message logged
when it returns false, the calls of `IPC_OpenConnection` in order (transport, address, port),
and the directory passed to `DataIO_SetBaseFilePath`. -/
structure InitResult (W Val : Type) where
  returned : Bool
  system : System W Val
  error : Option InitError
  opened : List (IPCTransport × Option String × Nat)
  basePath : Option String

/-- The function `System_Init( argc, argv )`; `none` only if the loop over the options ran out
of fuel. -/
def System_Init {W Val : Type} (env : Env W Val) (ipc : IPCLayer) (argv : List String)
    (st : System W Val) : Option (InitResult W Val) :=
  match parseArguments argv with
  | none => none
  | some (Except.error e) =>
    some { returned := false, system := st, error := some e, opened := [], basePath := none }
  | some (Except.ok args) =>
    let st :=
      { st with
        robotEventsConnection :=
          ipc.IPC_OpenConnection IPCTransport.IPC_TCP args.connectionAddress 50000
        robotAxesConnection :=
          ipc.IPC_OpenConnection IPCTransport.IPC_UDP args.connectionAddress 50001
        robotJointsConnection :=
          ipc.IPC_OpenConnection IPCTransport.IPC_UDP args.connectionAddress 50002 }
    let created := DataIO_CreateEmptyData st.json
    let st := { st with json := created.1, robotInfo := created.2 }
    match RefreshRobotsInfo env (some args.robotConfigName) none st with
    | none => none
    | some st =>
      some
        { returned := true
          system := st
          error := none
          opened :=
            [(IPCTransport.IPC_TCP, args.connectionAddress, 50000),
             (IPCTransport.IPC_UDP, args.connectionAddress, 50001),
             (IPCTransport.IPC_UDP, args.connectionAddress, 50002)]
          basePath := some args.configDirectory }

/-- The function `System_End`, registered with `atexit`: of what it does, the end of the
controller is recorded; the closing of the connections and the release of the descriptor and
of the handle arrays leave the variables as they are. -/
def System_End {W Val : Type} (env : Env W Val) (st : System W Val) : System W Val :=
  { st with
    world := env.Robot_End st.robotController st.world
    log := st.log ++ [Event.Robot_End st.robotController] }

/-- The values of the globals of `system.c` when the program starts, in the world `world`. -/
def System.initial {W Val : Type} (world : W) : System W Val where
  robotController := none
  robotInfo := none
  robotEventsConnection := none
  robotAxesConnection := none
  robotJointsConnection := none
  axesList := []
  jointsList := []
  dofsNumber := 0
  messageBuffer := fun _ => 0
  message := fun _ => 0
  messageOut := fun _ => 0
  json := []
  world := world
  eventsQueue := []
  axesQueue := []
  log := []

/-- The exit status `EXIT_SUCCESS` of `stdlib.h`. -/
def EXIT_SUCCESS : Nat := 0

/-- The exit status `EXIT_FAILURE` of `stdlib.h`. -/
def EXIT_FAILURE : Nat := 1

/-- The messages that reach the events channel and the axes channel before a cycle. -/
structure Arrival where
  events : List (List Nat)
  axes : List (List Nat)
deriving DecidableEq, Repr

/-- The end of the process: the exit status, the number of calls of `System_Update`, and the
globals after the handler registered with `atexit` has run. -/
structure ProcessExit (W Val : Type) where
  status : Nat
  updates : Nat
  system : System W Val

/-- The globals at the moment the loop of `UpdateEvents` stops: when no request is left, or
at the request whose service faults, which by then has been received, with the buffer zeroed
for a reply of which nothing is written. -/
def eventsLoopStop {W Val : Type} (env : Env W Val) :
    List (List Nat) → System W Val × Nat → System W Val
  | [], p => p.1
  | request :: rest, p =>
    match eventsTurn env request ({ p.1 with eventsQueue := rest }, p.2) with
    | some q => eventsLoopStop env rest q
    | none =>
      { p.1 with
        eventsQueue := rest
        messageBuffer :=
          memset (storeBytes p.1.messageBuffer p.2 request) 0 0 env.IPC_MAX_MESSAGE_LENGTH
        log := p.1.log ++ [Event.IPC_ReadMessage p.1.robotEventsConnection request] }

/-- The loop `while( isRunning )` of `main`, for the cycles that run before the interruption
signal clears `isRunning`, each with the messages that arrive before it; `updates` counts the
calls of `System_Update`. A cycle in which `System_Update` faults ends the process through
`HandleError`, with `exit( EXIT_FAILURE )`, and the handler registered with `atexit` runs on
the globals as they are at the fault; when no cycle is left, the loop ends and `main` calls
`exit( EXIT_SUCCESS )`. -/
def runCycles {W Val : Type} (env : Env W Val) :
    List Arrival → System W Val → Nat → ProcessExit W Val
  | [], st, updates => { status := EXIT_SUCCESS, updates := updates, system := System_End env st }
  | arrival :: rest, st, updates =>
    let st :=
      { st with
        eventsQueue := st.eventsQueue ++ arrival.events
        axesQueue := st.axesQueue ++ arrival.axes }
    match System_Update env st with
    | none =>
      { status := EXIT_FAILURE
        updates := updates + 1
        system := System_End env (eventsLoopStop env st.eventsQueue (st, 0)) }
    | some st => runCycles env rest st (updates + 1)

/-- The function `main( argc, argv )`: when `System_Init` returns true the update loop runs,
and in either case the process ends with `exit( EXIT_SUCCESS )`. -/
def main {W Val : Type} (env : Env W Val) (ipc : IPCLayer) (argv : List String) (world : W)
    (cycles : List Arrival) : Option (ProcessExit W Val) :=
  match System_Init env ipc argv (System.initial world) with
  | none => none
  | some init =>
    if init.returned then some (runCycles env cycles init.system 0)
    else some { status := EXIT_SUCCESS, updates := 0, system := System_End env init.system }

/-- Whether `i` is the position of an option in an argument vector of length `argc`: an odd
position from 1 to `argc - 3`. -/
def optionPosition (argc i : Nat) : Prop := i % 2 = 1 ∧ i + 3 ≤ argc

instance (argc i : Nat) : Decidable (optionPosition argc i) :=
  inferInstanceAs (Decidable (i % 2 = 1 ∧ i + 3 ≤ argc))

/-- The states that the program can be in: the start, and what every operation of `system.c`
and the arrival of messages make of a state that it can be in. -/
inductive Reachable {W Val : Type} (env : Env W Val) (ipc : IPCLayer) : System W Val → Prop
  | start (world : W) : Reachable env ipc (System.initial world)
  | init (argv : List String) (st : System W Val) (r : InitResult W Val) :
      Reachable env ipc st → System_Init env ipc argv st = some r → Reachable env ipc r.system
  | refresh (robotName : Option String) (sharedControlsString : Option Nat)
      (st st' : System W Val) :
      Reachable env ipc st →
      RefreshRobotsInfo env robotName sharedControlsString st = some st' →
      Reachable env ipc st'
  | events (st st' : System W Val) :
      Reachable env ipc st → UpdateEvents env st = some st' → Reachable env ipc st'
  | axes (st : System W Val) : Reachable env ipc st → Reachable env ipc (UpdateAxes env st)
  | joints (st : System W Val) : Reachable env ipc st → Reachable env ipc (UpdateJoints env st)
  | arrival (a : Arrival) (st : System W Val) :
      Reachable env ipc st →
      Reachable env ipc
        { st with
          eventsQueue := st.eventsQueue ++ a.events
          axesQueue := st.axesQueue ++ a.axes }
  | finish (st : System W Val) : Reachable env ipc st → Reachable env ipc (System_End env st)

/-- A sample IPC layer on which the three channels open: the connections 1, 2 and 3 at the ports
50000, 50001 and 50002. -/
def sampleIPC : IPCLayer where
  IPC_OpenConnection := fun _ _ port =>
    if port = 50000 then some 1 else if port = 50001 then some 2 else some 3

/-- A sample IPC layer on which no channel opens. -/
def sampleClosedIPC : IPCLayer where
  IPC_OpenConnection := fun _ _ _ => none

/-- A sample argument vector with both options, the second `--config` last. -/
def sampleArguments : List String :=
  ["robrehab", "--config", "a/", "--addr", "10.0.0.1", "--config", "b/", "arm1"]

/-- An inbound axes message of one record, for the axis 0, with seven floats of first byte 9. -/
def sampleSetpointMessage : List Nat :=
  [1] ++ ([0] ++ (List.replicate 7 (sampleFloat 9)).flatMap F32.bytes)

/-- The value that follows the last occurrence of the option `option` at an option position of
the argument vector, if there is one. -/
def lastOptionValue (argv : List String) (option : String) : Option String :=
  (((List.range argv.length).filter
      (fun i => decide (i % 2 = 1 ∧ i + 3 ≤ argv.length) && decide (argv[i]? = some option))
    ).getLast?).bind (fun i => argv[i + 1]?)

/-- The state in which the first cycle starts when the program is started for the robot `arm1`
and a setpoint record for the axis 0 has arrived on the axes channel. -/
def sampleBooted : System Unit F32 :=
  match System_Init sampleEnv sampleIPC ["robrehab", "arm1"] (System.initial ()) with
  | some r =>
    { r.system with
      eventsQueue := r.system.eventsQueue ++ []
      axesQueue := r.system.axesQueue ++ [sampleSetpointMessage] }
  | none => System.initial ()

/-- Two cycles of the update loop: a refresh-info request arrives before the first, a setpoint
record for the axis 0 before the second. -/
def sampleCycles : List Arrival :=
  [⟨[[0]], []⟩, ⟨[], [sampleSetpointMessage]⟩]

/-- The descriptor object of the sample session of the robot `arm1`: its members are the name
and the two lists of that robot. -/
def sampleRoot : JSONNodeData := ⟨JSONNodeType.JSON_TYPE_BRACE, none, none, [1, 2, 3]⟩

/-! ## Notions in which the claims about the services are stated -/

theorem loadBytes_length (m : Mem) (off n : Nat) : (loadBytes m off n).length = n := by
  simp [loadBytes]

theorem loadBytes_getElem? (m : Mem) (off n i : Nat) (h : i < n) :
    (loadBytes m off n)[i]? = some (m (off + i)) := by
  simp [loadBytes, List.getElem?_map, List.getElem?_range h]

theorem loadBytes_memset_storeByte (m : Mem) (n v : Nat) (h : 0 < n) :
    loadBytes (storeByte (memset m 0 0 n) 0 v) 0 n = v :: List.replicate (n - 1) 0 := by
  apply List.ext_getElem?
  intro i
  by_cases hi : i < n
  · rw [loadBytes_getElem? _ _ _ _ hi]
    cases i with
    | zero => simp [storeByte]
    | succ j =>
      have : j < n - 1 := by omega
      simp [storeByte, memset, hi, List.getElem?_replicate, this]
  · have h1 : (loadBytes (storeByte (memset m 0 0 n) 0 v) 0 n).length ≤ i := by
      rw [loadBytes_length]; omega
    have h2 : (v :: List.replicate (n - 1) 0).length ≤ i := by
      simp; omega
    rw [List.getElem?_eq_none h1, List.getElem?_eq_none h2]

theorem loadBytes_memset (m : Mem) (n : Nat) :
    loadBytes (memset m 0 0 n) 0 n = List.replicate n 0 := by
  apply List.ext_getElem?
  intro i
  by_cases hi : i < n
  · rw [loadBytes_getElem? _ _ _ _ hi]
    simp [memset, hi, List.getElem?_replicate]
  · have h1 : (loadBytes (memset m 0 0 n) 0 n).length ≤ i := by
      rw [loadBytes_length]; omega
    have h2 : (List.replicate n 0).length ≤ i := by
      simp; omega
    rw [List.getElem?_eq_none h1, List.getElem?_eq_none h2]

theorem loadBytes_memset_storeBytes (m : Mem) (n : Nat) (s : List Nat) (h : 1 + s.length ≤ n) :
    loadBytes (storeBytes (memset m 0 0 n) 1 s) 0 n
      = 0 :: (s ++ List.replicate (n - 1 - s.length) 0) := by
  apply List.ext_getElem?
  intro i
  by_cases hi : i < n
  · rw [loadBytes_getElem? _ _ _ _ hi]
    cases i with
    | zero => simp [storeBytes, memset, hi]
    | succ j =>
      by_cases hj : j < s.length
      · have : 1 ≤ 0 + (j + 1) ∧ 0 + (j + 1) < 1 + s.length := by omega
        simp [storeBytes, this, List.getElem?_append_left hj, List.getD_eq_getElem?_getD,
          List.getElem?_eq_getElem hj]
        intro hc
        omega
      · have h3 : ¬ (1 ≤ 0 + (j + 1) ∧ 0 + (j + 1) < 1 + s.length) := by omega
        have h4 : s.length ≤ j := by omega
        have h5 : j - s.length < n - 1 - s.length := by omega
        simp [storeBytes, h3, memset, hi, List.getElem?_append_right h4,
          List.getElem?_replicate, h5]
        intro hc
        omega
  · have h1 : (loadBytes (storeBytes (memset m 0 0 n) 1 s) 0 n).length ≤ i := by
      rw [loadBytes_length]; omega
    have h2 : (0 :: (s ++ List.replicate (n - 1 - s.length) 0)).length ≤ i := by
      simp; omega
    rw [List.getElem?_eq_none h1, List.getElem?_eq_none h2]

/-- The command byte that a turn reads is the first byte of the request just received. -/
theorem storeBytes_head (m : Mem) (off c : Nat) (payload : List Nat) :
    storeBytes m off (c :: payload) off = c := by
  simp [storeBytes]

/-! ## `UpdateEvents` -/

/-- One turn of `UpdateEvents` in terms of `dispatchCommand`, for a request with at least the
command byte. -/
theorem eventsTurn_cons {W Val : Type} (env : Env W Val) (st : System W Val) (messageIn c : Nat)
    (payload : List Nat) :
    eventsTurn env (c :: payload) (st, messageIn)
      = (dispatchCommand env c
          { st with
            messageBuffer := memset (storeBytes st.messageBuffer messageIn (c :: payload)) 0 0
              env.IPC_MAX_MESSAGE_LENGTH
            log := st.log ++ [Event.IPC_ReadMessage st.robotEventsConnection (c :: payload)] }).map
          (fun st1 =>
            ({ st1 with
                log := st1.log ++ [Event.IPC_WriteMessage st1.robotEventsConnection
                  (loadBytes st1.messageBuffer 0 env.IPC_MAX_MESSAGE_LENGTH)] },
              messageIn + 1)) := by
  simp only [eventsTurn, storeBytes_head]
  cases dispatchCommand env c _ <;> rfl

/-- Claim C1. In `UpdateEvents`, when the opcode constants of the six control commands are
pairwise distinct and different from `0x00`, a request that carries one of them (at whatever
place of the buffer it was received, with whatever payload) is served by exactly one call of
the matching capability, `Robot_Disable`, `Robot_Enable` or `Robot_SetControlState` with the
matching phase, on the active controller; the first byte of the reply is the matching state
code (as a byte) when the call returned true and `0x00` when it returned false, and every other
byte of the reply is zero. -/
theorem UpdateEvents_control_reply {W Val : Type} (env : Env W Val) (st : System W Val)
    (messageIn : Nat) (payload : List Nat)
    (hmax : 0 < env.IPC_MAX_MESSAGE_LENGTH)
    (hdistinct : [0x00, env.ROBOT_CMD_DISABLE, env.ROBOT_CMD_ENABLE, env.ROBOT_CMD_OFFSET,
      env.ROBOT_CMD_CALIBRATE, env.ROBOT_CMD_PREPROCESS, env.ROBOT_CMD_OPERATE].Nodup) :
    ServesControl env st messageIn (env.ROBOT_CMD_DISABLE :: payload)
        (Event.Robot_Disable st.robotController)
        (env.Robot_Disable st.robotController st.world) env.ROBOT_ST_DISABLED ∧
    ServesControl env st messageIn (env.ROBOT_CMD_ENABLE :: payload)
        (Event.Robot_Enable st.robotController)
        (env.Robot_Enable st.robotController st.world) env.ROBOT_ST_ENABLED ∧
    ServesControl env st messageIn (env.ROBOT_CMD_OFFSET :: payload)
        (Event.Robot_SetControlState st.robotController RobotState.ROBOT_OFFSET)
        (env.Robot_SetControlState st.robotController RobotState.ROBOT_OFFSET st.world)
        env.ROBOT_ST_OFFSETTING ∧
    ServesControl env st messageIn (env.ROBOT_CMD_CALIBRATE :: payload)
        (Event.Robot_SetControlState st.robotController RobotState.ROBOT_CALIBRATION)
        (env.Robot_SetControlState st.robotController RobotState.ROBOT_CALIBRATION st.world)
        env.ROBOT_ST_CALIBRATING ∧
    ServesControl env st messageIn (env.ROBOT_CMD_PREPROCESS :: payload)
        (Event.Robot_SetControlState st.robotController RobotState.ROBOT_PREPROCESSING)
        (env.Robot_SetControlState st.robotController RobotState.ROBOT_PREPROCESSING st.world)
        env.ROBOT_ST_PREPROCESSING ∧
    ServesControl env st messageIn (env.ROBOT_CMD_OPERATE :: payload)
        (Event.Robot_SetControlState st.robotController RobotState.ROBOT_OPERATION)
        (env.Robot_SetControlState st.robotController RobotState.ROBOT_OPERATION st.world)
        env.ROBOT_ST_OPERATING := by
  simp only [List.nodup_cons, List.mem_cons, List.mem_singleton, not_or, List.not_mem_nil,
    not_false_eq_true, List.nodup_nil, and_true] at hdistinct
  obtain ⟨⟨d0, e0, o0, c0, p0, r0⟩, ⟨de, do_, dc, dp, dr⟩, ⟨eo, ec, ep, er⟩, ⟨oc, op, or_⟩,
    ⟨cp, cr⟩, pr⟩ := hdistinct
  refine ⟨?_, ?_, ?_, ?_, ?_, ?_⟩
  all_goals
    unfold ServesControl
    rw [eventsTurn_cons]
    simp [dispatchCommand, *, Ne.symm, loadBytes_memset_storeByte _ _ _ hmax]
  

/-- Claim C2. For every state whose descriptor serialises to a text `s` that fits in the
message buffer after the status byte, a request with opcode `0x00` is answered by a reply whose
first byte is `0x00`, whose next `s.length` bytes are the bytes of `s`, and whose remaining
bytes are zero; no capability of the robot controller is called. -/
theorem UpdateEvents_refresh_info_reply {W Val : Type} (env : Env W Val)
    (st : System W Val) (messageIn : Nat) (payload s : List Nat)
    (htext : DataIO_GetDataString env st.json st.robotInfo = some s)
    (hfit : 1 + s.length ≤ env.IPC_MAX_MESSAGE_LENGTH) :
    ∃ st' : System W Val,
      eventsTurn env (0x00 :: payload) (st, messageIn) = some (st', messageIn + 1) ∧
      st'.log = st.log ++
        [Event.IPC_ReadMessage st.robotEventsConnection (0x00 :: payload),
         Event.IPC_WriteMessage st.robotEventsConnection
          (0x00 :: (s ++ List.replicate (env.IPC_MAX_MESSAGE_LENGTH - 1 - s.length) 0))] := by
  rw [eventsTurn_cons]
  simp [dispatchCommand, RefreshRobotsInfo, htext, loadBytes_memset_storeBytes _ _ _ hfit]

/-- Claim C3. A request whose opcode is none of the eight recognised ones is answered without
any call of a robot controller capability, and the active controller, the axis and joint handle
arrays, the DOF count, the descriptor and the state of the controller collaborator are left as
they were. -/
theorem UpdateEvents_unrecognised_opcode {W Val : Type} (env : Env W Val)
    (st : System W Val) (messageIn robotCommand : Nat) (payload : List Nat)
    (h0 : robotCommand ≠ 0x00)
    (h1 : robotCommand ≠ env.ROBOT_CMD_DISABLE)
    (h2 : robotCommand ≠ env.ROBOT_CMD_ENABLE)
    (h3 : robotCommand ≠ env.ROBOT_CMD_OFFSET)
    (h4 : robotCommand ≠ env.ROBOT_CMD_CALIBRATE)
    (h5 : robotCommand ≠ env.ROBOT_CMD_PREPROCESS)
    (h6 : robotCommand ≠ env.ROBOT_CMD_OPERATE)
    (h7 : robotCommand ≠ env.ROBOT_CMD_SET_USER) :
    ∃ st' : System W Val,
      eventsTurn env (robotCommand :: payload) (st, messageIn) = some (st', messageIn + 1) ∧
      st'.log = st.log ++
        [Event.IPC_ReadMessage st.robotEventsConnection (robotCommand :: payload),
         Event.IPC_WriteMessage st.robotEventsConnection
          (List.replicate env.IPC_MAX_MESSAGE_LENGTH 0)] ∧
      (∀ e ∈ st'.log.drop st.log.length, e.isRobotCall = false) ∧
      st'.world = st.world ∧
      st'.robotController = st.robotController ∧
      st'.axesList = st.axesList ∧
      st'.jointsList = st.jointsList ∧
      st'.dofsNumber = st.dofsNumber ∧
      st'.robotInfo = st.robotInfo ∧
      st'.json = st.json := by
  rw [eventsTurn_cons]
  simp [dispatchCommand, *, loadBytes_memset, Event.isRobotCall]

/-- The service of any command, when the descriptor exists: it succeeds, it sends and receives
nothing by itself, and it keeps the descriptor handle, the connection and the queue. -/
theorem dispatchCommand_total {W Val : Type} (env : Env W Val) (c : Nat) (st : System W Val)
    (hinfo : st.robotInfo ≠ none) :
    ∃ (st1 : System W Val) (calls : List (Event Val)),
      dispatchCommand env c st = some st1 ∧
      st1.log = st.log ++ calls ∧
      calls.filter Event.isMessage = [] ∧
      st1.robotInfo = st.robotInfo ∧
      st1.robotEventsConnection = st.robotEventsConnection ∧
      st1.eventsQueue = st.eventsQueue := by
  obtain ⟨h, hh⟩ := Option.ne_none_iff_exists'.mp hinfo
  by_cases h0 : c = 0x00
  · refine ⟨{ st with messageBuffer := storeBytes st.messageBuffer 1 (env.JSON_GetString st.json h) },
      [], ?_, ?_, rfl, rfl, rfl, rfl⟩
    · simp [dispatchCommand, h0, RefreshRobotsInfo, DataIO_GetDataString, hh]
    · simp
  by_cases h1 : c = env.ROBOT_CMD_DISABLE
  · rw [dispatchCommand, if_neg h0, if_pos h1]
    exact ⟨_, [Event.Robot_Disable _ _], rfl, rfl, rfl, rfl, rfl, rfl⟩
  by_cases h2 : c = env.ROBOT_CMD_ENABLE
  · rw [dispatchCommand, if_neg h0, if_neg h1, if_pos h2]
    exact ⟨_, [Event.Robot_Enable _ _], rfl, rfl, rfl, rfl, rfl, rfl⟩
  by_cases h3 : c = env.ROBOT_CMD_OFFSET
  · rw [dispatchCommand, if_neg h0, if_neg h1, if_neg h2, if_pos h3]
    exact ⟨_, [Event.Robot_SetControlState _ _ _], rfl, rfl, rfl, rfl, rfl, rfl⟩
  by_cases h4 : c = env.ROBOT_CMD_CALIBRATE
  · rw [dispatchCommand, if_neg h0, if_neg h1, if_neg h2, if_neg h3, if_pos h4]
    exact ⟨_, [Event.Robot_SetControlState _ _ _], rfl, rfl, rfl, rfl, rfl, rfl⟩
  by_cases h5 : c = env.ROBOT_CMD_PREPROCESS
  · rw [dispatchCommand, if_neg h0, if_neg h1, if_neg h2, if_neg h3, if_neg h4, if_pos h5]
    exact ⟨_, [Event.Robot_SetControlState _ _ _], rfl, rfl, rfl, rfl, rfl, rfl⟩
  by_cases h6 : c = env.ROBOT_CMD_OPERATE
  · rw [dispatchCommand, if_neg h0, if_neg h1, if_neg h2, if_neg h3, if_neg h4, if_neg h5,
      if_pos h6]
    exact ⟨_, [Event.Robot_SetControlState _ _ _], rfl, rfl, rfl, rfl, rfl, rfl⟩
  · refine ⟨st, [], ?_, by simp, rfl, rfl, rfl, rfl⟩
    rw [dispatchCommand, if_neg h0, if_neg h1, if_neg h2, if_neg h3, if_neg h4, if_neg h5,
      if_neg h6]
    simp

/-- One turn of `UpdateEvents`, for any request, when the descriptor exists: of the events it
records, the messages are the reception of the request followed by one reply. -/
theorem eventsTurn_total {W Val : Type} (env : Env W Val) (request : List Nat)
    (st : System W Val) (messageIn : Nat) (hinfo : st.robotInfo ≠ none) :
    ∃ (st1 : System W Val) (events : List (Event Val)) (reply : List Nat),
      eventsTurn env request (st, messageIn) = some (st1, messageIn + 1) ∧
      st1.log = st.log ++ events ∧
      events.filter Event.isMessage =
        [Event.IPC_ReadMessage st.robotEventsConnection request,
         Event.IPC_WriteMessage st.robotEventsConnection reply] ∧
      st1.robotInfo = st.robotInfo ∧
      st1.robotEventsConnection = st.robotEventsConnection ∧
      st1.eventsQueue = st.eventsQueue := by
  obtain ⟨st1, calls, h1, h2, h3, h4, h5, h6⟩ :=
    dispatchCommand_total env (storeBytes st.messageBuffer messageIn request messageIn)
      { st with
        messageBuffer := memset (storeBytes st.messageBuffer messageIn request) 0 0
          env.IPC_MAX_MESSAGE_LENGTH
        log := st.log ++ [Event.IPC_ReadMessage st.robotEventsConnection request] } hinfo
  refine ⟨{ st1 with
      log := st1.log ++ [Event.IPC_WriteMessage st1.robotEventsConnection
        (loadBytes st1.messageBuffer 0 env.IPC_MAX_MESSAGE_LENGTH)] },
    [Event.IPC_ReadMessage st.robotEventsConnection request] ++ calls ++
      [Event.IPC_WriteMessage st1.robotEventsConnection
        (loadBytes st1.messageBuffer 0 env.IPC_MAX_MESSAGE_LENGTH)],
    loadBytes st1.messageBuffer 0 env.IPC_MAX_MESSAGE_LENGTH, ?_, ?_, ?_, h4, h5, h6⟩
  · simp only [eventsTurn, h1]
  · simp [h2]
  · simp only [List.filter_append, h3]
    simp [List.filter, Event.isMessage, h5]

/-- Witness of claim C1 on the sample session, where the robot `arm1` is active and every
transition succeeds, for requests received at the start of the buffer with one byte of
payload. -/
theorem UpdateEvents_control_reply_witness :
    (0 < sampleEnv.IPC_MAX_MESSAGE_LENGTH ∧
      [0x00, sampleEnv.ROBOT_CMD_DISABLE, sampleEnv.ROBOT_CMD_ENABLE, sampleEnv.ROBOT_CMD_OFFSET,
        sampleEnv.ROBOT_CMD_CALIBRATE, sampleEnv.ROBOT_CMD_PREPROCESS,
        sampleEnv.ROBOT_CMD_OPERATE].Nodup) ∧
    (ServesControl sampleEnv sampleSession 0 [1, 5] (Event.Robot_Disable (some 1)) (true, ()) 1 ∧
     ServesControl sampleEnv sampleSession 0 [2, 5] (Event.Robot_Enable (some 1)) (true, ()) 2 ∧
     ServesControl sampleEnv sampleSession 0 [3, 5]
       (Event.Robot_SetControlState (some 1) RobotState.ROBOT_OFFSET) (true, ()) 3 ∧
     ServesControl sampleEnv sampleSession 0 [4, 5]
       (Event.Robot_SetControlState (some 1) RobotState.ROBOT_CALIBRATION) (true, ()) 4 ∧
     ServesControl sampleEnv sampleSession 0 [5, 5]
       (Event.Robot_SetControlState (some 1) RobotState.ROBOT_PREPROCESSING) (true, ()) 5 ∧
     ServesControl sampleEnv sampleSession 0 [6, 5]
       (Event.Robot_SetControlState (some 1) RobotState.ROBOT_OPERATION) (true, ()) 6) :=
  ⟨⟨by decide, by decide⟩,
    UpdateEvents_control_reply sampleEnv sampleSession 0 [5] (by decide) (by decide)⟩

/-- Witness of claim C2: the empty descriptor of the sample start state has the text `{}`. -/
theorem UpdateEvents_refresh_info_reply_witness :
    (DataIO_GetDataString sampleEnv sampleStart.json sampleStart.robotInfo = some [123, 125] ∧
      1 + [123, 125].length ≤ sampleEnv.IPC_MAX_MESSAGE_LENGTH) ∧
    ∃ st' : System Unit F32,
      eventsTurn sampleEnv [0x00] (sampleStart, 0) = some (st', 0 + 1) ∧
      st'.log = sampleStart.log ++
        [Event.IPC_ReadMessage sampleStart.robotEventsConnection [0x00],
         Event.IPC_WriteMessage sampleStart.robotEventsConnection
          (0x00 :: ([123, 125] ++
            List.replicate (sampleEnv.IPC_MAX_MESSAGE_LENGTH - 1 - [123, 125].length) 0))] :=
  ⟨⟨by decide, by decide⟩,
    UpdateEvents_refresh_info_reply sampleEnv sampleStart 0 [] [123, 125] (by decide)
      (by decide)⟩

/-- Witness of claim C3: the opcode 9 is none of the opcodes of the sample environment. -/
theorem UpdateEvents_unrecognised_opcode_witness :
    ((9 : Nat) ≠ 0x00 ∧ 9 ≠ sampleEnv.ROBOT_CMD_DISABLE ∧ 9 ≠ sampleEnv.ROBOT_CMD_ENABLE ∧
      9 ≠ sampleEnv.ROBOT_CMD_OFFSET ∧ 9 ≠ sampleEnv.ROBOT_CMD_CALIBRATE ∧
      9 ≠ sampleEnv.ROBOT_CMD_PREPROCESS ∧ 9 ≠ sampleEnv.ROBOT_CMD_OPERATE ∧
      9 ≠ sampleEnv.ROBOT_CMD_SET_USER) ∧
    ∃ st' : System Unit F32,
      eventsTurn sampleEnv [9, 1, 2] (sampleStart, 0) = some (st', 0 + 1) ∧
      st'.log = sampleStart.log ++
        [Event.IPC_ReadMessage sampleStart.robotEventsConnection [9, 1, 2],
         Event.IPC_WriteMessage sampleStart.robotEventsConnection
          (List.replicate sampleEnv.IPC_MAX_MESSAGE_LENGTH 0)] ∧
      (∀ e ∈ st'.log.drop sampleStart.log.length, e.isRobotCall = false) ∧
      st'.world = sampleStart.world ∧
      st'.robotController = sampleStart.robotController ∧
      st'.axesList = sampleStart.axesList ∧
      st'.jointsList = sampleStart.jointsList ∧
      st'.dofsNumber = sampleStart.dofsNumber ∧
      st'.robotInfo = sampleStart.robotInfo ∧
      st'.json = sampleStart.json :=
  ⟨by decide,
    UpdateEvents_unrecognised_opcode sampleEnv sampleStart 0 9 [1, 2] (by decide) (by decide)
      (by decide) (by decide) (by decide) (by decide) (by decide) (by decide)⟩

theorem memHolds_append (m : Mem) (xs ys : List Nat) :
    ∀ offset, memHolds m offset (xs ++ ys) ↔
      memHolds m offset xs ∧ memHolds m (offset + xs.length) ys := by
  induction xs with
  | nil => intro offset; simp [memHolds]
  | cons x xs ih =>
    intro offset
    have hlen : offset + (xs.length + 1) = offset + 1 + xs.length := by omega
    rw [List.cons_append]
    simp only [memHolds, List.length_cons]
    rw [ih (offset + 1), hlen, and_assoc]

theorem memHolds_iff (m : Mem) (xs : List Nat) :
    ∀ offset, memHolds m offset xs ↔ ∀ j, j < xs.length → m (offset + j) = xs.getD j 0 := by
  induction xs with
  | nil => intro offset; simp [memHolds]
  | cons x xs ih =>
    intro offset
    simp only [memHolds, ih, List.length_cons]
    constructor
    · rintro ⟨h0, h1⟩ j hj
      cases j with
      | zero => simpa using h0
      | succ k =>
        have := h1 k (by omega)
        simp only [List.getD_cons_succ]
        rw [← this]
        congr 1
        omega
    · intro h
      refine ⟨by simpa using h 0 (by omega), ?_⟩
      intro j hj
      have := h (j + 1) (by omega)
      simp only [List.getD_cons_succ] at this
      rw [← this]
      congr 1
      omega

theorem memHolds_congr (m m' : Mem) (xs : List Nat) (offset : Nat)
    (h : ∀ i, offset ≤ i → i < offset + xs.length → m' i = m i) :
    memHolds m offset xs → memHolds m' offset xs := by
  rw [memHolds_iff, memHolds_iff]
  intro hm j hj
  rw [h (offset + j) (by omega) (by omega)]
  exact hm j hj

theorem loadBytes_of_memHolds (m : Mem) (xs : List Nat) (offset : Nat)
    (h : memHolds m offset xs) : loadBytes m offset xs.length = xs := by
  rw [memHolds_iff] at h
  apply List.ext_getElem?
  intro i
  by_cases hi : i < xs.length
  · rw [loadBytes_getElem? _ _ _ _ hi, h i hi, List.getD_eq_getElem?_getD,
      List.getElem?_eq_getElem hi]
    simp
  · rw [List.getElem?_eq_none (by rw [loadBytes_length]; omega),
      List.getElem?_eq_none (by omega)]

theorem memHolds_replicate_zero (m : Mem) (offset n : Nat)
    (h : ∀ i, offset ≤ i → i < offset + n → m i = 0) :
    memHolds m offset (List.replicate n 0) := by
  rw [memHolds_iff]
  intro j hj
  simp only [List.length_replicate] at hj
  rw [h (offset + j) (by omega) (by omega)]
  simp [List.getD_eq_getElem?_getD, List.getElem?_replicate, hj]

theorem storeVariables_apply {W Val : Type} (env : Env W Val) (m : Mem) (b : Nat)
    (v : RobotVariables Val) (i : Nat) :
    storeVariables env m b v i =
      if b ≤ i ∧ i < b + DOF_DATA_BLOCK_SIZE then
        ((blockFloats env (some v)).flatMap F32.bytes).getD (i - b) 0
      else m i := by
  by_cases h : b ≤ i ∧ i < b + DOF_DATA_BLOCK_SIZE
  · rw [if_pos h]
    obtain ⟨j, rfl⟩ : ∃ j, i = b + j := ⟨i - b, by omega⟩
    have hj : j < 28 := by simp [DOF_DATA_BLOCK_SIZE, DOF_FLOATS_NUMBER] at h; omega
    simp only [Nat.add_sub_cancel_left]
    interval_cases j <;>
      simp [storeVariables, storeF32, storeBytes, blockFloats, F32.bytes, DOF_POSITION,
        DOF_VELOCITY, DOF_ACCELERATION, DOF_FORCE, DOF_INERTIA, DOF_STIFFNESS, DOF_DAMPING,
        Nat.add_assoc]
  · rw [if_neg h]
    simp only [DOF_DATA_BLOCK_SIZE, DOF_FLOATS_NUMBER] at h
    simp only [storeVariables, storeF32, storeBytes, F32.bytes, DOF_POSITION,
        DOF_VELOCITY, DOF_ACCELERATION, DOF_FORCE, DOF_INERTIA, DOF_STIFFNESS, DOF_DAMPING,
        List.length_cons, List.length_nil]
    repeat' rw [if_neg (by omega)]

theorem blockFloats_length {W Val : Type} (env : Env W Val)
    (r : Option (RobotVariables Val)) : (blockFloats env r).length = DOF_FLOATS_NUMBER := by
  cases r <;> simp [blockFloats, DOF_FLOATS_NUMBER]

theorem flatMap_bytes_length (floats : List F32) :
    (floats.flatMap F32.bytes).length = 4 * floats.length := by
  induction floats with
  | nil => rfl
  | cons f fs ih => simp [List.flatMap_cons, F32.bytes, ih]; omega

theorem storeMeasuresBlock_count {W Val : Type} (env : Env W Val) (m : Mem) (off idx : Nat)
    (r : Option (RobotVariables Val)) (h : 1 ≤ off) :
    storeMeasuresBlock env m off idx r 0 = (m 0 + 1) % 256 := by
  have h0 : (0 : Nat) ≠ off := by omega
  cases r with
  | none => simp [storeMeasuresBlock, storeByte, h0]
  | some v =>
    simp only [storeMeasuresBlock]
    rw [storeVariables_apply, if_neg (by omega)]
    simp [storeByte, h0]

theorem storeMeasuresBlock_outside {W Val : Type} (env : Env W Val) (m : Mem) (off idx : Nat)
    (r : Option (RobotVariables Val)) (i : Nat) (h0 : i ≠ 0)
    (h : i < off ∨ off + 1 + DOF_DATA_BLOCK_SIZE ≤ i) :
    storeMeasuresBlock env m off idx r i = m i := by
  have h1 : i ≠ off := by
    simp only [DOF_DATA_BLOCK_SIZE, DOF_FLOATS_NUMBER] at h
    omega
  cases r with
  | none => simp [storeMeasuresBlock, storeByte, h0, h1]
  | some v =>
    simp only [storeMeasuresBlock]
    rw [storeVariables_apply, if_neg (by omega)]
    simp [storeByte, h0, h1]

theorem storeMeasuresBlock_holds {W Val : Type} (env : Env W Val) (m : Mem) (off idx : Nat)
    (r : Option (RobotVariables Val)) (h : 1 ≤ off)
    (hz : ∀ i, off < i → i < off + 1 + DOF_DATA_BLOCK_SIZE → m i = 0) :
    memHolds (storeMeasuresBlock env m off idx r) off
      ((idx % 256) :: (blockFloats env r).flatMap F32.bytes) := by
  rw [memHolds_iff]
  intro j hj
  have hlen : ((blockFloats env r).flatMap F32.bytes).length = 28 := by
    rw [flatMap_bytes_length, blockFloats_length]; rfl
  simp only [List.length_cons, hlen] at hj
  have hoff : off ≠ 0 := by omega
  cases j with
  | zero =>
    cases r with
    | none => simp [storeMeasuresBlock, storeByte]
    | some v =>
      simp only [storeMeasuresBlock, Nat.add_zero, List.getD_cons_zero]
      rw [storeVariables_apply, if_neg (by omega)]
      simp [storeByte]
  | succ k =>
    simp only [List.getD_cons_succ]
    cases r with
    | none =>
      have h1 : off + (k + 1) ≠ 0 := by omega
      have h2 : off + (k + 1) ≠ off := by omega
      have hsize : DOF_DATA_BLOCK_SIZE = 28 := rfl
      have h3 := hz (off + (k + 1)) (by omega) (by omega)
      have h4 : k < 28 := by omega
      simp only [storeMeasuresBlock, storeByte, h1, h2, if_false, h3]
      simp only [blockFloats, DOF_FLOATS_NUMBER]
      interval_cases k <;> rfl
    | some v =>
      simp only [storeMeasuresBlock]
      have hsize : DOF_DATA_BLOCK_SIZE = 28 := rfl
      rw [storeVariables_apply, if_pos (by omega)]
      congr 1
      omega

/-- The layout of the results of a run of measure reads: the count byte advances by their
number, the blocks hold the records in wire format, and no other byte changes. -/
theorem storeMeasuresBlocks_layout {W Val : Type} (env : Env W Val)
    (results : List (Option (RobotVariables Val))) :
    ∀ (m : Mem) (off start : Nat), 1 ≤ off → m 0 < 256 →
      (∀ i, off ≤ i → i < off + results.length * (1 + DOF_DATA_BLOCK_SIZE) → m i = 0) →
      storeMeasuresBlocks env results m off start 0 = (m 0 + results.length) % 256 ∧
      memHolds (storeMeasuresBlocks env results m off start) off
        (recordsBytes start (results.map (blockFloats env))) ∧
      (∀ i, i ≠ 0 → (i < off ∨ off + results.length * (1 + DOF_DATA_BLOCK_SIZE) ≤ i) →
        storeMeasuresBlocks env results m off start i = m i) := by
  induction results with
  | nil =>
    intro m off start _ hbyte _
    simp [storeMeasuresBlocks, recordsBytes, memHolds, Nat.mod_eq_of_lt hbyte]
  | cons r rest ih =>
    intro m off start hoff hbyte hz
    have hsize : DOF_DATA_BLOCK_SIZE = 28 := rfl
    simp only [List.length_cons, hsize] at hz
    have hz1 : ∀ i, off + 1 + DOF_DATA_BLOCK_SIZE ≤ i →
        i < off + 1 + DOF_DATA_BLOCK_SIZE + rest.length * (1 + DOF_DATA_BLOCK_SIZE) →
        storeMeasuresBlock env m off start r i = 0 := by
      intro i h1 h2
      rw [hsize] at h1 h2
      rw [storeMeasuresBlock_outside env m off start r i (by omega) (Or.inr (by omega))]
      exact hz i (by omega) (by omega)
    have hcount := storeMeasuresBlock_count env m off start r hoff
    obtain ⟨c1, c2, c3⟩ := ih (storeMeasuresBlock env m off start r)
      (off + 1 + DOF_DATA_BLOCK_SIZE) (start + 1) (by omega)
      (by rw [hcount]; exact Nat.mod_lt _ (by omega)) hz1
    have hblock := storeMeasuresBlock_holds env m off start r hoff (fun i h1 h2 =>
      hz i (by omega) (by omega))
    have hlen : ((blockFloats env r).flatMap F32.bytes).length = 28 := by
      rw [flatMap_bytes_length, blockFloats_length]; rfl
    refine ⟨?_, ?_, ?_⟩
    · simp only [storeMeasuresBlocks, c1, hcount, List.length_cons]
      omega
    · simp only [storeMeasuresBlocks, List.map_cons, recordsBytes]
      rw [memHolds_append]
      constructor
      · refine memHolds_congr _ _ _ _ ?_ hblock
        intro i h1 h2
        simp only [List.length_cons, hlen] at h2
        exact c3 i (by omega) (Or.inl (by omega))
      · simp only [List.length_cons, hlen]
        exact c2
    · intro i h0 h
      simp only [List.length_cons, hsize] at h
      simp only [storeMeasuresBlocks]
      rw [c3 i h0 (by rw [hsize]; omega)]
      exact storeMeasuresBlock_outside env m off start r i h0 (by omega)

/-! ## The outbound loops -/

/-- The outbound loop of `UpdateAxes`, for any number of positions: it reads the handle and
asks the measures of each position once, in order, lays the results out block after block, and
touches neither the handle array nor the connection nor the DOF count. -/
theorem axisMeasuresLoop_spec {W Val : Type} (env : Env W Val) (count : Nat) :
    ∀ (start : Nat) (st : System W Val) (off : Nat),
    ∃ results : List (Option (RobotVariables Val)),
      results.length = count ∧
      (forLoop (axisMeasuresBlock env) count start (st, off)).1.message
        = storeMeasuresBlocks env results st.message off start ∧
      (forLoop (axisMeasuresBlock env) count start (st, off)).1.log
        = st.log ++ (results.enumFrom start).flatMap (fun q =>
            [Event.axesListRead q.1,
             Event.Robot_GetAxisMeasures ((st.axesList[q.1]?).join) q.2]) ∧
      (forLoop (axisMeasuresBlock env) count start (st, off)).1.robotAxesConnection
        = st.robotAxesConnection := by
  induction count with
  | zero =>
    intro start st off
    exact ⟨[], rfl, rfl, by simp [forLoop], rfl⟩
  | succ n ih =>
    intro start st off
    obtain ⟨results, h1, h2, h3, h4⟩ := ih (start + 1) (axisMeasuresBlock env start (st, off)).1
      (axisMeasuresBlock env start (st, off)).2
    refine ⟨(env.Robot_GetAxisMeasures ((st.axesList[start]?).join) st.world).1 :: results,
      by simp [h1], ?_, ?_, ?_⟩
    · simp only [forLoop]
      rw [h2]
      rfl
    · simp only [forLoop]
      rw [h3]
      simp [axisMeasuresBlock, List.enumFrom_cons, List.flatMap_cons]
    · simp only [forLoop]
      rw [h4]
      rfl

/-- The loop of `UpdateJoints`: as `axisMeasuresLoop_spec`. -/
theorem jointMeasuresLoop_spec {W Val : Type} (env : Env W Val) (count : Nat) :
    ∀ (start : Nat) (st : System W Val) (off : Nat),
    ∃ results : List (Option (RobotVariables Val)),
      results.length = count ∧
      (forLoop (jointMeasuresBlock env) count start (st, off)).1.messageOut
        = storeMeasuresBlocks env results st.messageOut off start ∧
      (forLoop (jointMeasuresBlock env) count start (st, off)).1.log
        = st.log ++ (results.enumFrom start).flatMap (fun q =>
            [Event.jointsListRead q.1,
             Event.Robot_GetJointMeasures ((st.jointsList[q.1]?).join) q.2]) ∧
      (forLoop (jointMeasuresBlock env) count start (st, off)).1.robotJointsConnection
        = st.robotJointsConnection := by
  induction count with
  | zero =>
    intro start st off
    exact ⟨[], rfl, rfl, by simp [forLoop], rfl⟩
  | succ n ih =>
    intro start st off
    obtain ⟨results, h1, h2, h3, h4⟩ := ih (start + 1) (jointMeasuresBlock env start (st, off)).1
      (jointMeasuresBlock env start (st, off)).2
    refine ⟨(env.Robot_GetJointMeasures ((st.jointsList[start]?).join) st.world).1 :: results,
      by simp [h1], ?_, ?_, ?_⟩
    · simp only [forLoop]
      rw [h2]
      rfl
    · simp only [forLoop]
      rw [h3]
      simp [jointMeasuresBlock, List.enumFrom_cons, List.flatMap_cons]
    · simp only [forLoop]
      rw [h4]
      rfl

/-- The buffer that the outbound loops leave, when the batch fits: the batch message of the
spec for the records of all the results, failed reads included. -/
theorem batch_layout {W Val : Type} (env : Env W Val)
    (results : List (Option (RobotVariables Val))) (m : Mem)
    (hfit : 1 + results.length * (1 + DOF_DATA_BLOCK_SIZE) ≤ env.IPC_MAX_MESSAGE_LENGTH) :
    loadBytes
        (storeMeasuresBlocks env results (memset m 0 0 env.IPC_MAX_MESSAGE_LENGTH) 1 0) 0
        env.IPC_MAX_MESSAGE_LENGTH
      = batchMessage env.IPC_MAX_MESSAGE_LENGTH (results.map (blockFloats env)) ∧
    storeMeasuresBlocks env results (memset m 0 0 env.IPC_MAX_MESSAGE_LENGTH) 1 0 0
      = results.length % 256 := by
  have hsize : DOF_DATA_BLOCK_SIZE = 28 := rfl
  rw [hsize] at hfit
  have hzero : ∀ i, i < env.IPC_MAX_MESSAGE_LENGTH →
      memset m 0 0 env.IPC_MAX_MESSAGE_LENGTH i = 0 := by
    intro i hi
    simp [memset, hi]
  obtain ⟨c1, c2, c3⟩ := storeMeasuresBlocks_layout env results
    (memset m 0 0 env.IPC_MAX_MESSAGE_LENGTH) 1 0 (le_refl 1)
    (by rw [hzero 0 (by omega)]; omega)
    (fun i _ h2 => hzero i (by rw [hsize] at h2; omega))
  rw [hzero 0 (by omega), Nat.zero_add] at c1
  refine ⟨?_, c1⟩
  have hrec : (recordsBytes 0 (results.map (blockFloats env))).length
      = results.length * (1 + 28) := by
    have : ∀ (rs : List (Option (RobotVariables Val))) (start : Nat),
        (recordsBytes start (rs.map (blockFloats env))).length = rs.length * (1 + 28) := by
      intro rs
      induction rs with
      | nil => intro start; simp [recordsBytes]
      | cons r rest ih =>
        intro start
        simp only [List.map_cons, recordsBytes, List.length_append, List.length_cons,
          flatMap_bytes_length, blockFloats_length, ih, DOF_FLOATS_NUMBER]
        omega
    exact this results 0
  have hlen : (batchMessage env.IPC_MAX_MESSAGE_LENGTH (results.map (blockFloats env))).length
      = env.IPC_MAX_MESSAGE_LENGTH := by
    simp only [batchMessage, List.length_append, List.length_cons, hrec, List.length_map,
      List.length_replicate, hsize]
    omega
  have hholds : memHolds
      (storeMeasuresBlocks env results (memset m 0 0 env.IPC_MAX_MESSAGE_LENGTH) 1 0) 0
      (batchMessage env.IPC_MAX_MESSAGE_LENGTH (results.map (blockFloats env))) := by
    unfold batchMessage
    rw [memHolds_append]
    refine ⟨⟨?_, c2⟩, ?_⟩
    · rw [c1, List.length_map]
    · apply memHolds_replicate_zero
      intro i h1 h2
      simp only [List.length_cons, hrec, List.length_map, hsize] at h1 h2
      rw [c3 i (by omega) (Or.inr (by rw [hsize]; omega))]
      exact hzero i (by omega)
  have := loadBytes_of_memHolds _ _ _ hholds
  rw [hlen] at this
  exact this

/-! ## The inbound loop of `UpdateAxes` -/

/-- The setpoints read from a block that holds the bytes of seven floats. -/
theorem loadVariables_of_memHolds {W Val : Type} (env : Env W Val) (m : Mem) (off : Nat)
    (floats : List F32) (hlen : floats.length = DOF_FLOATS_NUMBER)
    (h : memHolds m off (floats.flatMap F32.bytes)) :
    loadVariables env m off = floatsSetpoints env floats := by
  match floats, hlen with
  | [f0, f1, f2, f3, f4, f5, f6], _ =>
    rw [memHolds_iff] at h
    have hb : ∀ j, j < 28 → m (off + j) =
        ([f0.b0, f0.b1, f0.b2, f0.b3, f1.b0, f1.b1, f1.b2, f1.b3, f2.b0, f2.b1, f2.b2, f2.b3,
          f3.b0, f3.b1, f3.b2, f3.b3, f4.b0, f4.b1, f4.b2, f4.b3, f5.b0, f5.b1, f5.b2, f5.b3,
          f6.b0, f6.b1, f6.b2, f6.b3] : List Nat).getD j 0 := by
      intro j hj
      have := h j (by simp [F32.bytes]; exact hj)
      simpa [F32.bytes] using this
    have h0 := hb 0 (by omega)
    simp only [Nat.add_zero] at h0
    simp [loadVariables, floatsSetpoints, loadF32, DOF_POSITION, DOF_VELOCITY, DOF_ACCELERATION,
      DOF_FORCE, DOF_INERTIA, DOF_STIFFNESS, DOF_DAMPING, Nat.add_assoc, hb, h0]

/-- A block of the inbound loop whose index byte is below the DOF count: the handle at that
position is read, the seven floats that follow the index byte are passed to
`Robot_SetAxisSetpoints`, and `messageIn` advances past the index byte and the block. -/
theorem setpointBlock_valid {W Val : Type} (env : Env W Val) (k : Nat) (st : System W Val)
    (c : Nat) (h : st.message c < st.dofsNumber) :
    setpointBlock env k (st, c) =
      ({ st with
          world := env.Robot_SetAxisSetpoints ((st.axesList[st.message c]?).join)
            (loadVariables env st.message (c + 1)) st.world
          log := st.log ++
            [Event.axesListRead (st.message c),
             Event.Robot_SetAxisSetpoints ((st.axesList[st.message c]?).join)
              (loadVariables env st.message (c + 1))] },
        c + 1 + DOF_DATA_BLOCK_SIZE) := by
  simp [setpointBlock, System.emit, Nat.not_le.mpr h]

/-- A block of the inbound loop whose index byte is not below the DOF count: the handle array
is read at that index all the same, nothing is applied, and `messageIn` advances past the
index byte only. -/
theorem setpointBlock_invalid {W Val : Type} (env : Env W Val) (k : Nat) (st : System W Val)
    (c : Nat) (h : st.dofsNumber ≤ st.message c) :
    setpointBlock env k (st, c) =
      ({ st with log := st.log ++ [Event.axesListRead (st.message c)] }, c + 1) := by
  simp [setpointBlock, System.emit, h]

/-- The inbound loop on a buffer that holds, from `messageIn` on, the wire format of records
numbered from `start`, all below the DOF count: every record is applied, in order, to the
handle at its index, with its own seven floats. -/
theorem setpointLoop_records {W Val : Type} (env : Env W Val) (records : List (List F32)) :
    ∀ (start k : Nat) (st : System W Val) (c : Nat),
      (∀ floats ∈ records, floats.length = DOF_FLOATS_NUMBER) →
      start + records.length ≤ 256 →
      start + records.length ≤ st.dofsNumber →
      memHolds st.message c (recordsBytes start records) →
      (forLoop (setpointBlock env) records.length k (st, c)).1.log
        = st.log ++ (records.enumFrom start).flatMap (fun q =>
            [Event.axesListRead q.1,
             Event.Robot_SetAxisSetpoints ((st.axesList[q.1]?).join)
              (floatsSetpoints env q.2)]) := by
  induction records with
  | nil =>
    intro start k st c _ _ _ _
    simp [forLoop]
  | cons floats rest ih =>
    intro start k st c hlen h256 hdofs hmem
    have hfl : floats.length = DOF_FLOATS_NUMBER := hlen floats (List.mem_cons_self _ _)
    simp only [List.length_cons] at h256 hdofs
    simp only [recordsBytes] at hmem
    rw [memHolds_append] at hmem
    obtain ⟨⟨hidx, hfloats⟩, hrest⟩ := hmem
    have hbytes : (floats.flatMap F32.bytes).length = 28 := by
      rw [flatMap_bytes_length, hfl]; rfl
    rw [Nat.mod_eq_of_lt (by omega)] at hidx
    have hvalid : st.message c < st.dofsNumber := by rw [hidx]; omega
    have hvars := loadVariables_of_memHolds env st.message (c + 1) floats hfl hfloats
    simp only [List.length_cons, forLoop]
    rw [setpointBlock_valid env k st c hvalid, hidx, hvars]
    rw [ih (start + 1) (k + 1) _ (c + 1 + DOF_DATA_BLOCK_SIZE)
      (fun f hf => hlen f (List.mem_cons_of_mem _ hf)) (by omega) (by simp only []; omega)
      (by
        simp only [List.length_cons, hbytes] at hrest
        exact hrest)]
    simp [List.enumFrom_cons, List.flatMap_cons]

/-! ## The batches of `UpdateAxes` and `UpdateJoints` -/

/-- The outbound part of `UpdateAxes` in terms of the results of its measure reads. -/
theorem axesOutbound_spec {W Val : Type} (env : Env W Val) (st : System W Val) :
    ∃ results : List (Option (RobotVariables Val)),
      results.length = st.dofsNumber ∧
      (axesOutbound env st).message
        = storeMeasuresBlocks env results
            (memset st.message 0 0 env.IPC_MAX_MESSAGE_LENGTH) 1 0 ∧
      (axesOutbound env st).log
        = st.log ++ (results.enumFrom 0).flatMap (fun q =>
            [Event.axesListRead q.1,
             Event.Robot_GetAxisMeasures ((st.axesList[q.1]?).join) q.2])
          ++ (if (axesOutbound env st).message 0 > 0 then
              [Event.IPC_WriteMessage st.robotAxesConnection
                (loadBytes (axesOutbound env st).message 0 env.IPC_MAX_MESSAGE_LENGTH)]
            else []) := by
  obtain ⟨results, h1, h2, h3, h4⟩ := axisMeasuresLoop_spec env st.dofsNumber 0
    { st with message := memset st.message 0 0 env.IPC_MAX_MESSAGE_LENGTH } 1
  refine ⟨results, h1, ?_, ?_⟩
  · unfold axesOutbound
    simp only []
    split
    · simpa [System.emit] using h2
    · exact h2
  · unfold axesOutbound
    simp only []
    split
    · rename_i hpos
      simp only [System.emit, h3, h4]
      simp [hpos]
    · rename_i hneg
      simp only [h3]
      simp [hneg]

/-- The function `UpdateJoints` in terms of the results of its measure reads. -/
theorem UpdateJoints_spec {W Val : Type} (env : Env W Val) (st : System W Val) :
    ∃ results : List (Option (RobotVariables Val)),
      results.length = st.dofsNumber ∧
      (UpdateJoints env st).messageOut
        = storeMeasuresBlocks env results
            (memset st.messageOut 0 0 env.IPC_MAX_MESSAGE_LENGTH) 1 0 ∧
      (UpdateJoints env st).log
        = st.log ++ (results.enumFrom 0).flatMap (fun q =>
            [Event.jointsListRead q.1,
             Event.Robot_GetJointMeasures ((st.jointsList[q.1]?).join) q.2])
          ++ (if (UpdateJoints env st).messageOut 0 > 0 then
              [Event.IPC_WriteMessage st.robotJointsConnection
                (loadBytes (UpdateJoints env st).messageOut 0 env.IPC_MAX_MESSAGE_LENGTH)]
            else []) := by
  obtain ⟨results, h1, h2, h3, h4⟩ := jointMeasuresLoop_spec env st.dofsNumber 0
    { st with messageOut := memset st.messageOut 0 0 env.IPC_MAX_MESSAGE_LENGTH } 1
  refine ⟨results, h1, ?_, ?_⟩
  · unfold UpdateJoints
    simp only []
    split
    · simpa [System.emit] using h2
    · exact h2
  · unfold UpdateJoints
    simp only []
    split
    · rename_i hpos
      simp only [System.emit, h3, h4]
      simp [hpos]
    · rename_i hneg
      simp only [h3]
      simp [hneg]

/-- The outbound loops for any DOF count, when the batch fits the buffer: the batch built by
`UpdateAxes` (and likewise by `UpdateJoints`) has one record for every position below the DOF
count, in order, whether the measure read of the position succeeded or not: the handle of
every position is read and its measures asked once, the count byte is the DOF count (as a
byte), the record of a position whose read failed has its index and seven zero floats, and the
message is written to the channel exactly when the DOF count is not a multiple of 256. -/
theorem outbound_loops_cover_every_position {W Val : Type} (env : Env W Val) (st : System W Val)
    (hfit : 1 + st.dofsNumber * (1 + DOF_DATA_BLOCK_SIZE) ≤ env.IPC_MAX_MESSAGE_LENGTH) :
    (∃ results : List (Option (RobotVariables Val)),
      results.length = st.dofsNumber ∧
      (axesOutbound env st).log
        = st.log ++ (results.enumFrom 0).flatMap (fun q =>
            [Event.axesListRead q.1,
             Event.Robot_GetAxisMeasures ((st.axesList[q.1]?).join) q.2])
          ++ (if st.dofsNumber % 256 = 0 then []
            else [Event.IPC_WriteMessage st.robotAxesConnection
              (batchMessage env.IPC_MAX_MESSAGE_LENGTH (results.map (blockFloats env)))])) ∧
    (∃ results : List (Option (RobotVariables Val)),
      results.length = st.dofsNumber ∧
      (UpdateJoints env st).log
        = st.log ++ (results.enumFrom 0).flatMap (fun q =>
            [Event.jointsListRead q.1,
             Event.Robot_GetJointMeasures ((st.jointsList[q.1]?).join) q.2])
          ++ (if st.dofsNumber % 256 = 0 then []
            else [Event.IPC_WriteMessage st.robotJointsConnection
              (batchMessage env.IPC_MAX_MESSAGE_LENGTH (results.map (blockFloats env)))])) := by
  constructor
  · obtain ⟨results, h1, h2, h3⟩ := axesOutbound_spec env st
    obtain ⟨b1, b2⟩ := batch_layout env results st.message (by rw [h1]; exact hfit)
    refine ⟨results, h1, ?_⟩
    rw [h3, h2, b1, b2, h1]
    by_cases hz : st.dofsNumber % 256 = 0
    · simp [hz]
    · simp [hz, Nat.pos_of_ne_zero hz]
  · obtain ⟨results, h1, h2, h3⟩ := UpdateJoints_spec env st
    obtain ⟨b1, b2⟩ := batch_layout env results st.messageOut (by rw [h1]; exact hfit)
    refine ⟨results, h1, ?_⟩
    rw [h3, h2, b1, b2, h1]
    by_cases hz : st.dofsNumber % 256 = 0
    · simp [hz]
    · simp [hz, Nat.pos_of_ne_zero hz]

theorem memHolds_storeBytes (m : Mem) (off : Nat) (bytes : List Nat) :
    memHolds (storeBytes m off bytes) off bytes := by
  rw [memHolds_iff]
  intro j hj
  have : off ≤ off + j ∧ off + j < off + bytes.length := by omega
  simp [storeBytes, this]

/-- The decode, by one turn of the inbound loop of `UpdateAxes`, of a received message that is
the batch message of the spec for at most 255 records, in a session whose DOF count is at
least their number: every record is applied in order, at its index, with its own floats. -/
theorem axesTurn_batchMessage {W Val : Type} (env : Env W Val) (rs : System W Val)
    (messageIn : Nat) (records : List (List F32))
    (hlen : ∀ floats ∈ records, floats.length = DOF_FLOATS_NUMBER)
    (h255 : records.length ≤ 255) (hdofs : records.length ≤ rs.dofsNumber) :
    (axesTurn env (batchMessage env.IPC_MAX_MESSAGE_LENGTH records) (rs, messageIn)).1.log
      = rs.log ++
        [Event.IPC_ReadMessage rs.robotAxesConnection
          (batchMessage env.IPC_MAX_MESSAGE_LENGTH records)]
        ++ (records.enumFrom 0).flatMap (fun q =>
            [Event.axesListRead q.1,
             Event.Robot_SetAxisSetpoints ((rs.axesList[q.1]?).join)
              (floatsSetpoints env q.2)]) := by
  have hholds : memHolds
      (storeBytes rs.message messageIn (batchMessage env.IPC_MAX_MESSAGE_LENGTH records))
      messageIn
      (((records.length % 256) :: recordsBytes 0 records)
        ++ List.replicate
          (env.IPC_MAX_MESSAGE_LENGTH - (1 + records.length * (1 + DOF_DATA_BLOCK_SIZE))) 0) :=
    memHolds_storeBytes rs.message messageIn (batchMessage env.IPC_MAX_MESSAGE_LENGTH records)
  rw [memHolds_append] at hholds
  obtain ⟨⟨hcount, hrecords⟩, _⟩ := hholds
  rw [Nat.mod_eq_of_lt (by omega)] at hcount
  have hloop := setpointLoop_records env records 0 0
    { rs with
      message := storeBytes rs.message messageIn
        (batchMessage env.IPC_MAX_MESSAGE_LENGTH records)
      log := rs.log ++ [Event.IPC_ReadMessage rs.robotAxesConnection
        (batchMessage env.IPC_MAX_MESSAGE_LENGTH records)] }
    (messageIn + 1) hlen (by omega) (by simpa using hdofs) hrecords
  simp only [axesTurn]
  rw [hcount, hloop]

/-- Framing round trip for at most 255 records: in a session of `N ≤ 255` DOFs with
`1 + N * 29` at most the maximum message length, the outbound loop of `UpdateAxes` lays out in
its buffer the batch message of the spec for `N` records, the record `i` with the index `i`
and the seven floats of the result of the read of position `i`; and the inbound loop of
`UpdateAxes`, in a session of at least `N` DOFs, on receiving that buffer as a message,
applies exactly these records, in the same order, each at its index and with its seven
floats. -/
theorem round_trip_of_byte_count {W Val : Type} (env : Env W Val) (st rs : System W Val)
    (messageIn : Nat)
    (h255 : st.dofsNumber ≤ 255)
    (hfit : 1 + st.dofsNumber * (1 + DOF_DATA_BLOCK_SIZE) ≤ env.IPC_MAX_MESSAGE_LENGTH)
    (hdofs : st.dofsNumber ≤ rs.dofsNumber) :
    ∃ results : List (Option (RobotVariables Val)),
      results.length = st.dofsNumber ∧
      (axesOutbound env st).log
        = st.log ++ (results.enumFrom 0).flatMap (fun q =>
            [Event.axesListRead q.1,
             Event.Robot_GetAxisMeasures ((st.axesList[q.1]?).join) q.2])
          ++ (if st.dofsNumber = 0 then []
            else [Event.IPC_WriteMessage st.robotAxesConnection
              (loadBytes (axesOutbound env st).message 0 env.IPC_MAX_MESSAGE_LENGTH)]) ∧
      loadBytes (axesOutbound env st).message 0 env.IPC_MAX_MESSAGE_LENGTH
        = batchMessage env.IPC_MAX_MESSAGE_LENGTH (results.map (blockFloats env)) ∧
      (axesTurn env (loadBytes (axesOutbound env st).message 0 env.IPC_MAX_MESSAGE_LENGTH)
          (rs, messageIn)).1.log
        = rs.log ++
          [Event.IPC_ReadMessage rs.robotAxesConnection
            (loadBytes (axesOutbound env st).message 0 env.IPC_MAX_MESSAGE_LENGTH)]
          ++ ((results.map (blockFloats env)).enumFrom 0).flatMap (fun q =>
              [Event.axesListRead q.1,
               Event.Robot_SetAxisSetpoints ((rs.axesList[q.1]?).join)
                (floatsSetpoints env q.2)]) := by
  obtain ⟨results, h1, h2, h3⟩ := axesOutbound_spec env st
  obtain ⟨b1, b2⟩ := batch_layout env results st.message (by rw [h1]; exact hfit)
  refine ⟨results, h1, ?_, ?_, ?_⟩
  · rw [h3]
    congr 1
    rw [h2, b2, h1, Nat.mod_eq_of_lt (by omega)]
    by_cases hz : st.dofsNumber = 0
    · simp [hz]
    · simp [hz, Nat.pos_of_ne_zero hz]
  · rw [h2, b1]
  · rw [h2, b1]
    exact axesTurn_batchMessage env rs messageIn (results.map (blockFloats env))
      (by
        intro floats hf
        obtain ⟨r, _, rfl⟩ := List.mem_map.mp hf
        exact blockFloats_length env r)
      (by rw [List.length_map, h1]; exact h255)
      (by rw [List.length_map, h1]; exact hdofs)

/-! ## `RefreshRobotsInfo` -/

/-- A node added to a parent that is an object or an array: the heap gains the node at its end
and the parent gains it as its last child. -/
theorem AddNode_spec (s : JSONStore) (parent : Nat) (node : JSONNodeData)
    (key : Option String) (type : JSONNodeType)
    (hnode : s[parent]? = some node)
    (htype : node.type = JSONNodeType.JSON_TYPE_BRACE ∨
      node.type = JSONNodeType.JSON_TYPE_BRACKET) :
    AddNode s (some parent) key type =
      ((s.modify (fun p => { p with children := p.children ++ [s.length] }) parent)
        ++ [⟨type, if node.type = JSONNodeType.JSON_TYPE_BRACE then key else none, none, []⟩],
       some s.length) := by
  rcases htype with h | h
  · simp [AddNode, JSON_GetType, hnode, h, JSON_AddKey]
  · simp [AddNode, JSON_GetType, hnode, h, JSON_AddIndex]

/-- The heap after `DataIO_SetStringValue` on a parent that is an object or an array. -/
theorem DataIO_SetStringValue_spec (s : JSONStore) (parent : Nat) (node : JSONNodeData)
    (key : Option String) (value : String)
    (hnode : s[parent]? = some node)
    (htype : node.type = JSONNodeType.JSON_TYPE_BRACE ∨
      node.type = JSONNodeType.JSON_TYPE_BRACKET) :
    (DataIO_SetStringValue s (some parent) key value).1 =
      (s.modify (fun p => { p with children := p.children ++ [s.length] }) parent)
        ++ [⟨JSONNodeType.JSON_TYPE_STRING,
            if node.type = JSONNodeType.JSON_TYPE_BRACE then key else none, some value, []⟩] := by
  simp only [DataIO_SetStringValue, AddNode_spec s parent node key _ hnode htype, JSON_Set]
  apply List.ext_getElem?
  intro i
  rw [List.getElem?_modify]
  by_cases hi : i < s.length
  · have h1 : i < (List.modify (fun p => { p with children := p.children ++ [s.length] })
        parent s).length := by rw [List.length_modify]; exact hi
    rw [List.getElem?_append_left h1, List.getElem?_append_left h1]
    have : s.length ≠ i := by omega
    simp [this]
  · have h1 : (List.modify (fun p => { p with children := p.children ++ [s.length] })
        parent s).length ≤ i := by rw [List.length_modify]; omega
    rw [List.getElem?_append_right h1, List.getElem?_append_right h1, List.length_modify]
    by_cases h2 : i = s.length
    · subst h2; simp
    · have : i - s.length ≠ 0 := by omega
      have h3 : ([] : List JSONNodeData).length ≤ i - s.length - 1 := by simp
      obtain ⟨k, hk⟩ : ∃ k, i - s.length = k + 1 := ⟨i - s.length - 1, by omega⟩
      simp [hk]

/-- Reads of the heap after `DataIO_SetStringValue` on a parent that is an object or an
array. -/
theorem DataIO_SetStringValue_getElem? (s : JSONStore) (parent : Nat) (node : JSONNodeData)
    (key : Option String) (value : String)
    (hnode : s[parent]? = some node)
    (htype : node.type = JSONNodeType.JSON_TYPE_BRACE ∨
      node.type = JSONNodeType.JSON_TYPE_BRACKET) :
    (DataIO_SetStringValue s (some parent) key value).1.length = s.length + 1 ∧
    (DataIO_SetStringValue s (some parent) key value).1[parent]?
      = some { node with children := node.children ++ [s.length] } ∧
    (DataIO_SetStringValue s (some parent) key value).1[s.length]?
      = some ⟨JSONNodeType.JSON_TYPE_STRING,
          if node.type = JSONNodeType.JSON_TYPE_BRACE then key else none, some value, []⟩ ∧
    (∀ i, i ≠ parent → i < s.length →
      (DataIO_SetStringValue s (some parent) key value).1[i]? = s[i]?) := by
  have hp : parent < s.length := by
    by_contra hc
    rw [List.getElem?_eq_none (by omega)] at hnode
    exact absurd hnode (by simp)
  rw [DataIO_SetStringValue_spec s parent node key value hnode htype]
  refine ⟨by simp, ?_, ?_, ?_⟩
  · rw [List.getElem?_append_left (by rw [List.length_modify]; exact hp),
      List.getElem?_modify, hnode]
    simp
  · rw [List.getElem?_append_right (by rw [List.length_modify]), List.length_modify]
    simp
  · intro i hne hi
    rw [List.getElem?_append_left (by rw [List.length_modify]; exact hi),
      List.getElem?_modify]
    have : parent ≠ i := fun h => hne h.symm
    simp [this]

/-- Reads of the heap after `DataIO_AddList` on a parent that is an object or an array. -/
theorem DataIO_AddList_getElem? (s : JSONStore) (parent : Nat) (node : JSONNodeData)
    (key : Option String)
    (hnode : s[parent]? = some node)
    (htype : node.type = JSONNodeType.JSON_TYPE_BRACE ∨
      node.type = JSONNodeType.JSON_TYPE_BRACKET) :
    (DataIO_AddList s (some parent) key).2 = some s.length ∧
    (DataIO_AddList s (some parent) key).1.length = s.length + 1 ∧
    (DataIO_AddList s (some parent) key).1[parent]?
      = some { node with children := node.children ++ [s.length] } ∧
    (DataIO_AddList s (some parent) key).1[s.length]?
      = some ⟨JSONNodeType.JSON_TYPE_BRACKET,
          if node.type = JSONNodeType.JSON_TYPE_BRACE then key else none, none, []⟩ ∧
    (∀ i, i ≠ parent → i < s.length → (DataIO_AddList s (some parent) key).1[i]? = s[i]?) := by
  have hp : parent < s.length := by
    by_contra hc
    rw [List.getElem?_eq_none (by omega)] at hnode
    exact absurd hnode (by simp)
  rw [DataIO_AddList, AddNode_spec s parent node key _ hnode htype]
  refine ⟨rfl, by simp, ?_, ?_, ?_⟩
  · rw [List.getElem?_append_left (by rw [List.length_modify]; exact hp),
      List.getElem?_modify, hnode]
    simp
  · rw [List.getElem?_append_right (by rw [List.length_modify]), List.length_modify]
    simp
  · intro i hne hi
    rw [List.getElem?_append_left (by rw [List.length_modify]; exact hi),
      List.getElem?_modify]
    have : parent ≠ i := fun h => hne h.symm
    simp [this]

/-- The heap after strings have been appended to an array: the array gains one child per name
that is not `NULL`, in order, each a node whose value is the name, and no other node that was
there changes. -/
theorem appendStrings_spec (list : Nat) (names : List (Option String)) :
    ∀ (s : JSONStore) (node : JSONNodeData), s[list]? = some node →
      node.type = JSONNodeType.JSON_TYPE_BRACKET →
      ∃ added : List Nat,
        (appendStrings s (some list) names)[list]?
          = some { node with children := node.children ++ added } ∧
        added.map (fun c => ((appendStrings s (some list) names)[c]?).bind (fun m => m.value))
          = names.filter (fun n => n.isSome) ∧
        (∀ c ∈ added, s.length ≤ c ∧ c < (appendStrings s (some list) names).length) ∧
        s.length ≤ (appendStrings s (some list) names).length ∧
        (∀ i, i ≠ list → i < s.length → (appendStrings s (some list) names)[i]? = s[i]?) := by
  induction names with
  | nil =>
    intro s node hnode _
    exact ⟨[], by simp [appendStrings, hnode], rfl, by simp, le_refl _, fun _ _ _ => rfl⟩
  | cons name rest ih =>
    intro s node hnode htype
    cases name with
    | none =>
      obtain ⟨added, h1, h2, hb, h3, h4⟩ := ih s node hnode htype
      exact ⟨added, by simpa [appendStrings] using h1, by simpa [appendStrings] using h2,
        by simpa [appendStrings] using hb,
        by simpa [appendStrings] using h3, by simpa [appendStrings] using h4⟩
    | some name =>
      have hp : list < s.length := by
        by_contra hc
        rw [List.getElem?_eq_none (by omega)] at hnode
        exact absurd hnode (by simp)
      obtain ⟨k1, k2, k3, k4⟩ := DataIO_SetStringValue_getElem? s list node none name hnode
        (Or.inr htype)
      obtain ⟨added, h1, h2, hb, h3, h4⟩ := ih (DataIO_SetStringValue s (some list) none name).1
        { node with children := node.children ++ [s.length] } k2 htype
      refine ⟨s.length :: added, ?_, ?_, ?_, ?_, ?_⟩
      · simp only [appendStrings]
        rw [h1]
        simp
      · simp only [appendStrings, List.map_cons]
        rw [h2, h4 s.length (by omega) (by omega), k3]
        simp [List.filter_cons]
      · intro c hc
        simp only [appendStrings]
        rcases List.mem_cons.mp hc with rfl | hc
        · omega
        · have := hb c hc
          omega
      · simp only [appendStrings]
        omega
      · intro i hne hi
        simp only [appendStrings]
        rw [h4 i hne (by omega), k4 i hne hi]

/-- The handle array after the handles of the positions from `start` on have been stored, when
every name is resolved and the positions lie within the array. -/
theorem storeHandles_resolved (pairs : List (Option String × Option Nat)) :
    ∀ (handles : List (Option Nat)) (start : Nat),
      (∀ p ∈ pairs, p.1 ≠ none) → start + pairs.length ≤ handles.length →
      storeHandles handles start pairs
        = handles.take start ++ pairs.map Prod.snd ++ handles.drop (start + pairs.length) := by
  induction pairs with
  | nil =>
    intro handles start _ _
    simp [storeHandles]
  | cons p rest ih =>
    intro handles start hres hlen
    simp only [List.length_cons] at hlen
    obtain ⟨name, handle⟩ := p
    cases name with
    | none => exact absurd rfl (hres (none, handle) (List.mem_cons_self _ _))
    | some name =>
      simp only [storeHandles]
      rw [ih (handles.set start handle) (start + 1)
        (fun q hq => hres q (List.mem_cons_of_mem _ hq)) (by simp; omega)]
      have h1 : (handles.set start handle).take (start + 1) = handles.take start ++ [handle] := by
        apply List.ext_getElem?
        intro i
        rw [List.getElem?_take, List.getElem?_set, List.getElem?_append, List.getElem?_take]
        simp only [List.length_take, Nat.min_eq_left (by omega : start ≤ handles.length)]
        by_cases hi : i < start
        · have : start ≠ i := by omega
          simp [hi, this, (by omega : i < start + 1)]
        · by_cases hi2 : i = start
          · subst hi2
            simp [(by omega : i < handles.length)]
          · have h3 : ¬ i < start + 1 := by omega
            have h4 : i - start ≠ 0 := by omega
            obtain ⟨k, hk⟩ : ∃ k, i - start = k + 1 := ⟨i - start - 1, by omega⟩
            simp [hi, h3, hk]
      have h2 : (handles.set start handle).drop (start + 1 + rest.length)
          = handles.drop (start + (rest.length + 1)) := by
        apply List.ext_getElem?
        intro i
        rw [List.getElem?_drop, List.getElem?_drop, List.getElem?_set]
        have : start ≠ start + 1 + rest.length + i := by omega
        simp only [this, if_false]
        congr 1
        omega
      rw [h1, h2]
      simp

/-- The first loop of `RefreshRobotsInfo`: the resolved axis names are appended to the list of
the descriptor, the handles of the resolved positions are stored at their positions, calls are
recorded, and nothing else changes. -/
theorem refreshAxisLoop_spec {W Val : Type} (env : Env W Val) (sharedAxesList : Option Nat)
    (count : Nat) :
    ∀ (start : Nat) (st : System W Val),
    ∃ events : List (Event Val),
      forLoop (refreshAxis env sharedAxesList) count start st =
        { st with
          json := appendStrings st.json sharedAxesList
            ((List.range' start count).map
              (fun i => env.Robot_GetAxisName st.robotController i st.world))
          axesList := storeHandles st.axesList start
            ((List.range' start count).map
              (fun i => (env.Robot_GetAxisName st.robotController i st.world,
                env.Robot_GetAxis st.robotController i st.world)))
          log := st.log ++ events } := by
  induction count with
  | zero =>
    intro start st
    exact ⟨[], by simp [forLoop, appendStrings, storeHandles]⟩
  | succ n ih =>
    intro start st
    obtain ⟨events, h⟩ := ih (start + 1) (refreshAxis env sharedAxesList start st)
    simp only [forLoop, h, List.range'_succ, List.map_cons]
    cases hname : env.Robot_GetAxisName st.robotController start st.world with
    | none =>
      refine ⟨Event.Robot_GetAxisName st.robotController start none :: events, ?_⟩
      simp [refreshAxis, System.emit, hname, appendStrings, storeHandles]
    | some name =>
      refine ⟨[Event.Robot_GetAxisName st.robotController start (some name),
        Event.Robot_GetAxis st.robotController start
          (env.Robot_GetAxis st.robotController start st.world)] ++ events, ?_⟩
      simp [refreshAxis, System.emit, hname, appendStrings, storeHandles]

/-- The second loop of `RefreshRobotsInfo`: as `refreshAxisLoop_spec`, for the joints. -/
theorem refreshJointLoop_spec {W Val : Type} (env : Env W Val) (sharedJointsList : Option Nat)
    (count : Nat) :
    ∀ (start : Nat) (st : System W Val),
    ∃ events : List (Event Val),
      forLoop (refreshJoint env sharedJointsList) count start st =
        { st with
          json := appendStrings st.json sharedJointsList
            ((List.range' start count).map
              (fun i => env.Robot_GetJointName st.robotController i st.world))
          jointsList := storeHandles st.jointsList start
            ((List.range' start count).map
              (fun i => (env.Robot_GetJointName st.robotController i st.world,
                env.Robot_GetJoint st.robotController i st.world)))
          log := st.log ++ events } := by
  induction count with
  | zero =>
    intro start st
    exact ⟨[], by simp [forLoop, appendStrings, storeHandles]⟩
  | succ n ih =>
    intro start st
    obtain ⟨events, h⟩ := ih (start + 1) (refreshJoint env sharedJointsList start st)
    simp only [forLoop, h, List.range'_succ, List.map_cons]
    cases hname : env.Robot_GetJointName st.robotController start st.world with
    | none =>
      refine ⟨Event.Robot_GetJointName st.robotController start none :: events, ?_⟩
      simp [refreshJoint, System.emit, hname, appendStrings, storeHandles]
    | some name =>
      refine ⟨[Event.Robot_GetJointName st.robotController start (some name),
        Event.Robot_GetJoint st.robotController start
          (env.Robot_GetJoint st.robotController start st.world)] ++ events, ?_⟩
      simp [refreshJoint, System.emit, hname, appendStrings, storeHandles]

/-- The branch `robotController != NULL` of `RefreshRobotsInfo` in closed form. -/
theorem refreshLists_spec {W Val : Type} (env : Env W Val) (robotName : String)
    (st : System W Val) :
    ∃ events : List (Event Val),
      refreshLists env robotName st =
        { st with
          json :=
            appendStrings
              (appendStrings
                (DataIO_AddList
                  (DataIO_AddList
                    (DataIO_SetStringValue st.json st.robotInfo (some "id") robotName).1
                    st.robotInfo (some "joints")).1
                  st.robotInfo (some "axes")).1
                (DataIO_AddList
                  (DataIO_AddList
                    (DataIO_SetStringValue st.json st.robotInfo (some "id") robotName).1
                    st.robotInfo (some "joints")).1
                  st.robotInfo (some "axes")).2
                ((List.range' 0 (env.Robot_GetAxesNumber st.robotController st.world)).map
                  (fun i => env.Robot_GetAxisName st.robotController i st.world)))
              (DataIO_AddList
                (DataIO_SetStringValue st.json st.robotInfo (some "id") robotName).1
                st.robotInfo (some "joints")).2
              ((List.range' 0 (env.Robot_GetJointsNumber st.robotController st.world)).map
                (fun i => env.Robot_GetJointName st.robotController i st.world))
          axesList :=
            storeHandles
              (reallocList st.axesList (env.Robot_GetAxesNumber st.robotController st.world)
                env.indeterminate) 0
              ((List.range' 0 (env.Robot_GetAxesNumber st.robotController st.world)).map
                (fun i => (env.Robot_GetAxisName st.robotController i st.world,
                  env.Robot_GetAxis st.robotController i st.world)))
          jointsList :=
            storeHandles
              (reallocList st.jointsList
                (env.Robot_GetJointsNumber st.robotController st.world) env.indeterminate) 0
              ((List.range' 0 (env.Robot_GetJointsNumber st.robotController st.world)).map
                (fun i => (env.Robot_GetJointName st.robotController i st.world,
                  env.Robot_GetJoint st.robotController i st.world)))
          log := st.log ++ events } := by
  unfold refreshLists
  simp only [System.emit]
  generalize hj3 : (DataIO_AddList
      (DataIO_AddList (DataIO_SetStringValue st.json st.robotInfo (some "id") robotName).1
        st.robotInfo (some "joints")).1 st.robotInfo (some "axes")) = r3
  generalize hj2 : (DataIO_AddList
      (DataIO_SetStringValue st.json st.robotInfo (some "id") robotName).1
        st.robotInfo (some "joints")) = r2 at hj3 ⊢
  obtain ⟨json2, listJ⟩ := r2
  obtain ⟨json3, listA⟩ := r3
  simp only [hj3]
  obtain ⟨ev1, h1⟩ := refreshAxisLoop_spec env listA
    (env.Robot_GetAxesNumber st.robotController st.world) 0
    { st with
      json := json3
      axesList := reallocList st.axesList (env.Robot_GetAxesNumber st.robotController st.world)
        env.indeterminate
      log := st.log ++ [Event.Robot_GetAxesNumber st.robotController
        (env.Robot_GetAxesNumber st.robotController st.world)] }
  rw [h1]
  simp only []
  obtain ⟨ev2, h2⟩ := refreshJointLoop_spec env listJ
    (env.Robot_GetJointsNumber st.robotController st.world) 0
    { st with
      json := appendStrings json3 listA
        ((List.range' 0 (env.Robot_GetAxesNumber st.robotController st.world)).map
          (fun i => env.Robot_GetAxisName st.robotController i st.world))
      axesList := storeHandles
        (reallocList st.axesList (env.Robot_GetAxesNumber st.robotController st.world)
                env.indeterminate) 0
        ((List.range' 0 (env.Robot_GetAxesNumber st.robotController st.world)).map
          (fun i => (env.Robot_GetAxisName st.robotController i st.world,
            env.Robot_GetAxis st.robotController i st.world)))
      jointsList := reallocList st.jointsList
        (env.Robot_GetJointsNumber st.robotController st.world) env.indeterminate
      log := st.log ++ [Event.Robot_GetAxesNumber st.robotController
        (env.Robot_GetAxesNumber st.robotController st.world)] ++ ev1
        ++ [Event.Robot_GetJointsNumber st.robotController
          (env.Robot_GetJointsNumber st.robotController st.world)] }
  rw [h2]
  exact ⟨[Event.Robot_GetAxesNumber st.robotController
        (env.Robot_GetAxesNumber st.robotController st.world)] ++ ev1
        ++ [Event.Robot_GetJointsNumber st.robotController
          (env.Robot_GetJointsNumber st.robotController st.world)] ++ ev2, by simp⟩

/-- The descriptor that `RefreshRobotsInfo` builds in an object without members: its `id` is
the robot name, and its `axes` and `joints` lists hold, in order, the names that are not
`NULL`. -/
theorem descriptor_after_refresh (s : JSONStore) (root : Nat) (rootNode : JSONNodeData)
    (hnode : s[root]? = some rootNode)
    (htype : rootNode.type = JSONNodeType.JSON_TYPE_BRACE)
    (hchildren : rootNode.children = [])
    (robotName : String) (axisNames jointNames : List (Option String)) :
    DataIO_GetMemberValue
        (appendStrings
          (appendStrings
            (DataIO_AddList
              (DataIO_AddList (DataIO_SetStringValue s (some root) (some "id") robotName).1
                (some root) (some "joints")).1 (some root) (some "axes")).1
            (DataIO_AddList
              (DataIO_AddList (DataIO_SetStringValue s (some root) (some "id") robotName).1
                (some root) (some "joints")).1 (some root) (some "axes")).2 axisNames)
          (DataIO_AddList (DataIO_SetStringValue s (some root) (some "id") robotName).1
            (some root) (some "joints")).2 jointNames)
        (some root) "id" = some robotName ∧
    DataIO_GetStringList
        (appendStrings
          (appendStrings
            (DataIO_AddList
              (DataIO_AddList (DataIO_SetStringValue s (some root) (some "id") robotName).1
                (some root) (some "joints")).1 (some root) (some "axes")).1
            (DataIO_AddList
              (DataIO_AddList (DataIO_SetStringValue s (some root) (some "id") robotName).1
                (some root) (some "joints")).1 (some root) (some "axes")).2 axisNames)
          (DataIO_AddList (DataIO_SetStringValue s (some root) (some "id") robotName).1
            (some root) (some "joints")).2 jointNames)
        (some root) "axes" = some (axisNames.filter (fun n => n.isSome)) ∧
    DataIO_GetStringList
        (appendStrings
          (appendStrings
            (DataIO_AddList
              (DataIO_AddList (DataIO_SetStringValue s (some root) (some "id") robotName).1
                (some root) (some "joints")).1 (some root) (some "axes")).1
            (DataIO_AddList
              (DataIO_AddList (DataIO_SetStringValue s (some root) (some "id") robotName).1
                (some root) (some "joints")).1 (some root) (some "axes")).2 axisNames)
          (DataIO_AddList (DataIO_SetStringValue s (some root) (some "id") robotName).1
            (some root) (some "joints")).2 jointNames)
        (some root) "joints" = some (jointNames.filter (fun n => n.isSome)) := by
  have hroot : root < s.length := by
    by_contra hc
    rw [List.getElem?_eq_none (by omega)] at hnode
    exact absurd hnode (by simp)
  -- the name
  obtain ⟨a1, a2, a3, a4⟩ := DataIO_SetStringValue_getElem? s root rootNode (some "id")
    robotName hnode (Or.inl htype)
  generalize (DataIO_SetStringValue s (some root) (some "id") robotName).1 = json1 at *
  -- the list of the joints
  obtain ⟨b0, b1, b2, b3, b4⟩ := DataIO_AddList_getElem? json1 root _ (some "joints") a2
    (Or.inl htype)
  generalize DataIO_AddList json1 (some root) (some "joints") = r2 at *
  obtain ⟨json2, listJ⟩ := r2
  simp only at b0 b1 b2 b3 b4 ⊢
  subst b0
  -- the list of the axes
  obtain ⟨c0, c1, c2, c3, c4⟩ := DataIO_AddList_getElem? json2 root _ (some "axes") b2
    (Or.inl htype)
  generalize DataIO_AddList json2 (some root) (some "axes") = r3 at *
  obtain ⟨json3, listA⟩ := r3
  simp only at c0 c1 c2 c3 c4 ⊢
  subst c0
  simp only [htype, if_true, hchildren, List.nil_append, List.cons_append] at a3 b2 b3 c2 c3
  -- the names of the axes
  obtain ⟨addedA, d1, d2, d3, d4, d5⟩ := appendStrings_spec json2.length axisNames json3 _ c3 rfl
  generalize appendStrings json3 (some json2.length) axisNames = json4 at *
  have e3 : json4[json1.length]? = some ⟨JSONNodeType.JSON_TYPE_BRACKET, some "joints", none, []⟩ := by
    rw [d5 json1.length (by omega) (by omega), c4 json1.length (by omega) (by omega), b3]
  -- the names of the joints
  obtain ⟨addedJ, f1, f2, f3, f4, f5⟩ := appendStrings_spec json1.length jointNames json4 _ e3 rfl
  generalize appendStrings json4 (some json1.length) jointNames = json5 at *
  -- the nodes of the final heap
  have g0 : json5[root]? = some ⟨JSONNodeType.JSON_TYPE_BRACE, rootNode.key, rootNode.value,
      [s.length, json1.length, json2.length]⟩ := by
    rw [f5 root (by omega) (by omega), d5 root (by omega) (by omega), c2]
  have g1 : json5[s.length]? = some ⟨JSONNodeType.JSON_TYPE_STRING, some "id", some robotName, []⟩ := by
    rw [f5 _ (by omega) (by omega), d5 _ (by omega) (by omega), c4 _ (by omega) (by omega),
      b4 _ (by omega) (by omega), a3]
  have g3 : json5[json2.length]? = some
      { type := JSONNodeType.JSON_TYPE_BRACKET, key := some "axes", value := none,
        children := addedA } := by
    rw [f5 _ (by omega) (by omega), d1]
    simp
  have g4 : addedA.map (fun c => (json5[c]?).bind (fun m => m.value))
      = axisNames.filter (fun n => n.isSome) := by
    rw [← d2]
    apply List.map_congr_left
    intro c hc
    have := d3 c hc
    rw [f5 c (by omega) (by omega)]
  refine ⟨?_, ?_, ?_⟩
  · simp [DataIO_GetMemberValue, g0, List.find?, g1]
  · simp only [DataIO_GetStringList, g0, List.find?, g1, f1, g3]
    simp only [Option.any_some, Option.some.injEq, String.reduceEq, decide_False,
      decide_True, Option.map_eq_some']
    exact ⟨_, g3, g4⟩
  · simp only [DataIO_GetStringList, g0, List.find?, g1, f1]
    simp only [Option.any_some, Option.some.injEq, String.reduceEq, decide_False,
      decide_True, Option.map_eq_some']
    exact ⟨_, f1, by simpa using f2⟩

theorem storeHandles_length (pairs : List (Option String × Option Nat)) :
    ∀ (handles : List (Option Nat)) (start : Nat),
      (storeHandles handles start pairs).length = handles.length := by
  induction pairs with
  | nil => intro handles start; rfl
  | cons p rest ih =>
    intro handles start
    obtain ⟨name, handle⟩ := p
    cases name with
    | none => simpa [storeHandles] using ih handles (start + 1)
    | some name => simpa [storeHandles] using ih (handles.set start handle) (start + 1)

theorem reallocList_length (list : List (Option Nat)) (n : Nat) (fresh : Nat → Option Nat) :
    (reallocList list n fresh).length = n := by
  simp [reallocList]
  omega

/-- The branch `robotName != NULL` of `RefreshRobotsInfo` when the construction succeeds: the
lists are rebuilt for the new controller, in the world that the construction left. -/
theorem refreshController_success {W Val : Type} (env : Env W Val) (robotName : String)
    (st : System W Val) (robot : Robot) (world : W)
    (hinit : env.Robot_Init robotName
        (if st.robotController ≠ none then env.Robot_End st.robotController st.world
          else st.world)
      = (some robot, world)) :
    ∃ events : List (Event Val),
      refreshController env robotName st =
        refreshLists env robotName
          { st with robotController := some robot, world := world, log := st.log ++ events } := by
  by_cases hc : st.robotController ≠ none
  · rw [if_pos hc] at hinit
    refine ⟨[Event.Robot_End st.robotController, Event.Robot_Init robotName (some robot)], ?_⟩
    simp [refreshController, hc, hinit]
  · rw [if_neg hc] at hinit
    refine ⟨[Event.Robot_Init robotName (some robot)], ?_⟩
    simp [refreshController, hc, hinit]

/-- The branch `robotName != NULL` of `RefreshRobotsInfo` when the construction fails: only
the controller, the world and the log change. -/
theorem refreshController_failure {W Val : Type} (env : Env W Val) (robotName : String)
    (st : System W Val) (world : W)
    (hinit : env.Robot_Init robotName
        (if st.robotController ≠ none then env.Robot_End st.robotController st.world
          else st.world)
      = (none, world)) :
    ∃ events : List (Event Val),
      refreshController env robotName st =
        { st with robotController := none, world := world, log := st.log ++ events } := by
  by_cases hc : st.robotController ≠ none
  · rw [if_pos hc] at hinit
    refine ⟨[Event.Robot_End st.robotController, Event.Robot_Init robotName none], ?_⟩
    simp [refreshController, hc, hinit]
  · rw [if_neg hc] at hinit
    refine ⟨[Event.Robot_Init robotName none], ?_⟩
    simp [refreshController, hc, hinit]

/-- Claim C10, amended. For every prior session state, `RefreshRobotsInfo` with a robot name
whose controller construction fails leaves the session with no active controller and leaves
the descriptor as it was (and the handle arrays and the DOF count too): the descriptor is empty
after the call when it was empty before it, as at start-up, and is not emptied otherwise. -/
theorem RefreshRobotsInfo_failure_keeps_session {W Val : Type} (env : Env W Val) (robotName : String)
    (st : System W Val)
    (hfail : (env.Robot_Init robotName
        (if st.robotController ≠ none then env.Robot_End st.robotController st.world
          else st.world)).1 = none) :
    ∃ st' : System W Val,
      RefreshRobotsInfo env (some robotName) none st = some st' ∧
      st'.robotController = none ∧
      st'.robotInfo = st.robotInfo ∧
      st'.json = st.json ∧
      st'.axesList = st.axesList ∧
      st'.jointsList = st.jointsList ∧
      st'.dofsNumber = st.dofsNumber := by
  obtain ⟨events, h⟩ := refreshController_failure env robotName st
    (env.Robot_Init robotName
        (if st.robotController ≠ none then env.Robot_End st.robotController st.world
          else st.world)).2 (Prod.ext hfail rfl)
  refine ⟨{ st with
      robotController := none
      world := (env.Robot_Init robotName
        (if st.robotController ≠ none then env.Robot_End st.robotController st.world
          else st.world)).2
      log := st.log ++ events }, ?_, rfl, rfl, rfl, rfl, rfl, rfl⟩
  simp only [RefreshRobotsInfo, h]

/-- The nodes of the document after `RefreshRobotsInfo` has added to an object, whatever its
members, the name of the robot and the two lists with the names that are not `NULL`: the
object gains three members at its end, the two new lists hold the names in order, and every
node that was there, the object apart, is as it was. -/
theorem descriptor_nodes_after_refresh (s : JSONStore) (root : Nat) (rootNode : JSONNodeData)
    (hnode : s[root]? = some rootNode)
    (htype : rootNode.type = JSONNodeType.JSON_TYPE_BRACE)
    (robotName : String) (axisNames jointNames : List (Option String)) :
    ∃ (final : JSONStore) (axisNodes jointNodes : List Nat),
      final = appendStrings
          (appendStrings
            (DataIO_AddList
              (DataIO_AddList (DataIO_SetStringValue s (some root) (some "id") robotName).1
                (some root) (some "joints")).1 (some root) (some "axes")).1
            (DataIO_AddList
              (DataIO_AddList (DataIO_SetStringValue s (some root) (some "id") robotName).1
                (some root) (some "joints")).1 (some root) (some "axes")).2 axisNames)
          (DataIO_AddList (DataIO_SetStringValue s (some root) (some "id") robotName).1
            (some root) (some "joints")).2 jointNames ∧
      final[root]? = some { rootNode with
        children := rootNode.children ++ [s.length, s.length + 1, s.length + 2] } ∧
      final[s.length]?
        = some ⟨JSONNodeType.JSON_TYPE_STRING, some "id", some robotName, []⟩ ∧
      final[s.length + 1]?
        = some ⟨JSONNodeType.JSON_TYPE_BRACKET, some "joints", none, jointNodes⟩ ∧
      final[s.length + 2]?
        = some ⟨JSONNodeType.JSON_TYPE_BRACKET, some "axes", none, axisNodes⟩ ∧
      axisNodes.map (fun c => (final[c]?).bind (fun m => m.value))
        = axisNames.filter (fun n => n.isSome) ∧
      jointNodes.map (fun c => (final[c]?).bind (fun m => m.value))
        = jointNames.filter (fun n => n.isSome) ∧
      (∀ i, i ≠ root → i < s.length → final[i]? = s[i]?) := by
  have hroot : root < s.length := by
    by_contra hc
    rw [List.getElem?_eq_none (by omega)] at hnode
    exact absurd hnode (by simp)
  obtain ⟨a1, a2, a3, a4⟩ := DataIO_SetStringValue_getElem? s root rootNode (some "id")
    robotName hnode (Or.inl htype)
  generalize (DataIO_SetStringValue s (some root) (some "id") robotName).1 = json1 at *
  obtain ⟨b0, b1, b2, b3, b4⟩ := DataIO_AddList_getElem? json1 root _ (some "joints") a2
    (Or.inl htype)
  generalize DataIO_AddList json1 (some root) (some "joints") = r2 at *
  obtain ⟨json2, listJ⟩ := r2
  simp only at b0 b1 b2 b3 b4 ⊢
  subst b0
  obtain ⟨c0, c1, c2, c3, c4⟩ := DataIO_AddList_getElem? json2 root _ (some "axes") b2
    (Or.inl htype)
  generalize DataIO_AddList json2 (some root) (some "axes") = r3 at *
  obtain ⟨json3, listA⟩ := r3
  simp only at c0 c1 c2 c3 c4 ⊢
  subst c0
  simp only [htype, if_true, List.append_assoc, List.cons_append, List.nil_append]
    at a3 b2 b3 c2 c3
  obtain ⟨addedA, d1, d2, d3, d4, d5⟩ := appendStrings_spec json2.length axisNames json3 _ c3 rfl
  generalize appendStrings json3 (some json2.length) axisNames = json4 at *
  have e3 : json4[json1.length]?
      = some ⟨JSONNodeType.JSON_TYPE_BRACKET, some "joints", none, []⟩ := by
    rw [d5 json1.length (by omega) (by omega), c4 json1.length (by omega) (by omega), b3]
  obtain ⟨addedJ, f1, f2, f3, f4, f5⟩ := appendStrings_spec json1.length jointNames json4 _ e3 rfl
  generalize appendStrings json4 (some json1.length) jointNames = json5 at *
  refine ⟨json5, addedA, addedJ, rfl, ?_, ?_, ?_, ?_, ?_, ?_, ?_⟩
  · rw [f5 root (by omega) (by omega), d5 root (by omega) (by omega), c2, b1, a1, ← htype]
  · rw [f5 _ (by omega) (by omega), d5 _ (by omega) (by omega), c4 _ (by omega) (by omega),
      b4 _ (by omega) (by omega), a3]
  · rw [← a1, f1]
    simp
  · have hidx : s.length + 2 = json2.length := by omega
    rw [hidx, f5 _ (by omega) (by omega), d1]
    simp
  · rw [← d2]
    apply List.map_congr_left
    intro c hc
    have := d3 c hc
    rw [f5 c (by omega) (by omega)]
  · exact f2
  · intro i hne hi
    rw [f5 i (by omega) (by omega), d5 i (by omega) (by omega), c4 i hne (by omega),
      b4 i hne (by omega), a4 i hne hi]

/-- The slots of a handle array after `realloc`: a slot that was there keeps its content, a
new slot holds what is indeterminate. -/
theorem reallocList_getElem? (list : List (Option Nat)) (n : Nat) (fresh : Nat → Option Nat)
    (i : Nat) (hi : i < n) :
    (reallocList list n fresh)[i]?
      = if i < list.length then list[i]? else some (fresh i) := by
  unfold reallocList
  by_cases h : i < list.length
  · rw [if_pos h, List.getElem?_append_left (by simp; omega), List.getElem?_take_of_lt hi]
  · rw [if_neg h, List.getElem?_append_right (by simp; omega)]
    have hlen : (List.take n list).length = list.length := by simp; omega
    rw [hlen, List.getElem?_map, List.getElem?_range' _ _ (by omega)]
    simp
    congr 1
    omega

/-- The slot of a position whose name is resolved, after the handles have been stored: the
handle of that position. -/
theorem storeHandles_getElem?_resolved (pairs : List (Option String × Option Nat)) :
    ∀ (handles : List (Option Nat)) (start j : Nat) (p : Option String × Option Nat),
      pairs[j]? = some p → p.1 ≠ none → start + j < handles.length →
      (storeHandles handles start pairs)[start + j]? = some p.2 := by
  induction pairs with
  | nil =>
    intro handles start j p hp
    simp at hp
  | cons q rest ih =>
    intro handles start j p hp hname hlen
    have hkeep : ∀ (l : List (Option String × Option Nat)) (hs : List (Option Nat))
        (first i : Nat), i < first → (storeHandles hs first l)[i]? = hs[i]? := by
      intro l
      induction l with
      | nil => intro hs first i _; rfl
      | cons r l ihl =>
        intro hs first i hi
        obtain ⟨name, handle⟩ := r
        cases name with
        | none =>
          simp only [storeHandles]
          exact ihl hs (first + 1) i (by omega)
        | some name =>
          simp only [storeHandles]
          rw [ihl (hs.set first handle) (first + 1) i (by omega),
            List.getElem?_set_ne (by omega)]
    obtain ⟨name, handle⟩ := q
    cases j with
    | zero =>
      simp only [List.getElem?_cons_zero, Option.some.injEq] at hp
      subst hp
      cases name with
      | none => exact absurd rfl hname
      | some name =>
        simp only [storeHandles, Nat.add_zero]
        rw [hkeep rest (handles.set start handle) (start + 1) start (by omega),
          List.getElem?_set_eq_of_lt _ (by omega)]
    | succ j =>
      simp only [List.getElem?_cons_succ] at hp
      have hidx : start + (j + 1) = (start + 1) + j := by omega
      cases name with
      | none =>
        simp only [storeHandles]
        rw [hidx]
        exact ih handles (start + 1) j p hp hname (by omega)
      | some name =>
        simp only [storeHandles]
        rw [hidx]
        exact ih (handles.set start handle) (start + 1) j p hp hname
          (by rw [List.length_set]; omega)

/-- The slot of a position whose name is not resolved, or of a position outside those that
are visited, after the handles have been stored: what it held. -/
theorem storeHandles_getElem?_kept (pairs : List (Option String × Option Nat)) :
    ∀ (handles : List (Option Nat)) (start i : Nat),
      (∀ j p, pairs[j]? = some p → i = start + j → p.1 = none) →
      (storeHandles handles start pairs)[i]? = handles[i]? := by
  induction pairs with
  | nil => intro handles start i _; rfl
  | cons q rest ih =>
    intro handles start i hnone
    obtain ⟨name, handle⟩ := q
    have hrest : ∀ j p, rest[j]? = some p → i = (start + 1) + j → p.1 = none := by
      intro j p hp hi
      exact hnone (j + 1) p (by simpa using hp) (by omega)
    cases name with
    | none =>
      simp only [storeHandles]
      exact ih handles (start + 1) i hrest
    | some name =>
      have hne : start ≠ i := by
        intro h
        have := hnone 0 (some name, handle) (by simp) (by omega)
        simp at this
      simp only [storeHandles]
      rw [ih (handles.set start handle) (start + 1) i hrest, List.getElem?_set_ne hne]

/-- Claim C9, amended. After `RefreshRobotsInfo( name, NULL )` returns with a successfully
constructed controller, whatever the descriptor held before, provided it is an object: the
call adds to the descriptor, after the members it had, the name of the robot, a new list
`joints` and a new list `axes`, and every node that was there is kept; the new axis (joint)
list holds, in the order of the positions, the names of the axes (joints) whose name is
resolved, and no entry for the others; the axis (joint) handle array has one slot per
position, the slot of a position whose name is resolved holds the handle of that axis (joint),
and the slot of a position whose name is not resolved is not assigned: it holds what it held
before, or what is indeterminate when the array has just grown to it. When every name is
resolved, the new name list and the handle array have the same length and order; when some
name is not resolved, the new name list is shorter than the handle array. On a descriptor
without members, as `System_Init` creates it, the new lists are the ones found under the keys
`axes` and `joints`. -/
theorem RefreshRobotsInfo_descriptor_matches_handles {W Val : Type} (env : Env W Val)
    (robotName : String) (st : System W Val) (root : Nat) (rootNode : JSONNodeData)
    (robot : Robot) (world : W)
    (hinfo : st.robotInfo = some root)
    (hnode : st.json[root]? = some rootNode)
    (htype : rootNode.type = JSONNodeType.JSON_TYPE_BRACE)
    (hinit : env.Robot_Init robotName
        (if st.robotController ≠ none then env.Robot_End st.robotController st.world
          else st.world)
      = (some robot, world)) :
    ∃ (st' : System W Val) (axisNodes jointNodes : List Nat),
      RefreshRobotsInfo env (some robotName) none st = some st' ∧
      st'.robotController = some robot ∧
      st'.robotInfo = some root ∧
      st'.json[root]? = some { rootNode with
        children := rootNode.children
          ++ [st.json.length, st.json.length + 1, st.json.length + 2] } ∧
      st'.json[st.json.length]?
        = some ⟨JSONNodeType.JSON_TYPE_STRING, some "id", some robotName, []⟩ ∧
      st'.json[st.json.length + 1]?
        = some ⟨JSONNodeType.JSON_TYPE_BRACKET, some "joints", none, jointNodes⟩ ∧
      st'.json[st.json.length + 2]?
        = some ⟨JSONNodeType.JSON_TYPE_BRACKET, some "axes", none, axisNodes⟩ ∧
      (∀ i, i ≠ root → i < st.json.length → st'.json[i]? = st.json[i]?) ∧
      axisNodes.map (fun c => (st'.json[c]?).bind (fun m => m.value))
        = ((List.range (env.Robot_GetAxesNumber (some robot) world)).map
            (fun i => env.Robot_GetAxisName (some robot) i world)).filter (fun n => n.isSome) ∧
      jointNodes.map (fun c => (st'.json[c]?).bind (fun m => m.value))
        = ((List.range (env.Robot_GetJointsNumber (some robot) world)).map
            (fun i => env.Robot_GetJointName (some robot) i world)).filter (fun n => n.isSome) ∧
      st'.axesList.length = env.Robot_GetAxesNumber (some robot) world ∧
      st'.jointsList.length = env.Robot_GetJointsNumber (some robot) world ∧
      (∀ i, i < env.Robot_GetAxesNumber (some robot) world →
        (env.Robot_GetAxisName (some robot) i world ≠ none →
          st'.axesList[i]? = some (env.Robot_GetAxis (some robot) i world)) ∧
        (env.Robot_GetAxisName (some robot) i world = none →
          st'.axesList[i]?
            = if i < st.axesList.length then st.axesList[i]?
              else some (env.indeterminate i))) ∧
      (∀ i, i < env.Robot_GetJointsNumber (some robot) world →
        (env.Robot_GetJointName (some robot) i world ≠ none →
          st'.jointsList[i]? = some (env.Robot_GetJoint (some robot) i world)) ∧
        (env.Robot_GetJointName (some robot) i world = none →
          st'.jointsList[i]?
            = if i < st.jointsList.length then st.jointsList[i]?
              else some (env.indeterminate i))) ∧
      ((∀ i, i < env.Robot_GetAxesNumber (some robot) world →
          env.Robot_GetAxisName (some robot) i world ≠ none) →
        axisNodes.map (fun c => (st'.json[c]?).bind (fun m => m.value))
          = (List.range (env.Robot_GetAxesNumber (some robot) world)).map
              (fun i => env.Robot_GetAxisName (some robot) i world) ∧
        st'.axesList = (List.range (env.Robot_GetAxesNumber (some robot) world)).map
              (fun i => env.Robot_GetAxis (some robot) i world)) ∧
      ((∀ i, i < env.Robot_GetJointsNumber (some robot) world →
          env.Robot_GetJointName (some robot) i world ≠ none) →
        jointNodes.map (fun c => (st'.json[c]?).bind (fun m => m.value))
          = (List.range (env.Robot_GetJointsNumber (some robot) world)).map
              (fun i => env.Robot_GetJointName (some robot) i world) ∧
        st'.jointsList = (List.range (env.Robot_GetJointsNumber (some robot) world)).map
              (fun i => env.Robot_GetJoint (some robot) i world)) ∧
      ((∃ i, i < env.Robot_GetAxesNumber (some robot) world ∧
          env.Robot_GetAxisName (some robot) i world = none) →
        axisNodes.length < st'.axesList.length) ∧
      ((∃ i, i < env.Robot_GetJointsNumber (some robot) world ∧
          env.Robot_GetJointName (some robot) i world = none) →
        jointNodes.length < st'.jointsList.length) ∧
      (rootNode.children = [] →
        DataIO_GetMemberValue st'.json st'.robotInfo "id" = some robotName ∧
        DataIO_GetStringList st'.json st'.robotInfo "axes"
          = some (axisNodes.map (fun c => (st'.json[c]?).bind (fun m => m.value))) ∧
        DataIO_GetStringList st'.json st'.robotInfo "joints"
          = some (jointNodes.map (fun c => (st'.json[c]?).bind (fun m => m.value)))) := by
  obtain ⟨ev1, h1⟩ := refreshController_success env robotName st robot world hinit
  obtain ⟨ev2, h2⟩ := refreshLists_spec env robotName
    { st with robotController := some robot, world := world, log := st.log ++ ev1 }
  obtain ⟨final, axisNodes, jointNodes, n0, n1, n2, n3, n4, n5, n6, n7⟩ :=
    descriptor_nodes_after_refresh st.json root rootNode hnode htype robotName
      ((List.range' 0 (env.Robot_GetAxesNumber (some robot) world)).map
        (fun i => env.Robot_GetAxisName (some robot) i world))
      ((List.range' 0 (env.Robot_GetJointsNumber (some robot) world)).map
        (fun i => env.Robot_GetJointName (some robot) i world))
  have hjson : (refreshLists env robotName
      { st with robotController := some robot, world := world, log := st.log ++ ev1 }).json
      = final := by
    rw [h2, n0]
    simp only [hinfo]
  have haxes : (refreshLists env robotName
      { st with robotController := some robot, world := world, log := st.log ++ ev1 }).axesList
      = storeHandles
          (reallocList st.axesList (env.Robot_GetAxesNumber (some robot) world)
            env.indeterminate) 0
          ((List.range' 0 (env.Robot_GetAxesNumber (some robot) world)).map
            (fun i => (env.Robot_GetAxisName (some robot) i world,
              env.Robot_GetAxis (some robot) i world))) := by
    rw [h2]
  have hjoints : (refreshLists env robotName
      { st with robotController := some robot, world := world, log := st.log ++ ev1 }).jointsList
      = storeHandles
          (reallocList st.jointsList (env.Robot_GetJointsNumber (some robot) world)
            env.indeterminate) 0
          ((List.range' 0 (env.Robot_GetJointsNumber (some robot) world)).map
            (fun i => (env.Robot_GetJointName (some robot) i world,
              env.Robot_GetJoint (some robot) i world))) := by
    rw [h2]
  have hcontroller : (refreshLists env robotName
      { st with robotController := some robot, world := world, log := st.log ++ ev1 }
      ).robotController = some robot := by
    rw [h2]
  have hroot : (refreshLists env robotName
      { st with robotController := some robot, world := world, log := st.log ++ ev1 }
      ).robotInfo = some root := by
    rw [h2]
    exact hinfo
  -- the slots of a handle array after the loop
  have hslots : ∀ (old : List (Option Nat)) (count : Nat) (names : Nat → Option String)
      (handles : Nat → Option Nat) (i : Nat), i < count →
      (names i ≠ none →
        (storeHandles (reallocList old count env.indeterminate) 0
          ((List.range' 0 count).map (fun i => (names i, handles i))))[i]?
          = some (handles i)) ∧
      (names i = none →
        (storeHandles (reallocList old count env.indeterminate) 0
          ((List.range' 0 count).map (fun i => (names i, handles i))))[i]?
          = if i < old.length then old[i]? else some (env.indeterminate i)) := by
    intro old count names handles i hi
    have hpair : ((List.range' 0 count).map (fun i => (names i, handles i)))[i]?
        = some (names i, handles i) := by
      rw [List.getElem?_map, List.getElem?_range' _ _ hi]
      simp
    constructor
    · intro hname
      have := storeHandles_getElem?_resolved _ (reallocList old count env.indeterminate) 0 i
        (names i, handles i) hpair hname (by rw [reallocList_length]; omega)
      simpa using this
    · intro hname
      rw [storeHandles_getElem?_kept _ _ 0 i, reallocList_getElem? _ _ _ _ hi]
      intro j p hp hj
      have hij : i = j := by omega
      subst hij
      rw [hpair] at hp
      simp only [Option.some.injEq] at hp
      rw [← hp]
      exact hname
  -- the whole array when every name is resolved
  have hall : ∀ (old : List (Option Nat)) (count : Nat) (names : Nat → Option String)
      (handles : Nat → Option Nat), (∀ i, i < count → names i ≠ none) →
      storeHandles (reallocList old count env.indeterminate) 0
          ((List.range' 0 count).map (fun i => (names i, handles i)))
        = (List.range count).map handles := by
    intro old count names handles hres
    rw [storeHandles_resolved _ _ _ _ (by simp [reallocList_length])]
    · simp [reallocList_length, List.range_eq_range', List.map_map]
      rw [List.drop_of_length_le (by rw [reallocList_length])]
      simp [Function.comp_def]
    · intro p hp
      obtain ⟨i, hi, rfl⟩ := List.mem_map.mp hp
      exact hres i (by simpa using hi)
  have hfilter : ∀ (count : Nat) (names : Nat → Option String),
      (∀ i, i < count → names i ≠ none) →
      ((List.range count).map names).filter (fun n => n.isSome)
        = (List.range count).map names := by
    intro count names hres
    rw [List.filter_eq_self]
    intro n hn
    obtain ⟨i, hi, rfl⟩ := List.mem_map.mp hn
    exact Option.isSome_iff_ne_none.mpr (hres i (by simpa using hi))
  have hshort : ∀ (count : Nat) (names : Nat → Option String) (i : Nat), i < count →
      names i = none →
      (((List.range' 0 count).map names).filter (fun n => n.isSome)).length < count := by
    intro count names i hi hname
    have hlt := List.length_filter_lt_length_iff_exists.mpr
      (⟨names i, List.mem_map.mpr ⟨i, by simpa using hi, rfl⟩, by simp [hname]⟩ :
        ∃ x ∈ (List.range' 0 count).map names, ¬ (fun n : Option String => n.isSome) x = true)
    simpa using hlt
  refine ⟨refreshLists env robotName
      { st with robotController := some robot, world := world, log := st.log ++ ev1 },
    axisNodes, jointNodes, by simp only [RefreshRobotsInfo, h1], hcontroller, hroot,
    ?_, ?_, ?_, ?_, ?_, ?_, ?_, ?_, ?_, ?_, ?_, ?_, ?_, ?_, ?_, ?_⟩
  · rw [hjson]; exact n1
  · rw [hjson]; exact n2
  · rw [hjson]; exact n3
  · rw [hjson]; exact n4
  · rw [hjson]; exact n7
  · rw [hjson, List.range_eq_range']; exact n5
  · rw [hjson, List.range_eq_range']; exact n6
  · rw [haxes, storeHandles_length, reallocList_length]
  · rw [hjoints, storeHandles_length, reallocList_length]
  · intro i hi
    rw [haxes]
    exact hslots st.axesList _ (fun i => env.Robot_GetAxisName (some robot) i world)
      (fun i => env.Robot_GetAxis (some robot) i world) i hi
  · intro i hi
    rw [hjoints]
    exact hslots st.jointsList _ (fun i => env.Robot_GetJointName (some robot) i world)
      (fun i => env.Robot_GetJoint (some robot) i world) i hi
  · intro hres
    constructor
    · rw [hjson, n5, ← List.range_eq_range', hfilter _ _ hres]
    · rw [haxes]
      exact hall st.axesList _ (fun i => env.Robot_GetAxisName (some robot) i world)
        (fun i => env.Robot_GetAxis (some robot) i world) hres
  · intro hres
    constructor
    · rw [hjson, n6, ← List.range_eq_range', hfilter _ _ hres]
    · rw [hjoints]
      exact hall st.jointsList _ (fun i => env.Robot_GetJointName (some robot) i world)
        (fun i => env.Robot_GetJoint (some robot) i world) hres
  · intro hsome
    obtain ⟨i, hi, hname⟩ := hsome
    have hlen := congrArg List.length n5
    rw [List.length_map] at hlen
    rw [haxes, storeHandles_length, reallocList_length, hlen]
    exact hshort _ (fun i => env.Robot_GetAxisName (some robot) i world) i hi hname
  · intro hsome
    obtain ⟨i, hi, hname⟩ := hsome
    have hlen := congrArg List.length n6
    rw [List.length_map] at hlen
    rw [hjoints, storeHandles_length, reallocList_length, hlen]
    exact hshort _ (fun i => env.Robot_GetJointName (some robot) i world) i hi hname
  · intro hempty
    obtain ⟨d1, d2, d3⟩ := descriptor_after_refresh st.json root rootNode hnode htype hempty
      robotName
      ((List.range' 0 (env.Robot_GetAxesNumber (some robot) world)).map
        (fun i => env.Robot_GetAxisName (some robot) i world))
      ((List.range' 0 (env.Robot_GetJointsNumber (some robot) world)).map
        (fun i => env.Robot_GetJointName (some robot) i world))
    rw [← n0] at d1 d2 d3
    rw [hroot, hjson, n5, n6]
    exact ⟨d1, d2, d3⟩

/-- Claim C9, counterexample. The program is started for the robot `arm2`, which is
constructed successfully but whose axis 0 has a name that cannot be resolved: the axis list of
the descriptor has the one name `elbow`, at position 0, while the handle array has two slots,
and the handle of the axis `elbow` is at position 1. -/
theorem RefreshRobotsInfo_unresolved_name_shifts_descriptor :
    sampleEnv.Robot_GetAxisName (some 2) 0 () = none ∧
    sampleEnv.Robot_GetAxisName (some 2) 1 () = some "elbow" ∧
    sampleEnv.Robot_GetAxis (some 2) 1 () = some 11 ∧
    (System_Init sampleEnv sampleIPC ["robrehab", "arm2"] (System.initial ())).map
        (fun r => r.system.robotController) = some (some 2) ∧
    (System_Init sampleEnv sampleIPC ["robrehab", "arm2"] (System.initial ())).map
        (fun r => DataIO_GetStringList r.system.json r.system.robotInfo "axes")
      = some (some [some "elbow"]) ∧
    (System_Init sampleEnv sampleIPC ["robrehab", "arm2"] (System.initial ())).map
        (fun r => r.system.axesList.length) = some 2 ∧
    (System_Init sampleEnv sampleIPC ["robrehab", "arm2"] (System.initial ())).map
        (fun r => r.system.axesList[1]?) = some (some (some 11)) := by
  decide

/-- Claim C10, counterexample. In the session of the robot `arm1`, a refresh with a name whose
construction fails leaves no active controller, but the descriptor still has the name `arm1`
and the axis and joint names of that robot. -/
theorem RefreshRobotsInfo_failure_keeps_descriptor :
    (sampleEnv.Robot_Init "nobody" sampleRefreshed.world).1 = none ∧
    (RefreshRobotsInfo sampleEnv (some "nobody") none sampleRefreshed).map
        (fun st => st.robotController) = some none ∧
    (RefreshRobotsInfo sampleEnv (some "nobody") none sampleRefreshed).map
        (fun st => DataIO_GetMemberValue st.json st.robotInfo "id") = some (some "arm1") ∧
    (RefreshRobotsInfo sampleEnv (some "nobody") none sampleRefreshed).map
        (fun st => DataIO_GetStringList st.json st.robotInfo "axes")
      = some (some [some "shoulder", some "elbow"]) ∧
    (RefreshRobotsInfo sampleEnv (some "nobody") none sampleRefreshed).map
        (fun st => DataIO_GetStringList st.json st.robotInfo "joints")
      = some (some [some "j0", some "j1"]) := by
  decide

/-- Witness of the amended claim C10: a failed construction at start-up. -/
theorem RefreshRobotsInfo_failure_keeps_session_witness :
    (sampleEnv.Robot_Init "nobody"
        (if sampleStart.robotController ≠ none then
          sampleEnv.Robot_End sampleStart.robotController sampleStart.world
          else sampleStart.world)).1 = none ∧
    ∃ st' : System Unit F32,
      RefreshRobotsInfo sampleEnv (some "nobody") none sampleStart = some st' ∧
      st'.robotController = none ∧
      st'.robotInfo = sampleStart.robotInfo ∧
      st'.json = sampleStart.json ∧
      st'.axesList = sampleStart.axesList ∧
      st'.jointsList = sampleStart.jointsList ∧
      st'.dofsNumber = sampleStart.dofsNumber :=
  ⟨by decide, RefreshRobotsInfo_failure_keeps_session sampleEnv "nobody" sampleStart (by decide)⟩

/-! ## What the services leave untouched -/

/-- A `for` loop keeps what every turn of it keeps. -/
theorem forLoop_invariant {σ : Type} (P : σ → Prop) (body : Nat → σ → σ)
    (hbody : ∀ i s, P s → P (body i s)) :
    ∀ (count start : Nat) (s : σ), P s → P (forLoop body count start s) := by
  intro count
  induction count with
  | zero => intro start s hs; exact hs
  | succ n ih =>
    intro start s hs
    exact ih (start + 1) (body start s) (hbody start s hs)

/-- The function `UpdateAxes` touches neither the descriptor handle nor the DOF count. -/
theorem UpdateAxes_frame {W Val : Type} (env : Env W Val) (st : System W Val) :
    (UpdateAxes env st).robotInfo = st.robotInfo ∧
    (UpdateAxes env st).dofsNumber = st.dofsNumber := by
  have hblock : ∀ (i : Nat) (p : System W Val × Nat),
      (p.1.robotInfo = st.robotInfo ∧ p.1.dofsNumber = st.dofsNumber) →
      ((setpointBlock env i p).1.robotInfo = st.robotInfo ∧
        (setpointBlock env i p).1.dofsNumber = st.dofsNumber) := by
    intro i p hp
    obtain ⟨s, c⟩ := p
    by_cases h : s.message c < s.dofsNumber
    · rw [setpointBlock_valid env i s c h]
      exact hp
    · rw [setpointBlock_invalid env i s c (Nat.not_lt.mp h)]
      exact hp
  have hloop : ∀ (received : List (List Nat)) (p : System W Val × Nat),
      (p.1.robotInfo = st.robotInfo ∧ p.1.dofsNumber = st.dofsNumber) →
      ((axesLoop env received p).1.robotInfo = st.robotInfo ∧
        (axesLoop env received p).1.dofsNumber = st.dofsNumber) := by
    intro received
    induction received with
    | nil => intro p hp; exact hp
    | cons m rest ih =>
      intro p hp
      simp only [axesLoop]
      apply ih
      exact forLoop_invariant
        (fun q : System W Val × Nat =>
          q.1.robotInfo = st.robotInfo ∧ q.1.dofsNumber = st.dofsNumber)
        (setpointBlock env) hblock _ _ _ hp
  have hmeasure : ∀ (i : Nat) (p : System W Val × Nat),
      (p.1.robotInfo = st.robotInfo ∧ p.1.dofsNumber = st.dofsNumber) →
      ((axisMeasuresBlock env i p).1.robotInfo = st.robotInfo ∧
        (axisMeasuresBlock env i p).1.dofsNumber = st.dofsNumber) := by
    intro i p hp
    exact hp
  have hin := hloop st.axesQueue (st, 0) ⟨rfl, rfl⟩
  have hout := forLoop_invariant
    (fun q : System W Val × Nat =>
      q.1.robotInfo = st.robotInfo ∧ q.1.dofsNumber = st.dofsNumber)
    (axisMeasuresBlock env) hmeasure
    (axesLoop env st.axesQueue (st, 0)).1.dofsNumber 0
    ({ (axesLoop env st.axesQueue (st, 0)).1 with
        message := memset (axesLoop env st.axesQueue (st, 0)).1.message 0 0
          env.IPC_MAX_MESSAGE_LENGTH }, 1) hin
  unfold UpdateAxes axesOutbound
  simp only []
  split
  · exact hout
  · exact hout

/-- The function `UpdateJoints` touches neither the descriptor handle nor the DOF count. -/
theorem UpdateJoints_frame {W Val : Type} (env : Env W Val) (st : System W Val) :
    (UpdateJoints env st).robotInfo = st.robotInfo ∧
    (UpdateJoints env st).dofsNumber = st.dofsNumber := by
  have hmeasure : ∀ (i : Nat) (p : System W Val × Nat),
      (p.1.robotInfo = st.robotInfo ∧ p.1.dofsNumber = st.dofsNumber) →
      ((jointMeasuresBlock env i p).1.robotInfo = st.robotInfo ∧
        (jointMeasuresBlock env i p).1.dofsNumber = st.dofsNumber) := by
    intro i p hp
    exact hp
  have hout := forLoop_invariant
    (fun q : System W Val × Nat =>
      q.1.robotInfo = st.robotInfo ∧ q.1.dofsNumber = st.dofsNumber)
    (jointMeasuresBlock env) hmeasure st.dofsNumber 0
    ({ st with messageOut := memset st.messageOut 0 0 env.IPC_MAX_MESSAGE_LENGTH }, 1)
    ⟨rfl, rfl⟩
  unfold UpdateJoints
  simp only []
  split
  · exact hout
  · exact hout

/-! ## Start-up: the arguments of `System_Init`, and `main` -/

/-- The loop over the options with enough fuel: it ends, and it accepts exactly when an even
number of arguments is left before the robot name and every second one of them, from
`optionIndex` on, is an option. -/
theorem parseOptions_accepts (argv : List String) :
    ∀ (fuel k : Nat) (args : Arguments), k < argv.length → argv.length ≤ fuel + k →
      (∃ r, parseOptions argv fuel k args = some r) ∧
      ((∃ a, parseOptions argv fuel k args = some (Except.ok a)) ↔
        ((argv.length - 1 - k) % 2 = 0 ∧
          ∀ i, k ≤ i → (i - k) % 2 = 0 → i + 3 ≤ argv.length →
            (argv[i]? = some "--config" ∨ argv[i]? = some "--addr"))) := by
  intro fuel
  induction fuel with
  | zero =>
    intro k args hk hfuel
    omega
  | succ fuel ih =>
    intro k args hk hfuel
    by_cases hend : k < argv.length - 1
    · by_cases hmiss : k + 1 ≥ argv.length - 1
      · -- the option at `argc - 2` has no value
        have hstep : parseOptions argv (fuel + 1) k args
            = some (Except.error (InitError.missingValue (argv.getD k ""))) := by
          simp only [parseOptions, hend, hmiss, if_true]
        rw [hstep]
        refine ⟨⟨_, rfl⟩, ?_⟩
        constructor
        · rintro ⟨a, ha⟩
          simp at ha
        · rintro ⟨hpar, _⟩
          omega
      · have hmiss' : ¬ (k + 1 ≥ argv.length - 1) := hmiss
        by_cases hc : argv[k]? = some "--config"
        · have hstep : parseOptions argv (fuel + 1) k args
              = parseOptions argv fuel (k + 2)
                  { args with configDirectory := argv.getD (k + 1) "" } := by
            simp only [parseOptions, hend, hmiss', hc, if_true, if_false]
          obtain ⟨t1, t2⟩ := ih (k + 2)
            { args with configDirectory := argv.getD (k + 1) "" } (by omega) (by omega)
          rw [hstep]
          refine ⟨t1, ?_⟩
          rw [t2]
          constructor
          · rintro ⟨hpar, hall⟩
            refine ⟨by omega, ?_⟩
            intro i hi hparity hbound
            by_cases hik : i = k
            · subst hik; exact Or.inl hc
            · exact hall i (by omega) (by omega) hbound
          · rintro ⟨hpar, hall⟩
            refine ⟨by omega, ?_⟩
            intro i hi hparity hbound
            exact hall i (by omega) (by omega) hbound
        · by_cases ha : argv[k]? = some "--addr"
          · have hstep : parseOptions argv (fuel + 1) k args
                = parseOptions argv fuel (k + 2)
                    { args with connectionAddress := argv[k + 1]? } := by
              simp [parseOptions, hend, hmiss', ha]
            obtain ⟨t1, t2⟩ := ih (k + 2)
              { args with connectionAddress := argv[k + 1]? } (by omega) (by omega)
            rw [hstep]
            refine ⟨t1, ?_⟩
            rw [t2]
            constructor
            · rintro ⟨hpar, hall⟩
              refine ⟨by omega, ?_⟩
              intro i hi hparity hbound
              by_cases hik : i = k
              · subst hik; exact Or.inr ha
              · exact hall i (by omega) (by omega) hbound
            · rintro ⟨hpar, hall⟩
              refine ⟨by omega, ?_⟩
              intro i hi hparity hbound
              exact hall i (by omega) (by omega) hbound
          · -- an unknown option
            have hstep : parseOptions argv (fuel + 1) k args
                = some (Except.error (InitError.unknownOption (argv.getD k ""))) := by
              simp only [parseOptions, hend, hmiss', hc, ha, if_true, if_false]
            rw [hstep]
            refine ⟨⟨_, rfl⟩, ?_⟩
            constructor
            · rintro ⟨a, h⟩
              simp at h
            · rintro ⟨_, hall⟩
              rcases hall k (le_refl k) (by simp) (by omega) with h | h
              · exact absurd h hc
              · exact absurd h ha
    · -- `optionIndex = argc - 1`: the loop ends
      have hstep : parseOptions argv (fuel + 1) k args = some (Except.ok args) := by
        simp only [parseOptions, hend, if_false]
      rw [hstep]
      refine ⟨⟨_, rfl⟩, ?_⟩
      constructor
      · intro _
        refine ⟨by omega, ?_⟩
        intro i hi _ hbound
        omega
      · intro _
        exact ⟨args, rfl⟩

/-- The arguments with which the loop over the options ends, when it accepts: the robot name
is untouched, and the directory and the address are the values that follow the last `--config`
and the last `--addr` from `optionIndex` on, or are untouched when there is none. -/
theorem parseOptions_values (argv : List String) :
    ∀ (fuel k : Nat) (args a : Arguments),
      parseOptions argv fuel k args = some (Except.ok a) →
      a.robotConfigName = args.robotConfigName ∧
      ((∀ i, k ≤ i → (i - k) % 2 = 0 → i + 3 ≤ argv.length → argv[i]? ≠ some "--config") →
        a.configDirectory = args.configDirectory) ∧
      (∀ i, k ≤ i → (i - k) % 2 = 0 → i + 3 ≤ argv.length → argv[i]? = some "--config" →
        (∀ j, i < j → (j - k) % 2 = 0 → j + 3 ≤ argv.length → argv[j]? ≠ some "--config") →
        some a.configDirectory = argv[i + 1]?) ∧
      ((∀ i, k ≤ i → (i - k) % 2 = 0 → i + 3 ≤ argv.length → argv[i]? ≠ some "--addr") →
        a.connectionAddress = args.connectionAddress) ∧
      (∀ i, k ≤ i → (i - k) % 2 = 0 → i + 3 ≤ argv.length → argv[i]? = some "--addr" →
        (∀ j, i < j → (j - k) % 2 = 0 → j + 3 ≤ argv.length → argv[j]? ≠ some "--addr") →
        a.connectionAddress = argv[i + 1]?) := by
  intro fuel
  induction fuel with
  | zero =>
    intro k args a h
    simp [parseOptions] at h
  | succ fuel ih =>
    intro k args a h
    by_cases hend : k < argv.length - 1
    · by_cases hmiss : k + 1 ≥ argv.length - 1
      · simp [parseOptions, hend, hmiss] at h
      · have hmiss' : ¬ (k + 1 ≥ argv.length - 1) := hmiss
        have hnext : k + 1 < argv.length := by omega
        have hval : some (argv.getD (k + 1) "") = argv[k + 1]? := by
          rw [List.getD_eq_getElem?_getD, List.getElem?_eq_getElem hnext]
          rfl
        by_cases hc : argv[k]? = some "--config"
        · simp only [parseOptions, hend, hmiss', hc, if_true, if_false] at h
          obtain ⟨r1, r2, r3, r4, r5⟩ := ih (k + 2) _ a h
          refine ⟨r1, ?_, ?_, ?_, ?_⟩
          · intro hnone
            exact absurd hc (hnone k (le_refl k) (by simp) (by omega))
          · intro i hi hparity hbound hi_c hlast
            by_cases hik : i = k
            · subst hik
              rw [r2 (fun j hj hjp hjb => hlast j (by omega) (by omega) hjb)]
              exact hval
            · exact r3 i (by omega) (by omega) hbound hi_c
                (fun j hj hjp hjb => hlast j hj (by omega) hjb)
          · intro hnone
            exact r4 (fun i hi hp hb => hnone i (by omega) (by omega) hb)
          · intro i hi hparity hbound hi_a hlast
            have hik : i ≠ k := by
              rintro rfl
              rw [hc] at hi_a
              simp at hi_a
            exact r5 i (by omega) (by omega) hbound hi_a
              (fun j hj hjp hjb => hlast j hj (by omega) hjb)
        · by_cases ha : argv[k]? = some "--addr"
          · have hstep : parseOptions argv (fuel + 1) k args
                = parseOptions argv fuel (k + 2)
                    { args with connectionAddress := argv[k + 1]? } := by
              simp [parseOptions, hend, hmiss', ha]
            rw [hstep] at h
            obtain ⟨r1, r2, r3, r4, r5⟩ := ih (k + 2) _ a h
            refine ⟨r1, ?_, ?_, ?_, ?_⟩
            · intro hnone
              exact r2 (fun i hi hp hb => hnone i (by omega) (by omega) hb)
            · intro i hi hparity hbound hi_c hlast
              have hik : i ≠ k := by
                rintro rfl
                exact hc hi_c
              exact r3 i (by omega) (by omega) hbound hi_c
                (fun j hj hjp hjb => hlast j hj (by omega) hjb)
            · intro hnone
              exact absurd ha (hnone k (le_refl k) (by simp) (by omega))
            · intro i hi hparity hbound hi_a hlast
              by_cases hik : i = k
              · subst hik
                exact r4 (fun j hj hjp hjb => hlast j (by omega) (by omega) hjb)
              · exact r5 i (by omega) (by omega) hbound hi_a
                  (fun j hj hjp hjb => hlast j hj (by omega) hjb)
          · simp [parseOptions, hend, hmiss', hc, ha] at h
    · simp only [parseOptions, hend, if_false, Option.some.injEq, Except.ok.injEq] at h
      subst h
      refine ⟨rfl, fun _ => rfl, ?_, fun _ => rfl, ?_⟩
      · intro i hi _ hbound
        omega
      · intro i hi _ hbound
        omega

/-- The two cases of `lastOptionValue`: the option occurs at no option position, or it has a
last occurrence, and the value is the argument that follows it. -/
theorem lastOptionValue_cases (argv : List String) (option : String) :
    (lastOptionValue argv option = none ∧
      ∀ i, optionPosition argv.length i → argv[i]? ≠ some option) ∨
    (∃ i, optionPosition argv.length i ∧ argv[i]? = some option ∧
      (∀ j, i < j → optionPosition argv.length j → argv[j]? ≠ some option) ∧
      lastOptionValue argv option = argv[i + 1]?) := by
  have hsorted : List.Pairwise (fun x1 x2 => x1 < x2)
      ((List.range argv.length).filter
        (fun i => decide (i % 2 = 1 ∧ i + 3 ≤ argv.length)
          && decide (argv[i]? = some option))) :=
    List.Pairwise.filter _ (List.pairwise_lt_range _)
  have hmem : ∀ i, i ∈ (List.range argv.length).filter
        (fun i => decide (i % 2 = 1 ∧ i + 3 ≤ argv.length)
          && decide (argv[i]? = some option))
      ↔ optionPosition argv.length i ∧ argv[i]? = some option := by
    intro i
    simp only [List.mem_filter, List.mem_range, Bool.and_eq_true, decide_eq_true_eq,
      optionPosition]
    constructor
    · rintro ⟨_, h1, h2⟩
      exact ⟨h1, h2⟩
    · rintro ⟨h1, h2⟩
      exact ⟨by omega, h1, h2⟩
  unfold lastOptionValue
  generalize (List.range argv.length).filter
      (fun i => decide (i % 2 = 1 ∧ i + 3 ≤ argv.length)
        && decide (argv[i]? = some option)) = l at hsorted hmem
  cases hlast : l.getLast? with
  | none =>
    left
    refine ⟨rfl, ?_⟩
    intro i hi hocc
    have : i ∈ l := (hmem i).mpr ⟨hi, hocc⟩
    rw [List.getLast?_eq_none_iff.mp hlast] at this
    simp at this
  | some m =>
    right
    obtain ⟨ys, hys⟩ := List.getLast?_eq_some_iff.mp hlast
    have hm : m ∈ l := by rw [hys]; simp
    obtain ⟨hpos, hocc⟩ := (hmem m).mp hm
    refine ⟨m, hpos, hocc, ?_, rfl⟩
    intro j hj hjpos hjocc
    have hjl : j ∈ l := (hmem j).mpr ⟨hjpos, hjocc⟩
    rw [hys] at hjl hsorted
    rw [List.pairwise_append] at hsorted
    rcases List.mem_append.mp hjl with h | h
    · have := hsorted.2.2 j h m (by simp)
      omega
    · simp at h
      omega

/-- The parsing phase of `System_Init`: it ends, it accepts exactly the argument vectors of
even length, at least 2, whose argument 1 is not `--help` and whose arguments at the option
positions are options, and then the robot name is the last argument, the directory the value
after the last `--config`, `./config/` if there is none, and the address the value after the
last `--addr`, if there is one. -/
theorem parseArguments_spec (argv : List String) :
    (∃ r, parseArguments argv = some r) ∧
    ((∃ a, parseArguments argv = some (Except.ok a)) ↔
      (2 ≤ argv.length ∧ argv[1]? ≠ some "--help" ∧ argv.length % 2 = 0 ∧
        ∀ i, optionPosition argv.length i →
          (argv[i]? = some "--config" ∨ argv[i]? = some "--addr"))) ∧
    (∀ a, parseArguments argv = some (Except.ok a) →
      some a.robotConfigName = argv[argv.length - 1]? ∧
      a.configDirectory = (lastOptionValue argv "--config").getD "./config/" ∧
      a.connectionAddress = lastOptionValue argv "--addr") := by
  by_cases hargc : argv.length < 2
  · have hstep : parseArguments argv = some (Except.error InitError.wrongUsage) := by
      simp only [parseArguments, hargc, if_true]
    rw [hstep]
    refine ⟨⟨_, rfl⟩, ?_, ?_⟩
    · constructor
      · rintro ⟨a, h⟩
        simp at h
      · rintro ⟨h, _⟩
        omega
    · intro a h
      simp at h
  · by_cases hhelp : argv[1]? = some "--help"
    · have hstep : parseArguments argv = some (Except.error InitError.usage) := by
        simp only [parseArguments, hargc, hhelp, if_true, if_false]
      rw [hstep]
      refine ⟨⟨_, rfl⟩, ?_, ?_⟩
      · constructor
        · rintro ⟨a, h⟩
          simp at h
        · rintro ⟨_, h, _⟩
          exact absurd hhelp h
      · intro a h
        simp at h
    · have hstep : parseArguments argv = parseOptions argv argv.length 1
          { configDirectory := "./config/"
            connectionAddress := none
            robotConfigName := argv.getD (argv.length - 1) "" } := by
        simp only [parseArguments, hargc, hhelp, if_false]
      rw [hstep]
      obtain ⟨t1, t2⟩ := parseOptions_accepts argv argv.length 1
          { configDirectory := "./config/"
            connectionAddress := none
            robotConfigName := argv.getD (argv.length - 1) "" } (by omega) (by omega)
      have hpos : ∀ i, optionPosition argv.length i ↔
          (1 ≤ i ∧ (i - 1) % 2 = 0 ∧ i + 3 ≤ argv.length) := by
        intro i
        unfold optionPosition
        omega
      refine ⟨t1, ?_, ?_⟩
      · rw [t2]
        constructor
        · rintro ⟨hpar, hall⟩
          refine ⟨by omega, hhelp, by omega, ?_⟩
          intro i hi
          obtain ⟨h1, h2, h3⟩ := (hpos i).mp hi
          exact hall i h1 h2 h3
        · rintro ⟨_, _, hpar, hall⟩
          refine ⟨by omega, ?_⟩
          intro i h1 h2 h3
          exact hall i ((hpos i).mpr ⟨h1, h2, h3⟩)
      · intro a ha
        obtain ⟨r1, r2, r3, r4, r5⟩ := parseOptions_values argv argv.length 1 _ a ha
        refine ⟨?_, ?_, ?_⟩
        · rw [r1]
          simp only []
          rw [List.getD_eq_getElem?_getD,
            List.getElem?_eq_getElem (by omega : argv.length - 1 < argv.length)]
          rfl
        · rcases lastOptionValue_cases argv "--config" with ⟨hv, hnone⟩ | ⟨i, hi, hocc, hlast, hv⟩
          · rw [hv, r2 (fun i h1 h2 h3 => hnone i ((hpos i).mpr ⟨h1, h2, h3⟩))]
            rfl
          · obtain ⟨h1, h2, h3⟩ := (hpos i).mp hi
            have := r3 i h1 h2 h3 hocc
              (fun j hj hj2 hj3 => hlast j hj ((hpos j).mpr ⟨by omega, hj2, hj3⟩))
            rw [hv, ← this]
            rfl
        · rcases lastOptionValue_cases argv "--addr" with ⟨hv, hnone⟩ | ⟨i, hi, hocc, hlast, hv⟩
          · rw [hv, r4 (fun i h1 h2 h3 => hnone i ((hpos i).mpr ⟨h1, h2, h3⟩))]
          · obtain ⟨h1, h2, h3⟩ := (hpos i).mp hi
            rw [hv]
            exact r5 i h1 h2 h3 hocc
              (fun j hj hj2 hj3 => hlast j hj ((hpos j).mpr ⟨by omega, hj2, hj3⟩))

/-- What the branch `robotName != NULL` of `RefreshRobotsInfo` leaves untouched, and the call
of `Robot_Init` that it records. -/
theorem refreshController_frame {W Val : Type} (env : Env W Val) (robotName : String)
    (st : System W Val) :
    (refreshController env robotName st).dofsNumber = st.dofsNumber ∧
    (refreshController env robotName st).robotEventsConnection = st.robotEventsConnection ∧
    (refreshController env robotName st).robotAxesConnection = st.robotAxesConnection ∧
    (refreshController env robotName st).robotJointsConnection = st.robotJointsConnection ∧
    (refreshController env robotName st).robotInfo = st.robotInfo ∧
    (refreshController env robotName st).messageBuffer = st.messageBuffer ∧
    (∃ (result : Option Robot) (before after : List (Event Val)),
      (refreshController env robotName st).log
        = st.log ++ before ++ [Event.Robot_Init robotName result] ++ after) := by
  cases hinit : env.Robot_Init robotName
      (if st.robotController ≠ none then env.Robot_End st.robotController st.world
        else st.world) with
  | mk result world =>
    cases result with
    | none =>
      by_cases hc : st.robotController ≠ none
      · rw [if_pos hc] at hinit
        have h : refreshController env robotName st =
            { st with
              robotController := none
              world := world
              log := st.log ++ [Event.Robot_End st.robotController]
                ++ [Event.Robot_Init robotName none] } := by
          simp [refreshController, hc, hinit]
        rw [h]
        exact ⟨rfl, rfl, rfl, rfl, rfl, rfl, none, [Event.Robot_End st.robotController], [],
          by simp⟩
      · rw [if_neg hc] at hinit
        have h : refreshController env robotName st =
            { st with
              robotController := none
              world := world
              log := st.log ++ [Event.Robot_Init robotName none] } := by
          simp [refreshController, hc, hinit]
        rw [h]
        exact ⟨rfl, rfl, rfl, rfl, rfl, rfl, none, [], [], by simp⟩
    | some robot =>
      by_cases hc : st.robotController ≠ none
      · rw [if_pos hc] at hinit
        have h : refreshController env robotName st =
            refreshLists env robotName
              { st with
                robotController := some robot
                world := world
                log := st.log ++ [Event.Robot_End st.robotController]
                  ++ [Event.Robot_Init robotName (some robot)] } := by
          simp [refreshController, hc, hinit]
        obtain ⟨events, h2⟩ := refreshLists_spec env robotName
          { st with
            robotController := some robot
            world := world
            log := st.log ++ [Event.Robot_End st.robotController]
              ++ [Event.Robot_Init robotName (some robot)] }
        rw [h, h2]
        exact ⟨rfl, rfl, rfl, rfl, rfl, rfl, some robot, [Event.Robot_End st.robotController],
          events, rfl⟩
      · rw [if_neg hc] at hinit
        have h : refreshController env robotName st =
            refreshLists env robotName
              { st with
                robotController := some robot
                world := world
                log := st.log ++ [Event.Robot_Init robotName (some robot)] } := by
          simp [refreshController, hc, hinit]
        obtain ⟨events, h2⟩ := refreshLists_spec env robotName
          { st with
            robotController := some robot
            world := world
            log := st.log ++ [Event.Robot_Init robotName (some robot)] }
        rw [h, h2]
        exact ⟨rfl, rfl, rfl, rfl, rfl, rfl, some robot, [], events, by simp⟩

/-- The function `System_Init` on an argument vector that the parsing phase accepts. -/
theorem System_Init_ok {W Val : Type} (env : Env W Val) (ipc : IPCLayer) (argv : List String)
    (st : System W Val) (args : Arguments)
    (hparse : parseArguments argv = some (Except.ok args)) :
    System_Init env ipc argv st =
      some
        { returned := true
          system := refreshController env args.robotConfigName
            { st with
              robotEventsConnection :=
                ipc.IPC_OpenConnection IPCTransport.IPC_TCP args.connectionAddress 50000
              robotAxesConnection :=
                ipc.IPC_OpenConnection IPCTransport.IPC_UDP args.connectionAddress 50001
              robotJointsConnection :=
                ipc.IPC_OpenConnection IPCTransport.IPC_UDP args.connectionAddress 50002
              json := (DataIO_CreateEmptyData st.json).1
              robotInfo := (DataIO_CreateEmptyData st.json).2 }
          error := none
          opened :=
            [(IPCTransport.IPC_TCP, args.connectionAddress, 50000),
             (IPCTransport.IPC_UDP, args.connectionAddress, 50001),
             (IPCTransport.IPC_UDP, args.connectionAddress, 50002)]
          basePath := some args.configDirectory } := by
  simp only [System_Init, hparse, RefreshRobotsInfo]

/-- The function `System_Init` on an argument vector that the parsing phase rejects. -/
theorem System_Init_error {W Val : Type} (env : Env W Val) (ipc : IPCLayer)
    (argv : List String) (st : System W Val) (e : InitError)
    (hparse : parseArguments argv = some (Except.error e)) :
    System_Init env ipc argv st =
      some { returned := false, system := st, error := some e, opened := [], basePath := none } := by
  simp only [System_Init, hparse]

/-- Claim C17. For every argument vector, `System_Init` returns, and it returns true if and
only if `argc >= 2`, `argv[1]` is not `--help`, `argc` is even and every argument at an odd
position from 1 to `argc - 3` is `--config` or `--addr`. When it returns true, the three
channels were opened at the value that follows the last `--addr` (`NULL` if there is none), the
base path is the value that follows the last `--config` (`./config/` if there is none), and the
robot that was initialised is named `argv[argc - 1]`. -/
theorem System_Init_accepts_iff {W Val : Type} (env : Env W Val) (ipc : IPCLayer)
    (argv : List String) (st : System W Val) :
    ∃ r : InitResult W Val,
      System_Init env ipc argv st = some r ∧
      (r.returned = true ↔
        (2 ≤ argv.length ∧ argv[1]? ≠ some "--help" ∧ argv.length % 2 = 0 ∧
          ∀ i, optionPosition argv.length i →
            (argv[i]? = some "--config" ∨ argv[i]? = some "--addr"))) ∧
      (r.returned = true →
        r.opened =
          [(IPCTransport.IPC_TCP, lastOptionValue argv "--addr", 50000),
           (IPCTransport.IPC_UDP, lastOptionValue argv "--addr", 50001),
           (IPCTransport.IPC_UDP, lastOptionValue argv "--addr", 50002)] ∧
        r.basePath = some ((lastOptionValue argv "--config").getD "./config/") ∧
        (∃ (robotName : String) (result : Option Robot) (before after : List (Event Val)),
          some robotName = argv[argv.length - 1]? ∧
          r.system.log = st.log ++ before ++ [Event.Robot_Init robotName result] ++ after)) := by
  obtain ⟨⟨p, hp⟩, hiff, hvalues⟩ := parseArguments_spec argv
  cases p with
  | error e =>
    refine ⟨_, System_Init_error env ipc argv st e hp, ?_, ?_⟩
    · constructor
      · intro h
        simp at h
      · intro h
        obtain ⟨a, ha⟩ := hiff.mpr h
        rw [hp] at ha
        simp at ha
    · intro h
      simp at h
  | ok args =>
    obtain ⟨v1, v2, v3⟩ := hvalues args hp
    obtain ⟨_, _, _, _, _, _, result, before, after, hlog⟩ :=
      refreshController_frame env args.robotConfigName
        { st with
          robotEventsConnection :=
            ipc.IPC_OpenConnection IPCTransport.IPC_TCP args.connectionAddress 50000
          robotAxesConnection :=
            ipc.IPC_OpenConnection IPCTransport.IPC_UDP args.connectionAddress 50001
          robotJointsConnection :=
            ipc.IPC_OpenConnection IPCTransport.IPC_UDP args.connectionAddress 50002
          json := (DataIO_CreateEmptyData st.json).1
          robotInfo := (DataIO_CreateEmptyData st.json).2 }
    refine ⟨_, System_Init_ok env ipc argv st args hp, ?_, ?_⟩
    · constructor
      · intro _
        exact hiff.mp ⟨args, hp⟩
      · intro _
        rfl
    · intro _
      refine ⟨by simp only [v3], by simp only [v2], args.robotConfigName, result, before, after,
        v1, hlog⟩

/-- The function `UpdateEvents` in a state where the descriptor exists: it returns, and the
descriptor handle is as it was. -/
theorem UpdateEvents_robotInfo {W Val : Type} (env : Env W Val) (st : System W Val)
    (hinfo : st.robotInfo ≠ none) :
    ∃ st' : System W Val, UpdateEvents env st = some st' ∧ st'.robotInfo = st.robotInfo := by
  have hloop : ∀ (requests : List (List Nat)) (s : System W Val) (messageIn : Nat),
      s.robotInfo ≠ none →
      ∃ q : System W Val × Nat,
        eventsLoop env requests (s, messageIn) = some q ∧ q.1.robotInfo = s.robotInfo := by
    intro requests
    induction requests with
    | nil =>
      intro s messageIn _
      exact ⟨(s, messageIn), rfl, rfl⟩
    | cons request rest ih =>
      intro s messageIn hs
      obtain ⟨s1, _, _, h1, _, _, h4, _, _⟩ :=
        eventsTurn_total env request { s with eventsQueue := rest } messageIn hs
      obtain ⟨q, k1, k2⟩ := ih s1 (messageIn + 1) (by rw [h4]; exact hs)
      refine ⟨q, ?_, ?_⟩
      · simp only [eventsLoop, h1, k1]
      · rw [k2, h4]
  obtain ⟨q, h1, h2⟩ := hloop st.eventsQueue st 0 hinfo
  exact ⟨q.1, by simp [UpdateEvents, h1], h2⟩

/-- The function `System_Update` in a state where the descriptor exists: it returns, and the
descriptor handle is as it was. -/
theorem System_Update_robotInfo {W Val : Type} (env : Env W Val) (st : System W Val)
    (hinfo : st.robotInfo ≠ none) :
    ∃ st' : System W Val, System_Update env st = some st' ∧ st'.robotInfo = st.robotInfo := by
  obtain ⟨st1, h1, h2⟩ := UpdateEvents_robotInfo env st hinfo
  refine ⟨UpdateJoints env (UpdateAxes env st1), by simp [System_Update, h1], ?_⟩
  rw [(UpdateJoints_frame env _).1, (UpdateAxes_frame env _).1, h2]

/-- The loop of `main` from a state where the descriptor exists: no cycle faults, so
`System_Update` is called once in every cycle, and the loop ends with `EXIT_SUCCESS`. -/
theorem runCycles_total {W Val : Type} (env : Env W Val) (cycles : List Arrival) :
    ∀ (st : System W Val) (updates : Nat), st.robotInfo ≠ none →
      (runCycles env cycles st updates).updates = updates + cycles.length ∧
      (runCycles env cycles st updates).status = EXIT_SUCCESS := by
  induction cycles with
  | nil =>
    intro st updates _
    exact ⟨rfl, rfl⟩
  | cons arrival rest ih =>
    intro st updates hinfo
    obtain ⟨st1, h1, h2⟩ := System_Update_robotInfo env
      { st with
        eventsQueue := st.eventsQueue ++ arrival.events
        axesQueue := st.axesQueue ++ arrival.axes } hinfo
    obtain ⟨k1, k2⟩ := ih st1 (updates + 1) (by rw [h2]; exact hinfo)
    simp only [runCycles, h1, List.length_cons]
    exact ⟨by rw [k1]; omega, k2⟩

/-- Claim C12, amended. On an argument vector that the parsing phase accepts, `System_Init`
does not examine what `IPC_OpenConnection` returns: the three connection variables hold the
results of the three calls, `NULL` included, the descriptor is created, the robot named last
is initialised, and true is returned; `main` then enters the update loop and calls
`System_Update` once in every cycle that runs before the interruption signal, and the process
ends with `EXIT_SUCCESS`. -/
theorem System_Init_keeps_open_results {W Val : Type} (env : Env W Val) (ipc : IPCLayer)
    (argv : List String) (world : W) (cycles : List Arrival) (args : Arguments)
    (haccepted : parseArguments argv = some (Except.ok args)) :
    ∃ (r : InitResult W Val) (x : ProcessExit W Val),
      System_Init env ipc argv (System.initial world) = some r ∧
      r.returned = true ∧
      r.system.robotEventsConnection
        = ipc.IPC_OpenConnection IPCTransport.IPC_TCP args.connectionAddress 50000 ∧
      r.system.robotAxesConnection
        = ipc.IPC_OpenConnection IPCTransport.IPC_UDP args.connectionAddress 50001 ∧
      r.system.robotJointsConnection
        = ipc.IPC_OpenConnection IPCTransport.IPC_UDP args.connectionAddress 50002 ∧
      r.system.robotInfo = some 0 ∧
      (∃ (result : Option Robot) (before after : List (Event Val)),
        r.system.log = before ++ [Event.Robot_Init args.robotConfigName result] ++ after) ∧
      main env ipc argv world cycles = some x ∧
      x.updates = cycles.length ∧
      x.status = EXIT_SUCCESS := by
  obtain ⟨_, h1, h2, h3, h4, _, result, before, after, hlog⟩ :=
    refreshController_frame env args.robotConfigName
      { (System.initial world : System W Val) with
        robotEventsConnection :=
          ipc.IPC_OpenConnection IPCTransport.IPC_TCP args.connectionAddress 50000
        robotAxesConnection :=
          ipc.IPC_OpenConnection IPCTransport.IPC_UDP args.connectionAddress 50001
        robotJointsConnection :=
          ipc.IPC_OpenConnection IPCTransport.IPC_UDP args.connectionAddress 50002
        json := (DataIO_CreateEmptyData (System.initial world : System W Val).json).1
        robotInfo := (DataIO_CreateEmptyData (System.initial world : System W Val).json).2 }
  have hinit := System_Init_ok env ipc argv (System.initial world) args haccepted
  have hinfo : (refreshController env args.robotConfigName
      { (System.initial world : System W Val) with
        robotEventsConnection :=
          ipc.IPC_OpenConnection IPCTransport.IPC_TCP args.connectionAddress 50000
        robotAxesConnection :=
          ipc.IPC_OpenConnection IPCTransport.IPC_UDP args.connectionAddress 50001
        robotJointsConnection :=
          ipc.IPC_OpenConnection IPCTransport.IPC_UDP args.connectionAddress 50002
        json := (DataIO_CreateEmptyData (System.initial world : System W Val).json).1
        robotInfo := (DataIO_CreateEmptyData (System.initial world : System W Val).json).2 }
      ).robotInfo = some 0 := by
    rw [h4]
    rfl
  obtain ⟨k1, k2⟩ := runCycles_total env cycles _ 0 (by rw [hinfo]; simp)
  refine ⟨_, _, hinit, rfl, h1, h2, h3, hinfo, ⟨result, before ++ [], after, ?_⟩, ?_, ?_, k2⟩
  · rw [hlog]
    simp [System.initial]
  · simp only [main, hinit, if_true]
  · rw [k1]
    omega

/-- Claim C13, amended. On an argument vector that the parsing phase of `System_Init` rejects,
`main` never calls `System_Update`, and the process ends with the status `EXIT_SUCCESS` after
the handler registered with `atexit` has run on the initial globals. -/
theorem main_rejected_arguments_exit {W Val : Type} (env : Env W Val) (ipc : IPCLayer)
    (argv : List String) (world : W) (cycles : List Arrival) (e : InitError)
    (hrejected : parseArguments argv = some (Except.error e)) :
    ∃ x : ProcessExit W Val,
      main env ipc argv world cycles = some x ∧
      x.updates = 0 ∧
      x.status = EXIT_SUCCESS ∧
      x.system.log = [Event.Robot_End none] := by
  have hinit := System_Init_error env ipc argv (System.initial world : System W Val) e hrejected
  refine ⟨ProcessExit.mk EXIT_SUCCESS 0 (System_End env (System.initial world)), ?_, rfl, rfl,
    rfl⟩
  simp [main, hinit]

/-! ## The DOF count over the states of the program -/

/-- No call of `RefreshRobotsInfo` assigns the DOF count. -/
theorem RefreshRobotsInfo_dofsNumber {W Val : Type} (env : Env W Val)
    (robotName : Option String) (sharedControlsString : Option Nat) (st st' : System W Val)
    (h : RefreshRobotsInfo env robotName sharedControlsString st = some st') :
    st'.dofsNumber = st.dofsNumber := by
  have hname : (match robotName with
      | none => st
      | some name => refreshController env name st).dofsNumber = st.dofsNumber := by
    cases robotName with
    | none => rfl
    | some name => exact (refreshController_frame env name st).1
  unfold RefreshRobotsInfo at h
  cases sharedControlsString with
  | none =>
    simp only [Option.some.injEq] at h
    rw [← h]
    exact hname
  | some destination =>
    simp only at h
    split at h
    · simp at h
    · simp only [Option.some.injEq] at h
      rw [← h]
      exact hname

/-- No command of the events channel assigns the DOF count. -/
theorem dispatchCommand_dofsNumber {W Val : Type} (env : Env W Val) (c : Nat)
    (st st' : System W Val) (h : dispatchCommand env c st = some st') :
    st'.dofsNumber = st.dofsNumber := by
  by_cases h0 : c = 0x00
  · rw [dispatchCommand, if_pos h0] at h
    exact RefreshRobotsInfo_dofsNumber env none (some 1) st st' h
  by_cases h1 : c = env.ROBOT_CMD_DISABLE
  · rw [dispatchCommand, if_neg h0, if_pos h1] at h
    simp only [Option.some.injEq] at h
    rw [← h]
  by_cases h2 : c = env.ROBOT_CMD_ENABLE
  · rw [dispatchCommand, if_neg h0, if_neg h1, if_pos h2] at h
    simp only [Option.some.injEq] at h
    rw [← h]
  by_cases h3 : c = env.ROBOT_CMD_OFFSET
  · rw [dispatchCommand, if_neg h0, if_neg h1, if_neg h2, if_pos h3] at h
    simp only [Option.some.injEq] at h
    rw [← h]
  by_cases h4 : c = env.ROBOT_CMD_CALIBRATE
  · rw [dispatchCommand, if_neg h0, if_neg h1, if_neg h2, if_neg h3, if_pos h4] at h
    simp only [Option.some.injEq] at h
    rw [← h]
  by_cases h5 : c = env.ROBOT_CMD_PREPROCESS
  · rw [dispatchCommand, if_neg h0, if_neg h1, if_neg h2, if_neg h3, if_neg h4, if_pos h5] at h
    simp only [Option.some.injEq] at h
    rw [← h]
  by_cases h6 : c = env.ROBOT_CMD_OPERATE
  · rw [dispatchCommand, if_neg h0, if_neg h1, if_neg h2, if_neg h3, if_neg h4, if_neg h5,
      if_pos h6] at h
    simp only [Option.some.injEq] at h
    rw [← h]
  · rw [dispatchCommand, if_neg h0, if_neg h1, if_neg h2, if_neg h3, if_neg h4, if_neg h5,
      if_neg h6] at h
    simp only [ite_self, Option.some.injEq] at h
    rw [← h]

/-- No turn of the loop of `UpdateEvents` assigns the DOF count. -/
theorem eventsTurn_dofsNumber {W Val : Type} (env : Env W Val) (request : List Nat)
    (p q : System W Val × Nat) (h : eventsTurn env request p = some q) :
    q.1.dofsNumber = p.1.dofsNumber := by
  unfold eventsTurn at h
  simp only at h
  split at h
  · simp at h
  · rename_i st1 hd
    simp only [Option.some.injEq] at h
    rw [← h]
    have hkeep := dispatchCommand_dofsNumber env _ _ st1 hd
    exact hkeep

/-- The function `UpdateEvents` does not assign the DOF count. -/
theorem UpdateEvents_dofsNumber {W Val : Type} (env : Env W Val) (st st' : System W Val)
    (h : UpdateEvents env st = some st') : st'.dofsNumber = st.dofsNumber := by
  have hloop : ∀ (requests : List (List Nat)) (p q : System W Val × Nat),
      eventsLoop env requests p = some q → q.1.dofsNumber = p.1.dofsNumber := by
    intro requests
    induction requests with
    | nil =>
      intro p q hq
      simp only [eventsLoop, Option.some.injEq] at hq
      rw [hq]
    | cons request rest ih =>
      intro p q hq
      simp only [eventsLoop] at hq
      split at hq
      · simp at hq
      · rename_i r hr
        rw [ih r q hq, eventsTurn_dofsNumber env request _ r hr]
  unfold UpdateEvents at h
  cases hl : eventsLoop env st.eventsQueue (st, 0) with
  | none => simp [hl] at h
  | some q =>
    simp only [hl, Option.map_some', Option.some.injEq] at h
    rw [← h]
    exact hloop _ _ q hl

/-- The inbound loop of `UpdateAxes` when the DOF count is 0: every block is skipped after the
read of the handle array, and the DOF count stays 0. -/
theorem setpointLoop_zero {W Val : Type} (env : Env W Val) (count : Nat) :
    ∀ (k : Nat) (st : System W Val) (c : Nat), st.dofsNumber = 0 →
    ∃ events : List (Event Val),
      (forLoop (setpointBlock env) count k (st, c)).1.log = st.log ++ events ∧
      (∀ e ∈ events, ∃ i, e = Event.axesListRead i) ∧
      (forLoop (setpointBlock env) count k (st, c)).1.world = st.world ∧
      (forLoop (setpointBlock env) count k (st, c)).1.dofsNumber = 0 := by
  induction count with
  | zero =>
    intro k st c hz
    exact ⟨[], by simp [forLoop], by simp, rfl, hz⟩
  | succ n ih =>
    intro k st c hz
    simp only [forLoop]
    rw [setpointBlock_invalid env k st c (by omega)]
    obtain ⟨events, h1, h2, hw, h3⟩ := ih (k + 1)
      ({ st with log := st.log ++ [Event.axesListRead (st.message c)] }) (c + 1) hz
    refine ⟨Event.axesListRead (st.message c) :: events, ?_, ?_, hw, h3⟩
    · rw [h1]; simp
    · intro e he
      rcases List.mem_cons.mp he with rfl | he
      · exact ⟨_, rfl⟩
      · exact h2 e he

/-- The `while` loop of `UpdateAxes` when the DOF count is 0: it records receptions and reads
of the handle array only, and the DOF count stays 0. -/
theorem axesLoop_zero {W Val : Type} (env : Env W Val) (received : List (List Nat)) :
    ∀ (p : System W Val × Nat), p.1.dofsNumber = 0 →
    ∃ events : List (Event Val),
      (axesLoop env received p).1.log = p.1.log ++ events ∧
      (∀ e ∈ events, (∃ c m, e = Event.IPC_ReadMessage c m) ∨ (∃ i, e = Event.axesListRead i)) ∧
      (axesLoop env received p).1.world = p.1.world ∧
      (axesLoop env received p).1.dofsNumber = 0 := by
  induction received with
  | nil =>
    intro p hz
    exact ⟨[], by simp [axesLoop], by simp, rfl, hz⟩
  | cons m rest ih =>
    intro p hz
    simp only [axesLoop]
    obtain ⟨ev1, a1, a2, aw, a3⟩ := setpointLoop_zero env
      (storeBytes p.1.message p.2 m p.2) 0
      { p.1 with
        axesQueue := rest
        message := storeBytes p.1.message p.2 m
        log := p.1.log ++ [Event.IPC_ReadMessage p.1.robotAxesConnection m] }
      (p.2 + 1) hz
    have hturn : axesTurn env m ({ p.1 with axesQueue := rest }, p.2)
        = forLoop (setpointBlock env) (storeBytes p.1.message p.2 m p.2) 0
          ({ p.1 with
            axesQueue := rest
            message := storeBytes p.1.message p.2 m
            log := p.1.log ++ [Event.IPC_ReadMessage p.1.robotAxesConnection m] },
            p.2 + 1) := rfl
    rw [hturn]
    obtain ⟨ev2, b1, b2, bw, b3⟩ := ih _ a3
    refine ⟨Event.IPC_ReadMessage p.1.robotAxesConnection m :: (ev1 ++ ev2), ?_, ?_, ?_, b3⟩
    · rw [b1, a1]; simp
    · intro e he
      rcases List.mem_cons.mp he with rfl | he
      · exact Or.inl ⟨_, _, rfl⟩
      · rcases List.mem_append.mp he with h | h
        · exact Or.inr (a2 e h)
        · exact b2 e h
    · rw [bw, aw]

/-- The function `UpdateAxes` when the DOF count is 0 and the buffer has a positive length:
it records receptions and reads of the handle array only, and the DOF count stays 0. -/
theorem UpdateAxes_zero {W Val : Type} (env : Env W Val) (st : System W Val)
    (hmax : 0 < env.IPC_MAX_MESSAGE_LENGTH) (hz : st.dofsNumber = 0) :
    ∃ events : List (Event Val),
      (UpdateAxes env st).log = st.log ++ events ∧
      (∀ e ∈ events, (∃ c m, e = Event.IPC_ReadMessage c m) ∨ (∃ i, e = Event.axesListRead i)) ∧
      (UpdateAxes env st).world = st.world ∧
      (UpdateAxes env st).dofsNumber = 0 := by
  obtain ⟨events, h1, h2, hw, h3⟩ := axesLoop_zero env st.axesQueue (st, 0) hz
  have hout : ∀ s : System W Val, s.dofsNumber = 0 →
      axesOutbound env s = { s with message := memset s.message 0 0 env.IPC_MAX_MESSAGE_LENGTH } := by
    intro s hs
    simp [axesOutbound, hs, forLoop, memset, hmax]
  refine ⟨events, ?_, h2, ?_, ?_⟩
  · simp only [UpdateAxes]
    rw [hout _ h3]
    exact h1
  · simp only [UpdateAxes]
    rw [hout _ h3]
    exact hw
  · simp only [UpdateAxes]
    rw [hout _ h3]
    exact h3

/-- The function `UpdateJoints` when the DOF count is 0 and the buffer has a positive length:
only the buffer is cleared. -/
theorem UpdateJoints_zero {W Val : Type} (env : Env W Val) (st : System W Val)
    (hmax : 0 < env.IPC_MAX_MESSAGE_LENGTH) (hz : st.dofsNumber = 0) :
    UpdateJoints env st
      = { st with messageOut := memset st.messageOut 0 0 env.IPC_MAX_MESSAGE_LENGTH } := by
  simp [UpdateJoints, hz, forLoop, memset, hmax]

/-- The function `System_Init` does not assign the DOF count. -/
theorem System_Init_dofsNumber {W Val : Type} (env : Env W Val) (ipc : IPCLayer)
    (argv : List String) (st : System W Val) (r : InitResult W Val)
    (h : System_Init env ipc argv st = some r) : r.system.dofsNumber = st.dofsNumber := by
  obtain ⟨⟨p, hp⟩, _, _⟩ := parseArguments_spec argv
  cases p with
  | error e =>
    rw [System_Init_error env ipc argv st e hp] at h
    simp only [Option.some.injEq] at h
    rw [← h]
  | ok args =>
    rw [System_Init_ok env ipc argv st args hp] at h
    simp only [Option.some.injEq] at h
    rw [← h]
    exact (refreshController_frame env args.robotConfigName _).1

/-- Claim C16. In every state that the program can be in, the DOF count is 0. Hence, the
buffers having a positive length, `UpdateAxes` records nothing but receptions and reads of the
handle array and leaves the robot as it is, so it applies no setpoint record and writes no
message, and `UpdateJoints` records nothing at all. -/
theorem dofsNumber_always_zero {W Val : Type} (env : Env W Val) (ipc : IPCLayer)
    (st : System W Val) (hmax : 0 < env.IPC_MAX_MESSAGE_LENGTH)
    (hreachable : Reachable env ipc st) :
    st.dofsNumber = 0 ∧
    (∀ e ∈ (UpdateAxes env st).log.drop st.log.length,
      (∃ c m, e = Event.IPC_ReadMessage c m) ∨ (∃ i, e = Event.axesListRead i)) ∧
    (UpdateAxes env st).world = st.world ∧
    (UpdateJoints env st).log = st.log := by
  have hzero : st.dofsNumber = 0 := by
    induction hreachable with
    | start world => rfl
    | init argv st0 r _ hinit ih => rw [System_Init_dofsNumber env ipc argv st0 r hinit, ih]
    | refresh robotName shared st0 st1 _ href ih =>
      rw [RefreshRobotsInfo_dofsNumber env robotName shared st0 st1 href, ih]
    | events st0 st1 _ hev ih => rw [UpdateEvents_dofsNumber env st0 st1 hev, ih]
    | axes st0 _ ih =>
      obtain ⟨_, _, _, _, h⟩ := UpdateAxes_zero env st0 hmax ih
      exact h
    | joints st0 _ ih =>
      rw [UpdateJoints_zero env st0 hmax ih]
      exact ih
    | arrival a st0 _ ih => exact ih
    | finish st0 _ ih => exact ih
  obtain ⟨events, h1, h2, hw, _⟩ := UpdateAxes_zero env st hmax hzero
  refine ⟨hzero, ?_, hw, ?_⟩
  · rw [h1]
    simpa using h2
  · rw [UpdateJoints_zero env st hmax hzero]

/-! ## The services in the states that the program can be in -/

/-- In every state that the program can be in, the DOF count is 0. -/
theorem reachable_dofsNumber {W Val : Type} (env : Env W Val) (ipc : IPCLayer)
    (st : System W Val) (hreachable : Reachable env ipc st) : st.dofsNumber = 0 := by
  induction hreachable with
  | start world => rfl
  | init argv st0 r _ hinit ih => rw [System_Init_dofsNumber env ipc argv st0 r hinit, ih]
  | refresh robotName shared st0 st1 _ href ih =>
    rw [RefreshRobotsInfo_dofsNumber env robotName shared st0 st1 href, ih]
  | events st0 st1 _ hev ih => rw [UpdateEvents_dofsNumber env st0 st1 hev, ih]
  | axes st0 _ ih => rw [(UpdateAxes_frame env st0).2, ih]
  | joints st0 _ ih => rw [(UpdateJoints_frame env st0).2, ih]
  | arrival a st0 _ ih => exact ih
  | finish st0 _ ih => exact ih

/-- The outbound part of `UpdateAxes` touches neither the DOF count nor the handle array nor
the connection. -/
theorem axesOutbound_frame {W Val : Type} (env : Env W Val) (st : System W Val) :
    (axesOutbound env st).dofsNumber = st.dofsNumber ∧
    (axesOutbound env st).axesList = st.axesList ∧
    (axesOutbound env st).robotAxesConnection = st.robotAxesConnection := by
  have hmeasure : ∀ (i : Nat) (p : System W Val × Nat),
      (p.1.dofsNumber = st.dofsNumber ∧ p.1.axesList = st.axesList ∧
        p.1.robotAxesConnection = st.robotAxesConnection) →
      ((axisMeasuresBlock env i p).1.dofsNumber = st.dofsNumber ∧
        (axisMeasuresBlock env i p).1.axesList = st.axesList ∧
        (axisMeasuresBlock env i p).1.robotAxesConnection = st.robotAxesConnection) := by
    intro i p hp
    exact hp
  have hout := forLoop_invariant
    (fun q : System W Val × Nat =>
      q.1.dofsNumber = st.dofsNumber ∧ q.1.axesList = st.axesList ∧
        q.1.robotAxesConnection = st.robotAxesConnection)
    (axisMeasuresBlock env) hmeasure st.dofsNumber 0
    ({ st with message := memset st.message 0 0 env.IPC_MAX_MESSAGE_LENGTH }, 1)
    ⟨rfl, rfl, rfl⟩
  unfold axesOutbound
  simp only []
  split
  · exact hout
  · exact hout

/-- Claim C8. Framing round trip. For every state that the program can be in, and for every
state at all when the maximum message length is below 7425: when the batch of the `N` DOFs of
the session fits the buffer, `1 + N * 29` being at most the maximum message length, the
outbound loop of `UpdateAxes` lays out the batch message of the spec for `N` records, the
record `i` with the index `i` and the seven floats of the result of the read of position `i`,
and the inbound loop of `UpdateAxes`, on receiving that buffer as a message at any place of
its buffer, applies exactly these records, in the same order, each at its index and with its
seven floats. -/
theorem batch_round_trip {W Val : Type} (env : Env W Val) (ipc : IPCLayer)
    (st : System W Val) (messageIn : Nat)
    (hcode : Reachable env ipc st ∨ env.IPC_MAX_MESSAGE_LENGTH < 7425)
    (hfit : 1 + st.dofsNumber * (1 + DOF_DATA_BLOCK_SIZE) ≤ env.IPC_MAX_MESSAGE_LENGTH) :
    ∃ results : List (Option (RobotVariables Val)),
      results.length = st.dofsNumber ∧
      (axesOutbound env st).log
        = st.log ++ (results.enumFrom 0).flatMap (fun q =>
            [Event.axesListRead q.1,
             Event.Robot_GetAxisMeasures ((st.axesList[q.1]?).join) q.2])
          ++ (if st.dofsNumber = 0 then []
            else [Event.IPC_WriteMessage st.robotAxesConnection
              (loadBytes (axesOutbound env st).message 0 env.IPC_MAX_MESSAGE_LENGTH)]) ∧
      loadBytes (axesOutbound env st).message 0 env.IPC_MAX_MESSAGE_LENGTH
        = batchMessage env.IPC_MAX_MESSAGE_LENGTH (results.map (blockFloats env)) ∧
      (axesTurn env (loadBytes (axesOutbound env st).message 0 env.IPC_MAX_MESSAGE_LENGTH)
          (axesOutbound env st, messageIn)).1.log
        = (axesOutbound env st).log ++
          [Event.IPC_ReadMessage st.robotAxesConnection
            (loadBytes (axesOutbound env st).message 0 env.IPC_MAX_MESSAGE_LENGTH)]
          ++ ((results.map (blockFloats env)).enumFrom 0).flatMap (fun q =>
              [Event.axesListRead q.1,
               Event.Robot_SetAxisSetpoints ((st.axesList[q.1]?).join)
                (floatsSetpoints env q.2)]) := by
  have h255 : st.dofsNumber ≤ 255 := by
    rcases hcode with hreachable | hmax
    · rw [reachable_dofsNumber env ipc st hreachable]
      omega
    · have hsize : DOF_DATA_BLOCK_SIZE = 28 := rfl
      rw [hsize] at hfit
      omega
  obtain ⟨f1, f2, f3⟩ := axesOutbound_frame env st
  obtain ⟨results, r1, r2, r3, r4⟩ := round_trip_of_byte_count env st (axesOutbound env st)
    messageIn
    h255 hfit (by rw [f1])
  refine ⟨results, r1, r2, r3, ?_⟩
  rw [r4, f2, f3]

/-! ## The start-up and the cycle on the sample inputs -/

/-- Claim C11, failing input. The program is started for the robot `arm1`, whose controller
reports two axes, and the first cycle receives a refresh request on the events channel and a
setpoint record for the axis 0 on the axes channel. The three channels are served in order,
events first, but the DOF count is still 0 after the refresh at start-up and the refresh of
the cycle, so the index 0 is rejected: the setpoints are not applied, and no batch is sent. -/
theorem System_Update_validates_against_unset_count :
    (System_Init sampleEnv sampleIPC ["robrehab", "arm1"] (System.initial ())).map
        (fun r => (r.system.robotController,
          sampleEnv.Robot_GetAxesNumber r.system.robotController r.system.world))
      = some (some 1, 2) ∧
    (System_Init sampleEnv sampleIPC ["robrehab", "arm1"] (System.initial ())).bind
        (fun r => (System_Update sampleEnv
            { r.system with eventsQueue := [[0]], axesQueue := [sampleSetpointMessage] }).map
          (fun st => (st.dofsNumber, st.log.drop r.system.log.length)))
      = some (0,
          [Event.IPC_ReadMessage (some 1) [0],
           Event.IPC_WriteMessage (some 1) ([0, 123, 42, 42, 42, 125] ++ List.replicate 58 0),
           Event.IPC_ReadMessage (some 2) sampleSetpointMessage,
           Event.axesListRead 0]) := by
  decide

/-- Claim C14, failing input. In the session of two DOFs, whose handle array has two entries,
an inbound message of one record with the index 200: the entry 200 of the handle array is read
before the index is compared with the DOF count. -/
theorem UpdateAxes_reads_handle_before_check :
    sampleSession.dofsNumber = 2 ∧
    sampleSession.axesList.length = 2 ∧
    (axesLoop sampleEnv [[1, 200]] (sampleSession, 0)).1.log
      = [Event.IPC_ReadMessage (some 2) [1, 200], Event.axesListRead 200] := by
  decide

/-- Claim C12, counterexample. On an IPC layer where no channel opens, `System_Init` returns
true with the three connections `NULL`, and `main` calls `System_Update` in the cycle that
runs. -/
theorem System_Init_succeeds_without_channels :
    (System_Init sampleEnv sampleClosedIPC ["robrehab", "arm1"] (System.initial ())).map
        (fun r => (r.returned, r.system.robotEventsConnection, r.system.robotAxesConnection,
          r.system.robotJointsConnection))
      = some (true, none, none, none) ∧
    (main sampleEnv sampleClosedIPC ["robrehab", "arm1"] () [⟨[], []⟩]).map
        (fun x => (x.status, x.updates))
      = some (EXIT_SUCCESS, 1) := by
  decide

/-- Claim C13, counterexample. Without a robot name, and with an unknown option, `System_Init`
returns false and the update loop never runs, but the exit status is `EXIT_SUCCESS`, which is
zero. -/
theorem main_rejected_arguments_exit_zero :
    (System_Init sampleEnv sampleIPC ["robrehab"] (System.initial ())).map
        (fun r => (r.returned, r.error)) = some (false, some InitError.wrongUsage) ∧
    (main sampleEnv sampleIPC ["robrehab"] () [⟨[[0]], []⟩]).map
        (fun x => (x.status, x.updates)) = some (0, 0) ∧
    (System_Init sampleEnv sampleIPC ["robrehab", "--port", "5", "arm1"] (System.initial ())).map
        (fun r => (r.returned, r.error))
      = some (false, some (InitError.unknownOption "--port")) ∧
    (main sampleEnv sampleIPC ["robrehab", "--port", "5", "arm1"] () [⟨[[0]], []⟩]).map
        (fun x => (x.status, x.updates)) = some (0, 0) := by
  decide

/-- Witness of the amended claim C13: an option without a value. -/
theorem main_rejected_arguments_exit_witness :
    parseArguments ["robrehab", "--config", "arm1"]
      = some (Except.error (InitError.missingValue "--config")) ∧
    ∃ x : ProcessExit Unit F32,
      main sampleEnv sampleIPC ["robrehab", "--config", "arm1"] () [⟨[[0]], []⟩] = some x ∧
      x.updates = 0 ∧
      x.status = EXIT_SUCCESS ∧
      x.system.log = [Event.Robot_End none] :=
  ⟨rfl,
   main_rejected_arguments_exit sampleEnv sampleIPC ["robrehab", "--config", "arm1"] ()
    [⟨[[0]], []⟩] (InitError.missingValue "--config") rfl⟩

/-- Witness of claim C16: the program started for the robot `arm1`, whose controller reports
two axes, with a setpoint record for the axis 0 pending on the axes channel. -/
theorem dofsNumber_always_zero_witness :
    (0 < sampleEnv.IPC_MAX_MESSAGE_LENGTH ∧ Reachable sampleEnv sampleIPC sampleBooted) ∧
    (sampleBooted.dofsNumber = 0 ∧
      (∀ e ∈ (UpdateAxes sampleEnv sampleBooted).log.drop sampleBooted.log.length,
        (∃ c m, e = Event.IPC_ReadMessage c m) ∨ (∃ i, e = Event.axesListRead i)) ∧
      (UpdateAxes sampleEnv sampleBooted).world = sampleBooted.world ∧
      (UpdateJoints sampleEnv sampleBooted).log = sampleBooted.log) :=
  have hsome :
      (System_Init sampleEnv sampleIPC ["robrehab", "arm1"] (System.initial ())).isSome = true :=
    by decide
  have hreachable : Reachable sampleEnv sampleIPC sampleBooted :=
    Reachable.arrival ⟨[], [sampleSetpointMessage]⟩ _
      (Reachable.init ["robrehab", "arm1"] (System.initial ())
        ((System_Init sampleEnv sampleIPC ["robrehab", "arm1"] (System.initial ())).get hsome)
        (Reachable.start ()) (Option.some_get hsome).symm)
  ⟨⟨by decide, hreachable⟩,
   dofsNumber_always_zero sampleEnv sampleIPC sampleBooted (by decide) hreachable⟩

/-- Witness of claim C17 on the sample argument vector: it is accepted, the channels are opened
at the address `10.0.0.1`, and the base path is that of the second `--config`. -/
theorem System_Init_accepts_iff_witness :
    ∃ r : InitResult Unit F32,
      System_Init sampleEnv sampleIPC sampleArguments (System.initial ()) = some r ∧
      r.returned = true ∧
      r.opened =
        [(IPCTransport.IPC_TCP, some "10.0.0.1", 50000),
         (IPCTransport.IPC_UDP, some "10.0.0.1", 50001),
         (IPCTransport.IPC_UDP, some "10.0.0.1", 50002)] ∧
      r.basePath = some "b/" := by
  obtain ⟨r, hinit, haccepts, hvalues⟩ :=
    System_Init_accepts_iff sampleEnv sampleIPC sampleArguments (System.initial ())
  have hoptions : ∀ i, optionPosition sampleArguments.length i →
      (sampleArguments[i]? = some "--config" ∨ sampleArguments[i]? = some "--addr") := by
    intro i hi
    obtain ⟨hodd, hle⟩ := hi
    have hlen : sampleArguments.length = 8 := rfl
    rw [hlen] at hle
    have hcases : i = 1 ∨ i = 3 ∨ i = 5 := by omega
    rcases hcases with rfl | rfl | rfl
    · exact Or.inl (by decide)
    · exact Or.inr (by decide)
    · exact Or.inl (by decide)
  have hreturned : r.returned = true :=
    haccepts.mpr ⟨by decide, by decide, by decide, hoptions⟩
  obtain ⟨hopened, hpath, _⟩ := hvalues hreturned
  refine ⟨r, hinit, hreturned, ?_, ?_⟩
  · rw [hopened]
    decide
  · rw [hpath]
    decide

/-- Witness of claim C8: with messages of 64 bytes, a session of two DOFs encodes, and decodes
what it encoded. -/
theorem batch_round_trip_witness :
    ((Reachable sampleEnv sampleIPC sampleSession ∨ sampleEnv.IPC_MAX_MESSAGE_LENGTH < 7425) ∧
      1 + sampleSession.dofsNumber * (1 + DOF_DATA_BLOCK_SIZE)
        ≤ sampleEnv.IPC_MAX_MESSAGE_LENGTH) ∧
    ∃ results : List (Option (RobotVariables F32)),
      results.length = sampleSession.dofsNumber ∧
      (axesOutbound sampleEnv sampleSession).log
        = sampleSession.log ++ (results.enumFrom 0).flatMap (fun q =>
            [Event.axesListRead q.1,
             Event.Robot_GetAxisMeasures ((sampleSession.axesList[q.1]?).join) q.2])
          ++ (if sampleSession.dofsNumber = 0 then []
            else [Event.IPC_WriteMessage sampleSession.robotAxesConnection
              (loadBytes (axesOutbound sampleEnv sampleSession).message 0 sampleEnv.IPC_MAX_MESSAGE_LENGTH)]) ∧
      loadBytes (axesOutbound sampleEnv sampleSession).message 0 sampleEnv.IPC_MAX_MESSAGE_LENGTH
        = batchMessage sampleEnv.IPC_MAX_MESSAGE_LENGTH (results.map (blockFloats sampleEnv)) ∧
      (axesTurn sampleEnv (loadBytes (axesOutbound sampleEnv sampleSession).message 0 sampleEnv.IPC_MAX_MESSAGE_LENGTH)
          (axesOutbound sampleEnv sampleSession, 0)).1.log
        = (axesOutbound sampleEnv sampleSession).log ++
          [Event.IPC_ReadMessage sampleSession.robotAxesConnection
            (loadBytes (axesOutbound sampleEnv sampleSession).message 0 sampleEnv.IPC_MAX_MESSAGE_LENGTH)]
          ++ ((results.map (blockFloats sampleEnv)).enumFrom 0).flatMap (fun q =>
              [Event.axesListRead q.1,
               Event.Robot_SetAxisSetpoints ((sampleSession.axesList[q.1]?).join)
                (floatsSetpoints sampleEnv q.2)]) :=
  ⟨⟨Or.inr (by decide), by decide⟩,
    batch_round_trip sampleEnv sampleIPC sampleSession 0 (Or.inr (by decide)) (by decide)⟩

/-- Witness of the amended claim C12 on the sample argument vector, with two cycles. -/
theorem System_Init_keeps_open_results_witness :
    parseArguments sampleArguments
      = some (Except.ok
          { configDirectory := "b/"
            connectionAddress := some "10.0.0.1"
            robotConfigName := "arm1" }) ∧
    ∃ (r : InitResult Unit F32) (x : ProcessExit Unit F32),
      System_Init sampleEnv sampleIPC sampleArguments (System.initial ()) = some r ∧
      r.returned = true ∧
      r.system.robotEventsConnection
        = sampleIPC.IPC_OpenConnection IPCTransport.IPC_TCP (some "10.0.0.1") 50000 ∧
      r.system.robotAxesConnection
        = sampleIPC.IPC_OpenConnection IPCTransport.IPC_UDP (some "10.0.0.1") 50001 ∧
      r.system.robotJointsConnection
        = sampleIPC.IPC_OpenConnection IPCTransport.IPC_UDP (some "10.0.0.1") 50002 ∧
      r.system.robotInfo = some 0 ∧
      (∃ (result : Option Robot) (before after : List (Event F32)),
        r.system.log = before ++ [Event.Robot_Init "arm1" result] ++ after) ∧
      main sampleEnv sampleIPC sampleArguments () sampleCycles = some x ∧
      x.updates = sampleCycles.length ∧
      x.status = EXIT_SUCCESS :=
  ⟨rfl,
   System_Init_keeps_open_results sampleEnv sampleIPC sampleArguments () sampleCycles
    { configDirectory := "b/"
      connectionAddress := some "10.0.0.1"
      robotConfigName := "arm1" }
    rfl⟩

/-- Witness of the amended claim C9: the sample session of the robot `arm1` is refreshed for
the robot `arm2`, whose axis 0 has a name that cannot be resolved. -/
theorem RefreshRobotsInfo_descriptor_matches_handles_witness :
    (sampleRefreshed.robotInfo = some 0 ∧
      sampleRefreshed.json[0]? = some sampleRoot ∧
      sampleRoot.type = JSONNodeType.JSON_TYPE_BRACE ∧
      sampleEnv.Robot_Init "arm2"
          (if sampleRefreshed.robotController ≠ none then
            sampleEnv.Robot_End sampleRefreshed.robotController sampleRefreshed.world
            else sampleRefreshed.world)
        = (some 2, ())) ∧
    ∃ (st' : System Unit F32) (axisNodes jointNodes : List Nat),
      RefreshRobotsInfo sampleEnv (some "arm2") none sampleRefreshed = some st' ∧
      st'.robotController = some 2 ∧
      st'.robotInfo = some 0 ∧
      st'.json[0]? = some { sampleRoot with
        children := sampleRoot.children
          ++ [sampleRefreshed.json.length, sampleRefreshed.json.length + 1, sampleRefreshed.json.length + 2] } ∧
      st'.json[sampleRefreshed.json.length]?
        = some ⟨JSONNodeType.JSON_TYPE_STRING, some "id", some "arm2", []⟩ ∧
      st'.json[sampleRefreshed.json.length + 1]?
        = some ⟨JSONNodeType.JSON_TYPE_BRACKET, some "joints", none, jointNodes⟩ ∧
      st'.json[sampleRefreshed.json.length + 2]?
        = some ⟨JSONNodeType.JSON_TYPE_BRACKET, some "axes", none, axisNodes⟩ ∧
      (∀ i, i ≠ 0 → i < sampleRefreshed.json.length → st'.json[i]? = sampleRefreshed.json[i]?) ∧
      axisNodes.map (fun c => (st'.json[c]?).bind (fun m => m.value))
        = ((List.range (sampleEnv.Robot_GetAxesNumber (some 2) ())).map
            (fun i => sampleEnv.Robot_GetAxisName (some 2) i ())).filter (fun n => n.isSome) ∧
      jointNodes.map (fun c => (st'.json[c]?).bind (fun m => m.value))
        = ((List.range (sampleEnv.Robot_GetJointsNumber (some 2) ())).map
            (fun i => sampleEnv.Robot_GetJointName (some 2) i ())).filter (fun n => n.isSome) ∧
      st'.axesList.length = sampleEnv.Robot_GetAxesNumber (some 2) () ∧
      st'.jointsList.length = sampleEnv.Robot_GetJointsNumber (some 2) () ∧
      (∀ i, i < sampleEnv.Robot_GetAxesNumber (some 2) () →
        (sampleEnv.Robot_GetAxisName (some 2) i () ≠ none →
          st'.axesList[i]? = some (sampleEnv.Robot_GetAxis (some 2) i ())) ∧
        (sampleEnv.Robot_GetAxisName (some 2) i () = none →
          st'.axesList[i]?
            = if i < sampleRefreshed.axesList.length then sampleRefreshed.axesList[i]?
              else some (sampleEnv.indeterminate i))) ∧
      (∀ i, i < sampleEnv.Robot_GetJointsNumber (some 2) () →
        (sampleEnv.Robot_GetJointName (some 2) i () ≠ none →
          st'.jointsList[i]? = some (sampleEnv.Robot_GetJoint (some 2) i ())) ∧
        (sampleEnv.Robot_GetJointName (some 2) i () = none →
          st'.jointsList[i]?
            = if i < sampleRefreshed.jointsList.length then sampleRefreshed.jointsList[i]?
              else some (sampleEnv.indeterminate i))) ∧
      ((∀ i, i < sampleEnv.Robot_GetAxesNumber (some 2) () →
          sampleEnv.Robot_GetAxisName (some 2) i () ≠ none) →
        axisNodes.map (fun c => (st'.json[c]?).bind (fun m => m.value))
          = (List.range (sampleEnv.Robot_GetAxesNumber (some 2) ())).map
              (fun i => sampleEnv.Robot_GetAxisName (some 2) i ()) ∧
        st'.axesList = (List.range (sampleEnv.Robot_GetAxesNumber (some 2) ())).map
              (fun i => sampleEnv.Robot_GetAxis (some 2) i ())) ∧
      ((∀ i, i < sampleEnv.Robot_GetJointsNumber (some 2) () →
          sampleEnv.Robot_GetJointName (some 2) i () ≠ none) →
        jointNodes.map (fun c => (st'.json[c]?).bind (fun m => m.value))
          = (List.range (sampleEnv.Robot_GetJointsNumber (some 2) ())).map
              (fun i => sampleEnv.Robot_GetJointName (some 2) i ()) ∧
        st'.jointsList = (List.range (sampleEnv.Robot_GetJointsNumber (some 2) ())).map
              (fun i => sampleEnv.Robot_GetJoint (some 2) i ())) ∧
      ((∃ i, i < sampleEnv.Robot_GetAxesNumber (some 2) () ∧
          sampleEnv.Robot_GetAxisName (some 2) i () = none) →
        axisNodes.length < st'.axesList.length) ∧
      ((∃ i, i < sampleEnv.Robot_GetJointsNumber (some 2) () ∧
          sampleEnv.Robot_GetJointName (some 2) i () = none) →
        jointNodes.length < st'.jointsList.length) ∧
      (sampleRoot.children = [] →
        DataIO_GetMemberValue st'.json st'.robotInfo "id" = some "arm2" ∧
        DataIO_GetStringList st'.json st'.robotInfo "axes"
          = some (axisNodes.map (fun c => (st'.json[c]?).bind (fun m => m.value))) ∧
        DataIO_GetStringList st'.json st'.robotInfo "joints"
          = some (jointNodes.map (fun c => (st'.json[c]?).bind (fun m => m.value)))) :=
  ⟨⟨by decide, by decide, by decide, by decide⟩,
    RefreshRobotsInfo_descriptor_matches_handles sampleEnv "arm2" sampleRefreshed 0 sampleRoot 2
      () (by decide) (by decide) (by decide) (by decide)⟩

end RobRehab
